import Mathlib

/-!
Veilborn roster bot: roster lifecycle and guild-state reconciliation.

A shallow embedding of `src/app/events/onReady.js`.

* The guild (channels, roles, members, messages, pins), the roster collection
  and the list of external calls issued so far form the `World`.
* Every `await`ed call on the Discord client or on the MongoDB collection is an
  `Action`.  It is appended to `World.log` when it is issued and may be
  rejected; which calls are rejected is decided by `Env.fails`, a function of
  the position of the call in the log and of the call itself.
* `new Date()` is `Env.clock`, read at the current log position.
* `config.json` is not part of the sources; the values `onReady.js` reads from
  it are the fields of `Config`.
* Dates are integers (milliseconds since the epoch), ids are natural numbers.
-/

namespace Veilborn

/-! ## Configuration -/

/-- The values read from `config.json`: `CHANNELS.CLOCK_CHANNEL`,
`CHANNELS.PARTY_FINDER`, `ROLES.CLOCKED_IN`, `ROLES.CONTENT_TYPES` (as
`Object.entries` lists it), `TIMERS.AUTO_CLOCK_OUT_HOURS`. -/
structure Config where
  CLOCK_CHANNEL : String
  PARTY_FINDER : String
  CLOCKED_IN : String
  CONTENT_TYPES : List (String × String)
  AUTO_CLOCK_OUT_HOURS : Nat
  deriving Repr

/-! ## Data model -/

/-- One document of the roster collection, with the fields `onReady.js` reads. -/
structure RosterEntry where
  guildId : Nat
  userId : Nat
  clockOutTime : Int
  deriving DecidableEq, Repr

/-- The `type` of a channel (`ChannelType.GuildText` is 0 in discord.js). -/
inductive ChannelType where
  | GuildText
  | GuildVoice
  | GuildCategory
  deriving DecidableEq, Repr

/-- The `PermissionsBitField.Flags` used by the channel descriptors. -/
inductive Permission where
  | ViewChannel
  | SendMessages
  | ReadMessageHistory
  | UseExternalEmojis
  | AddReactions
  deriving DecidableEq, Repr

/-- One element of `permissionOverwrites`. -/
structure Overwrite where
  id : Nat
  allow : List Permission
  deny : List Permission
  deriving DecidableEq, Repr

/-- The argument of `guild.channels.create`. -/
structure ChannelDescriptor where
  name : String
  type : ChannelType
  topic : String
  permissionOverwrites : List Overwrite
  deriving DecidableEq, Repr

/-- A channel of the guild. -/
structure Channel where
  id : Nat
  name : String
  type : ChannelType
  topic : String
  permissionOverwrites : List Overwrite
  deriving DecidableEq, Repr

/-- A role of the guild, with the fields `guild.roles.create` is given. -/
structure Role where
  id : Nat
  name : String
  color : Nat
  mentionable : Bool
  deriving DecidableEq, Repr

/-- A guild member: `roles` is `member.roles.cache` in iteration order, `cached`
says whether the member is in `guild.members.cache`. -/
structure Member where
  id : Nat
  displayName : String
  roles : List Role
  cached : Bool
  deriving DecidableEq, Repr

/-- The style of a button (`ButtonStyle`). -/
inductive ButtonStyle where
  | Primary
  | Success
  | Danger
  deriving DecidableEq, Repr

/-- A button built with `ButtonBuilder`; `disabled` is `none` when
`setDisabled` is not called. -/
structure Button where
  customId : String
  label : String
  style : ButtonStyle
  disabled : Option Bool
  deriving DecidableEq, Repr

/-- A message of a channel. -/
structure Message where
  id : Nat
  channelId : Nat
  authorId : Nat
  content : String
  components : List (List Button)
  deriving DecidableEq, Repr

/-- The comparison of a `clockOutTime` filter. -/
inductive Cmp where
  | gt
  | lte
  deriving DecidableEq, Repr

/-- An awaited call on the Discord client, on the roster collection, or on the
interaction of a slash command. -/
inductive Action where
  | find (guildId : Nat) (op : Cmp) (time : Int)
  | deleteMany (guildId : Nat) (op : Cmp) (time : Int)
  | rolesCreate (name : String) (color : Nat) (mentionable : Bool)
  | channelsCreate (descriptor : ChannelDescriptor)
  | fetchPinned (channelId : Nat)
  | messagesFetch (channelId : Nat) (limit : Nat)
  | send (channelId : Nat) (content : String)
  | edit (messageId : Nat) (content : String) (components : Option (List (List Button)))
  | pin (messageId : Nat)
  | membersFetch (userId : Nat)
  | rolesRemove (userId : Nat) (roleId : Nat)
  | memberSend (userId : Nat) (content : String)
  | countDocuments (guildId : Nat) (op : Cmp) (time : Int)
  | deferReply
  | editReply (content : String)
  | reply (content : String)
  deriving DecidableEq, Repr

/-- An interval timer installed with `setInterval`. -/
inductive Timer where
  | rosterUpdate (guildId : Nat) (everyMs : Nat)
  | channelVerification (guildId : Nat) (clockedInRole : Role) (everyMs : Nat)
  deriving DecidableEq, Repr

/-- The guild as the client sees it, the roster collection, and the calls
issued so far.  `messages` is newest first, `pins` most recently pinned first,
`log` oldest first; `nextId` is the id the platform gives to the next resource
it creates.  `deferred` and `replied` are the flags of the interaction a slash
command is handling. -/
structure World where
  guildId : Nat
  me : Nat
  channels : List Channel
  roles : List Role
  members : List Member
  messages : List Message
  pins : List Nat
  store : List RosterEntry
  log : List Action
  nextId : Nat
  timers : List Timer
  deferred : Bool := false
  replied : Bool := false
  deriving Repr

/-- What the functions are run against: the configuration, the outcome of
every external call, and the clock. -/
structure Env where
  config : Config
  fails : Nat → Action → Bool
  clock : Nat → Int

/-- A thrown error: a rejected call, a `ReferenceError` for an identifier that
is not declared, or a `TypeError` for a call of a value that is not a function. -/
inductive Err where
  | rejected (a : Action)
  | referenceError (name : String)
  | typeError (name : String)
  deriving DecidableEq, Repr

/-! ## Effects -/

/-- An `async` function body: from a world to a result (or a thrown error)
and the world it leaves. -/
def M (α : Type) : Type := World → Except Err α × World

/-- Sequencing; a thrown error skips the rest. -/
def M.bind {α β : Type} (m : M α) (f : α → M β) : M β := fun w =>
  match m w with
  | (Except.ok a, w1) => f a w1
  | (Except.error e, w1) => (Except.error e, w1)

instance : Monad M where
  pure a := fun w => (Except.ok a, w)
  bind := M.bind

/-- The statement `try { body } catch (error) { handler }`. -/
def tryCatch {α : Type} (body : M α) (handler : Err → M α) : M α := fun w =>
  match body w with
  | (Except.ok a, w1) => (Except.ok a, w1)
  | (Except.error e, w1) => handler e w1

/-- Reads the world (a cache lookup, not a call). -/
def getWorld : M World := fun w => (Except.ok w, w)

/-- The expression `new Date()`. -/
def now (env : Env) : M Int := fun w => (Except.ok (env.clock w.log.length), w)

/-- Issues an external call: logs it, then either throws (the call is
rejected) or applies its effect. -/
def call {α : Type} (env : Env) (a : Action) (effect : World → α × World) : M α := fun w =>
  let w1 := { w with log := w.log ++ [a] }
  if env.fails w.log.length a then (Except.error (Err.rejected a), w1)
  else (Except.ok (effect w1).1, (effect w1).2)

/-! ## The roster collection -/

/-- The filter `{ guildId, clockOutTime: { $gt | $lte: time } }`. -/
def matchesFilter (guildId : Nat) (op : Cmp) (time : Int) (r : RosterEntry) : Bool :=
  r.guildId == guildId &&
    (match op with
     | Cmp.gt => decide (time < r.clockOutTime)
     | Cmp.lte => decide (r.clockOutTime ≤ time))

/-- The call `rosterCollection.find(filter).toArray()`. -/
def find (env : Env) (guildId : Nat) (op : Cmp) (time : Int) : M (List RosterEntry) :=
  call env (Action.find guildId op time)
    (fun w => (w.store.filter (matchesFilter guildId op time), w))

/-- The call `rosterCollection.deleteMany(filter)`. -/
def deleteMany (env : Env) (guildId : Nat) (op : Cmp) (time : Int) : M Unit :=
  call env (Action.deleteMany guildId op time)
    (fun w => ((), { w with store := w.store.filter (fun r => !matchesFilter guildId op time r) }))

/-! ## Roster projection (the rendering part of `updateRosterMessage`) -/

/-- The characters of a string with ASCII letters lowered.  The class patterns
are ASCII and carry the flag `i` without `u`, under which a pattern letter
matches exactly its two ASCII cases. -/
def lowerAscii (s : String) : List Char := s.data.map Char.toLower

/-- Whether `pat` occurs in `hay` as a contiguous run. -/
def occursIn (pat hay : List Char) : Bool := hay.tails.any (fun t => pat.isPrefixOf t)

/-- The method `String.prototype.includes`. -/
def includes (s pat : String) : Bool := occursIn pat.data s.data

/-- A pattern `/a|b|c/i`: its alternatives, written in lower case. -/
structure RegExp where
  alternatives : List String
  deriving DecidableEq, Repr

/-- The method `pattern.test(role)`. -/
def RegExp.test (pattern : RegExp) (role : String) : Bool :=
  pattern.alternatives.any (fun a => occursIn a.data (lowerAscii role))

/-- The array `classPatterns`. -/
def classPatterns : List RegExp :=
  [ ⟨["rdps", "rdmg", "ranged"]⟩,
    ⟨["mdps", "mdmg", "melee"]⟩,
    ⟨["tank", "mt"]⟩,
    ⟨["healer", "heal", "support"]⟩,
    ⟨["caster", "magic"]⟩,
    ⟨["rogue", "assassin"]⟩,
    ⟨["warrior", "fighter"]⟩,
    ⟨["mage", "wizard"]⟩,
    ⟨["cleric", "priest"]⟩,
    ⟨["ranger", "hunter"]⟩ ]

/-- The loop `for (const pattern of classPatterns)` that sets `detectedClass`:
the first pattern with a matching role decides, and a matching role counts
when it is truthy (not the empty string). -/
def detectClass : List RegExp → List String → Option String
  | [], _ => none
  | pattern :: rest, classRoles =>
    match classRoles.find? (fun role => pattern.test role) with
    | some matchingRole =>
      if matchingRole ≠ "" then some matchingRole else detectClass rest classRoles
    | none => detectClass rest classRoles

/-- The array `memberRoles`: the names of the member's roles other than
`@everyone` and `Clocked In`. -/
def memberRoles (member : Member) : List String :=
  (member.roles.filter (fun role => role.name != "@everyone" && role.name != "Clocked In")).map
    (fun role => role.name)

/-- The array `contentTypeRoles`, `Object.values(CONTENT_TYPES)`. -/
def contentTypeRoles (config : Config) : List String := config.CONTENT_TYPES.map Prod.snd

/-- The array `classRoles`. -/
def classRoles (config : Config) (member : Member) : List String :=
  (memberRoles member).filter (fun role => !(contentTypeRoles config).contains role)

/-- The array `selectedContentTypes`. -/
def selectedContentTypes (config : Config) (member : Member) : List String :=
  (memberRoles member).filter (fun role => (contentTypeRoles config).contains role)

/-- The value `detectedClass` of a member. -/
def detectedClass (config : Config) (member : Member) : Option String :=
  detectClass classPatterns (classRoles config member)

/-- The expression `contentTypeEmojis[type] || type`. -/
def contentTypeEmoji (type : String) : String :=
  if type = "Full Roam" then "🌍"
  else if type = "Plunder & Gather" then "⚒️"
  else if type = "Crystals" then "💎"
  else if type = "Hellgates" then "🔥"
  else if type = "Roads" then "🛣️"
  else type

/-- The string `contentInfo`. -/
def contentInfo (config : Config) (member : Member) : String :=
  if (selectedContentTypes config member).length > 0 then
    " [" ++ String.join ((selectedContentTypes config member).map contentTypeEmoji) ++ "]"
  else ""

/-- The number `timeLeftMs`, `Math.max(0, entry.clockOutTime - currentTime)`. -/
def timeLeftMs (clockOutTime currentTime : Int) : Nat := (clockOutTime - currentTime).toNat

/-- The number `hoursLeft`. -/
def hoursLeft (t : Nat) : Nat := t / (1000 * 60 * 60)

/-- The number `minutesLeft`. -/
def minutesLeft (t : Nat) : Nat := (t % (1000 * 60 * 60)) / (1000 * 60)

/-- The string `timeInfo` of a remaining time of `t` milliseconds. -/
def timeInfoOf (t : Nat) : String :=
  if hoursLeft t > 0 then " (" ++ toString (hoursLeft t) ++ "h " ++ toString (minutesLeft t) ++ "m)"
  else if minutesLeft t > 0 then " (" ++ toString (minutesLeft t) ++ "m)"
  else if t > 0 then " (<1m)"
  else ""

/-- The string `timeInfo` of an entry. -/
def timeInfo (clockOutTime currentTime : Int) : String :=
  timeInfoOf (timeLeftMs clockOutTime currentTime)

/-- The string `classInfo`. -/
def classInfo (detected : Option String) : String :=
  match detected with
  | some c => if c ≠ "" then " - " ++ c else ""
  | none => ""

/-- The line the callback of `rosterEntries.map` returns for a resolved member. -/
def rosterLine (config : Config) (currentTime : Int) (entry : RosterEntry) (member : Member) :
    String :=
  "• " ++ member.displayName ++ classInfo (detectedClass config member) ++
    contentInfo config member ++ timeInfo entry.clockOutTime currentTime

/-- The lookup `channel.guild.members.cache.get(userId)`. -/
def membersCacheGet (members : List Member) (userId : Nat) : Option Member :=
  members.find? (fun m => m.cached && m.id == userId)

/-- The array `rosterLines`: `none` stands for `null`. -/
def rosterLines (config : Config) (members : List Member) (currentTime : Int)
    (rosterEntries : List RosterEntry) : List (Option String) :=
  rosterEntries.map (fun entry =>
    match membersCacheGet members entry.userId with
    | none => none
    | some member => some (rosterLine config currentTime entry member))

/-- The statement `roleStats[detectedClass] = (roleStats[detectedClass] || 0) + 1` on
an object whose keys are kept in insertion order.  (A detected class contains
a letter, so it is never an integer-like key, which `Object.entries` would
list first.) -/
def bump (roleStats : List (String × Nat)) (key : String) : List (String × Nat) :=
  match roleStats with
  | [] => [(key, 1)]
  | (k, n) :: rest => if k = key then (k, n + 1) :: rest else (k, n) :: bump rest key

/-- The object `roleStats` after the callbacks ran, one entry after the other. -/
def roleStats (config : Config) (members : List Member) (rosterEntries : List RosterEntry) :
    List (String × Nat) :=
  rosterEntries.foldl (fun stats entry =>
    match membersCacheGet members entry.userId with
    | none => stats
    | some member =>
      match detectedClass config member with
      | some c => if c ≠ "" then bump stats c else stats
      | none => stats) []

/-- The array `sortedStats` before it is joined: `sort(([, a], [, b]) => b - a)`,
a stable sort by count, larger first. -/
def sortedStats (stats : List (String × Nat)) : List (String × Nat) :=
  stats.insertionSort (fun x y => y.2 ≤ x.2)

/-- The string `rosterContent`. -/
def rosterContent (config : Config) (members : List Member) (currentTime : Int)
    (rosterEntries : List RosterEntry) : String :=
  if rosterEntries.length > 0 then
    let validLines := (rosterLines config members currentTime rosterEntries).filterMap id
    "**🎯 Active Players (" ++ toString validLines.length ++ "):**\n" ++
      String.intercalate "\n" validLines
  else "**🎯 Active Players:**\n*No players currently clocked in*"

/-- The string `statsContent`. -/
def statsContent (stats : List (String × Nat)) : String :=
  if stats.length > 0 then
    "\n\n**📊 Role Breakdown:** " ++
      String.intercalate " • " ((sortedStats stats).map (fun e => e.1 ++ ": " ++ toString e.2))
  else ""

/-- The string `helpContent`. -/
def helpContent : String :=
  "\n\n**💡 How to Use:**\n" ++
  "• Clock in/out using the buttons in #clock-station\n" ++
  "• Select content preferences using buttons below\n" ++
  "• Find players by their roles/classes and content interests\n" ++
  "• Auto clock-out after 4 hours\n" ++
  "• Use this roster to coordinate parties!\n\n" ++
  "**🎮 Content Types:**\n" ++
  "🌍 Full Roam • ⚒️ Plunder & Gather • 💎 Crystals\n" ++
  "🔥 Hellgates • 🛣️ Roads\n\n" ++
  "**🎯 Tips:**\n" ++
  "• Look for complementary roles for balanced parties\n" ++
  "• Check content preferences to find players for your activities\n" ++
  "• Message players directly if you need specific roles"

/-- The string `fullContent`. -/
def fullContent (config : Config) (members : List Member) (currentTime : Int)
    (rosterEntries : List RosterEntry) : String :=
  rosterContent config members currentTime rosterEntries ++
    statsContent (roleStats config members rosterEntries) ++ helpContent

/-! ## Calls on the Discord client -/

/-- The call `channel.messages.fetchPinned()`: the pinned messages of the
channel, most recently pinned first. -/
def fetchPinned (env : Env) (channelId : Nat) : M (List Message) :=
  call env (Action.fetchPinned channelId)
    (fun w => (w.pins.filterMap (fun id =>
      w.messages.find? (fun m => m.id == id && m.channelId == channelId)), w))

/-- The call `channel.messages.fetch({ limit })`: the newest messages of the
channel, newest first. -/
def messagesFetch (env : Env) (channelId : Nat) (limit : Nat) : M (List Message) :=
  call env (Action.messagesFetch channelId limit)
    (fun w => ((w.messages.filter (fun m => m.channelId == channelId)).take limit, w))

/-- The call `channel.send({ content })`: a new message authored by the bot. -/
def send (env : Env) (channelId : Nat) (content : String) : M Message :=
  call env (Action.send channelId content)
    (fun w =>
      let msg : Message :=
        { id := w.nextId, channelId := channelId, authorId := w.me, content := content,
          components := [] }
      (msg, { w with messages := msg :: w.messages, nextId := w.nextId + 1 }))

/-- What `message.edit({ content, components })` does to a message `m`: the
message with the id `messageId` gets the content, and the components when the
key is present. -/
def applyEdit (messageId : Nat) (content : String) (components : Option (List (List Button)))
    (m : Message) : Message :=
  if m.id = messageId then
    { m with content := content, components := components.getD m.components }
  else m

/-- The call `message.edit({ content, components })`; `components` is `none`
when the key is absent, which leaves the components as they are. -/
def edit (env : Env) (message : Message) (content : String)
    (components : Option (List (List Button))) : M Unit :=
  call env (Action.edit message.id content components)
    (fun w => ((), { w with messages := w.messages.map (applyEdit message.id content components) }))

/-- The call `message.pin()`; the notice the platform posts in the channel when
a message is pinned (no panel lookup selects it: it is not pinned and has no
content) is left out. -/
def pin (env : Env) (message : Message) : M Unit :=
  call env (Action.pin message.id)
    (fun w => ((), { w with pins := if w.pins.contains message.id then w.pins
                                    else message.id :: w.pins }))

/-- The call `guild.roles.create({ name, color, mentionable })`. -/
def rolesCreate (env : Env) (name : String) (color : Nat) (mentionable : Bool) : M Role :=
  call env (Action.rolesCreate name color mentionable)
    (fun w =>
      let role : Role := { id := w.nextId, name := name, color := color, mentionable := mentionable }
      (role, { w with roles := w.roles ++ [role], nextId := w.nextId + 1 }))

/-- The call `guild.channels.create(descriptor)`; the channel is created under
the requested name. -/
def channelsCreate (env : Env) (descriptor : ChannelDescriptor) : M Channel :=
  call env (Action.channelsCreate descriptor)
    (fun w =>
      let channel : Channel :=
        { id := w.nextId, name := descriptor.name, type := descriptor.type,
          topic := descriptor.topic, permissionOverwrites := descriptor.permissionOverwrites }
      (channel, { w with channels := w.channels ++ [channel], nextId := w.nextId + 1 }))

/-- The call `guild.members.fetch(userId)`: rejected when the guild has no such
member, otherwise the member, who is cached from then on. -/
def membersFetch (env : Env) (userId : Nat) : M Member := fun w =>
  let a := Action.membersFetch userId
  let w1 := { w with log := w.log ++ [a] }
  match w.members.find? (fun m => m.id == userId) with
  | none => (Except.error (Err.rejected a), w1)
  | some member =>
    if env.fails w.log.length a then (Except.error (Err.rejected a), w1)
    else (Except.ok { member with cached := true },
          { w1 with members := w1.members.map (fun m =>
              if m.id = userId then { m with cached := true } else m) })

/-- The call `member.roles.remove(role)`. -/
def rolesRemove (env : Env) (member : Member) (role : Role) : M Unit :=
  call env (Action.rolesRemove member.id role.id)
    (fun w => ((), { w with members := w.members.map (fun m =>
      if m.id = member.id then { m with roles := m.roles.filter (fun r => r.id != role.id) }
      else m) }))

/-- The call `member.send(content)`, a direct message. -/
def memberSend (env : Env) (member : Member) (content : String) : M Unit :=
  call env (Action.memberSend member.id content) (fun w => ((), w))

/-- The lookup `guild.channels.cache.find(ch => ch.name === name && ch.type === GuildText)`. -/
def channelsCacheFind (name : String) : M (Option Channel) := fun w =>
  (Except.ok (w.channels.find? (fun ch => ch.name == name && ch.type == ChannelType.GuildText)), w)

/-- The lookup `guild.roles.cache.find(role => role.name === name)`. -/
def rolesCacheFind (name : String) : M (Option Role) := fun w =>
  (Except.ok (w.roles.find? (fun role => role.name == name)), w)

/-- The call `setInterval(callback, everyMs)`. -/
def setInterval (timer : Timer) : M Unit := fun w =>
  (Except.ok (), { w with timers := w.timers ++ [timer] })

/-! ## The roster panel -/

/-- The statements of `updateRosterMessage` that follow the lookup of the
pinned message: the message found is edited, or a new message is sent and
pinned; then the message is edited once more. -/
def upsertRosterMessage (env : Env) (channel : Channel) (fullContent : String)
    (rosterMessage : Option Message) : M Unit :=
  match rosterMessage with
  | some rosterMessage => do
    edit env rosterMessage fullContent none
    edit env rosterMessage fullContent none
  | none => do
    let rosterMessage ← send env channel.id fullContent
    pin env rosterMessage
    edit env rosterMessage fullContent none

/-- The last block of `updateRosterMessage` (from `// Find existing pinned
message` on): the lookup `pins.find(msg => msg.author.id === me.id)` and the
statements that follow it. -/
def publishRoster (env : Env) (channel : Channel) (fullContent : String) : M Unit := do
  let pins ← fetchPinned env channel.id
  let guild ← getWorld
  upsertRosterMessage env channel fullContent (pins.find? (fun msg => msg.authorId == guild.me))

/-- The function `updateRosterMessage(channel, database)`. -/
def updateRosterMessage (env : Env) (channel : Channel) : M Unit := do
  let currentTime ← now env
  let guild ← getWorld
  let rosterEntries ← find env guild.guildId Cmp.gt currentTime
  let guild ← getWorld
  publishRoster env channel (fullContent env.config guild.members currentTime rosterEntries)

/-! ## The expiry sweep -/

/-- The text of the direct message sent on automatic clock-out. -/
def autoClockOutText (config : Config) : String :=
  "👋 You were automatically clocked out after " ++ toString config.AUTO_CLOCK_OUT_HOURS ++
    " hours."

/-- The body of the loop `for (const entry of expiredEntries)` of
`cleanupExpiredRosterEntries`: one `try`/`catch` statement. -/
def revokeEntry (env : Env) (entry : RosterEntry) : M Unit :=
  tryCatch
    (do
      let member ← membersFetch env entry.userId
      let clockedInRole ← rolesCacheFind env.config.CLOCKED_IN
      match clockedInRole with
      | some role =>
        if member.roles.any (fun r => r.id == role.id) then do
          rolesRemove env member role
          tryCatch (memberSend env member (autoClockOutText env.config)) (fun _ => pure ())
        else pure ()
      | none => pure ())
    (fun _ => pure ())

/-- The loop `for (const entry of expiredEntries)` of `cleanupExpiredRosterEntries`. -/
def revokeExpired (env : Env) : List RosterEntry → M Unit
  | [] => pure ()
  | entry :: rest => do
    revokeEntry env entry
    revokeExpired env rest

/-- The function `cleanupExpiredRosterEntries(guild, database)`. -/
def cleanupExpiredRosterEntries (env : Env) : M Unit := do
  let currentTime ← now env
  let guild ← getWorld
  let expiredEntries ← find env guild.guildId Cmp.lte currentTime
  if expiredEntries.length > 0 then do
    deleteMany env guild.guildId Cmp.lte currentTime
    revokeExpired env expiredEntries
    let partyFinderChannel ← channelsCacheFind env.config.PARTY_FINDER
    match partyFinderChannel with
    | some channel => updateRosterMessage env channel
    | none => pure ()
  else pure ()

/-! ## The clock panel and the content panel -/

/-- The string `content` of `createClockButtons`. -/
def clockContent : String :=
  "**⏰ Clock Station**\n\n" ++
  "Use the buttons below to clock in or out. Clocking in will give you access to the party-finder channel!\n\n" ++
  "• **Clock In**: Get the Clocked In role and access to party-finder\n" ++
  "• **Clock Out**: Remove the role and lose access to party-finder\n\n" ++
  "*You\x27ll be automatically clocked out after 4 hours.*"

/-- The button row of `createClockButtons`. -/
def clockRow : List Button :=
  [ { customId := "clock_in", label := "🕐 Clock In", style := ButtonStyle.Success,
      disabled := some false },
    { customId := "clock_out", label := "🕒 Clock Out", style := ButtonStyle.Danger,
      disabled := some false } ]

/-- The `try` statement of `createClockButtons`: the message found is edited,
or a new message is sent and pinned; then the buttons are put on the message.
A rejected call is logged and ends the function. -/
def upsertClockMessage (env : Env) (channel : Channel) (clockMessage : Option Message) :
    M Unit :=
  tryCatch
    (do
      let clockMessage ←
        match clockMessage with
        | some existing => do
          edit env existing clockContent none
          pure existing
        | none => do
          let created ← send env channel.id clockContent
          pin env created
          pure created
      edit env clockMessage clockContent (some [clockRow]))
    (fun _ => pure ())

/-- The function `createClockButtons(channel, database)`: the lookup
`pins.find(msg => msg.author.id === me.id)` and the `try` statement. -/
def createClockButtons (env : Env) (channel : Channel) : M Unit := do
  let pins ← fetchPinned env channel.id
  let guild ← getWorld
  upsertClockMessage env channel (pins.find? (fun msg => msg.authorId == guild.me))

/-- The string `content` of `createContentSelectionButtons`. -/
def contentSelectionContent : String :=
  "**🎮 Content Selection**\n\n" ++
  "Choose what type of content you\x27re interested in doing. You can select multiple options!\n\n" ++
  "• **Full Roam**: Open world exploration and casual activities\n" ++
  "• **Plunder & Gather**: Resource farming and gathering\n" ++
  "• **Crystals**: Crystal farming and combat\n" ++
  "• **Hellgates**: Group PvE content\n" ++
  "• **Roads**: Road clearing and territory control\n\n" ++
  "*Your selections will be displayed in the roster above.*"

/-- The button rows `row1` and `row2` of `createContentSelectionButtons`. -/
def contentRows : List (List Button) :=
  [ [ { customId := "content_full_roam", label := "🌍 Full Roam", style := ButtonStyle.Primary,
        disabled := none },
      { customId := "content_plunder_gather", label := "⚒️ Plunder & Gather",
        style := ButtonStyle.Primary, disabled := none },
      { customId := "content_crystals", label := "💎 Crystals", style := ButtonStyle.Primary,
        disabled := none } ],
    [ { customId := "content_hellgates", label := "🔥 Hellgates", style := ButtonStyle.Primary,
        disabled := none },
      { customId := "content_roads", label := "🛣️ Roads", style := ButtonStyle.Primary,
        disabled := none },
      { customId := "content_clear", label := "🗑️ Clear All", style := ButtonStyle.Danger,
        disabled := none } ] ]

/-- The `try` statement of `createContentSelectionButtons`: the message found
is edited, or a new message is sent; then the buttons are put on the message.
A rejected call is logged and ends the function. -/
def upsertContentMessage (env : Env) (channel : Channel) (contentMessage : Option Message) :
    M Unit :=
  tryCatch
    (do
      let contentMessage ←
        match contentMessage with
        | some existing => do
          edit env existing contentSelectionContent none
          pure existing
        | none => send env channel.id contentSelectionContent
      edit env contentMessage contentSelectionContent (some contentRows))
    (fun _ => pure ())

/-- The function `createContentSelectionButtons(channel, database, contentRoles)`:
the lookup among the ten newest messages and the `try` statement;
`contentRoles` is not read by the body. -/
def createContentSelectionButtons (env : Env) (channel : Channel) : M Unit := do
  let messages ← messagesFetch env channel.id 10
  let guild ← getWorld
  upsertContentMessage env channel
    (messages.find? (fun msg =>
      msg.authorId == guild.me && includes msg.content "Content Selection"))

/-! ## Reconciliation of channels and roles -/

/-- The function `getContentTypeColor(contentType)`. -/
def getContentTypeColor (contentType : String) : Nat :=
  if contentType = "FULL_ROAM" then 0xff6b6b
  else if contentType = "PLUNDER_GATHER" then 0x4ecdc4
  else if contentType = "CRYSTALS" then 0x45b7d1
  else if contentType = "HELLGATES" then 0x96ceb4
  else if contentType = "ROADS" then 0xffd93d
  else 0x99aab5

/-- The descriptor of the clock-station channel in `initializeRosterSystem`;
`guild.roles.everyone.id` is the id of the guild. -/
def clockChannelDescriptor (config : Config) (guildId : Nat) : ChannelDescriptor :=
  { name := config.CLOCK_CHANNEL
    type := ChannelType.GuildText
    topic := "Clock in/out station - Use the buttons below to manage your status"
    permissionOverwrites :=
      [ { id := guildId
          deny := [Permission.SendMessages]
          allow := [Permission.ReadMessageHistory, Permission.ViewChannel,
                    Permission.UseExternalEmojis] },
        { id := guildId
          deny := [Permission.SendMessages]
          allow := [Permission.ViewChannel] } ] }

/-- The descriptor of the party-finder channel in `initializeRosterSystem`. -/
def partyFinderDescriptor (config : Config) (guildId : Nat) (clockedInRole : Role) (botId : Nat) :
    ChannelDescriptor :=
  { name := config.PARTY_FINDER
    type := ChannelType.GuildText
    topic := "🎯 Party Finder - Real-time roster of available players (Read-only)"
    permissionOverwrites :=
      [ { id := guildId
          deny := [Permission.ViewChannel, Permission.SendMessages, Permission.AddReactions]
          allow := [] },
        { id := clockedInRole.id
          allow := [Permission.ViewChannel, Permission.ReadMessageHistory]
          deny := [Permission.SendMessages, Permission.AddReactions] },
        { id := botId
          allow := [Permission.ViewChannel, Permission.SendMessages,
                    Permission.ReadMessageHistory, Permission.UseExternalEmojis]
          deny := [] } ] }

/-- The descriptor of the clock-station channel in `verifyAndCreateMissingChannels`. -/
def missingClockChannelDescriptor (config : Config) (guildId : Nat) : ChannelDescriptor :=
  { name := config.CLOCK_CHANNEL
    type := ChannelType.GuildText
    topic := "Clock in/out station - Use the buttons below to manage your status"
    permissionOverwrites :=
      [ { id := guildId
          deny := [Permission.SendMessages]
          allow := [Permission.ReadMessageHistory, Permission.ViewChannel,
                    Permission.UseExternalEmojis] },
        { id := guildId
          deny := [Permission.SendMessages]
          allow := [Permission.ViewChannel] } ] }

/-- The descriptor of the party-finder channel in `verifyAndCreateMissingChannels`. -/
def missingPartyFinderDescriptor (config : Config) (guildId : Nat) (clockedInRole : Role) :
    ChannelDescriptor :=
  { name := config.PARTY_FINDER
    type := ChannelType.GuildText
    topic := "Party finder - Only visible to clocked-in users"
    permissionOverwrites :=
      [ { id := guildId
          deny := [Permission.ViewChannel, Permission.SendMessages]
          allow := [] },
        { id := clockedInRole.id
          allow := [Permission.ViewChannel, Permission.SendMessages,
                    Permission.ReadMessageHistory, Permission.UseExternalEmojis]
          deny := [] } ] }

/-- The statement
`if (!role) { try { role = await guild.roles.create(...) } catch (error) { ... } }`
that follows each role lookup: `found` is the result of the lookup; the result
is the value of the variable afterwards, `none` when the `catch` block ran. -/
def createRoleIfMissing (env : Env) (found : Option Role) (name : String) (color : Nat) :
    M (Option Role) :=
  match found with
  | some role => pure (some role)
  | none =>
    tryCatch
      (do
        let role ← rolesCreate env name color false
        pure (some role))
      (fun _ => pure none)

/-- The loop `for (const [key, roleName] of Object.entries(CONTENT_TYPES))` of
`initializeRosterSystem`: a failed creation is logged and the loop goes on. -/
def ensureContentRoles (env : Env) : List (String × String) → M Unit
  | [] => pure ()
  | (key, roleName) :: rest => do
    let found ← rolesCacheFind roleName
    let _ ← createRoleIfMissing env found roleName (getContentTypeColor key)
    ensureContentRoles env rest

/-- The statement
`if (!channel) { try { channel = await guild.channels.create(descriptor) } catch (error) { ... } }`
that follows each channel lookup: `found` is the result of the lookup; the
result is the value of the variable afterwards (`none` when the `catch` block
ran) and whether the channel was created. -/
def createIfMissing (env : Env) (found : Option Channel) (descriptor : ChannelDescriptor) :
    M (Option Channel × Bool) :=
  match found with
  | some channel => pure (some channel, false)
  | none =>
    tryCatch
      (do
        let channel ← channelsCreate env descriptor
        pure (some channel, true))
      (fun _ => pure (none, false))

/-- The block `if (channelsUpdated) { ... }` of `verifyAndCreateMissingChannels`. -/
def setUpCreatedChannels (env : Env) (channelsUpdated : Bool) (clockChannel : Option Channel)
    (partyFinderChannel : Option Channel) : M Unit :=
  if channelsUpdated then do
    match clockChannel with
    | some channel => createClockButtons env channel
    | none => pure ()
    match partyFinderChannel with
    | some channel => updateRosterMessage env channel
    | none => pure ()
  else pure ()

/-- The function `verifyAndCreateMissingChannels(guild, database, clockedInRole)`;
`channelsUpdated` is set by either creation. -/
def verifyAndCreateMissingChannels (env : Env) (clockedInRole : Role) : M Unit := do
  let guild ← getWorld
  let found ← channelsCacheFind env.config.CLOCK_CHANNEL
  let clock ← createIfMissing env found (missingClockChannelDescriptor env.config guild.guildId)
  let found ← channelsCacheFind env.config.PARTY_FINDER
  let partyFinder ← createIfMissing env found
    (missingPartyFinderDescriptor env.config guild.guildId clockedInRole)
  setUpCreatedChannels env (clock.2 || partyFinder.2) clock.1 partyFinder.1

/-- The end of `initializeRosterSystem`, from the provisioning of the panels
to the two `setInterval` calls; both channel variables are set when it is
reached. -/
def provisionAndSchedule (env : Env) (clockedInRole : Role) (clockChannel : Channel)
    (partyFinderChannel : Channel) : M Unit := do
  createClockButtons env clockChannel
  createContentSelectionButtons env partyFinderChannel
  updateRosterMessage env partyFinderChannel
  let guild ← getWorld
  setInterval (Timer.rosterUpdate guild.guildId (10 * 60 * 1000))
  setInterval (Timer.channelVerification guild.guildId clockedInRole (30 * 60 * 1000))

/-- The function `initializeRosterSystem(guild, database)`: each of the three
`catch` blocks that `return` ends the pass (the result `none` below). -/
def initializeRosterSystem (env : Env) : M Unit := do
  let guild ← getWorld
  let found ← rolesCacheFind env.config.CLOCKED_IN
  let clockedInRole ← createRoleIfMissing env found env.config.CLOCKED_IN 0x00ff00
  match clockedInRole with
  | none => pure ()
  | some clockedInRole => do
    ensureContentRoles env env.config.CONTENT_TYPES
    let found ← channelsCacheFind env.config.CLOCK_CHANNEL
    let clock ← createIfMissing env found (clockChannelDescriptor env.config guild.guildId)
    match clock.1 with
    | none => pure ()
    | some clockChannel => do
      let found ← channelsCacheFind env.config.PARTY_FINDER
      let partyFinder ← createIfMissing env found
        (partyFinderDescriptor env.config guild.guildId clockedInRole guild.me)
      match partyFinder.1 with
      | none => pure ()
      | some partyFinderChannel =>
        provisionAndSchedule env clockedInRole clockChannel partyFinderChannel

/-! ## Vocabulary of the statements -/

/-- The calls a computation issues from a world: what it adds to the log. -/
def issued {α : Type} (m : M α) (w : World) : List Action := (m w).2.log.drop w.log.length

/-- The user ids of the `guild.members.fetch` calls of a log, in order. -/
def fetchedUsers (log : List Action) : List Nat :=
  log.filterMap (fun a =>
    match a with
    | Action.membersFetch userId => some userId
    | _ => none)

/-- The descriptors of the `guild.channels.create` calls of a log, in order. -/
def channelCreates (log : List Action) : List ChannelDescriptor :=
  log.filterMap (fun a =>
    match a with
    | Action.channelsCreate descriptor => some descriptor
    | _ => none)

/-- A relation between the world before and the world after that holds of
every run of a computation. -/
def Steps {α : Type} (R : World → World → Prop) (m : M α) : Prop := ∀ w, R w (m w).2

/-- The log after extends the log before by calls that all satisfy `P`. -/
def Issues (P : Action → Prop) (w w1 : World) : Prop :=
  ∃ l, w1.log = w.log ++ l ∧ ∀ a ∈ l, P a

/-- A run that leaves the channels, the roles, the roster collection, the
identity of the guild and the timers as they were, and issues only calls that
satisfy `P`. -/
def Quiet (P : Action → Prop) (w w1 : World) : Prop :=
  Issues P w w1 ∧ w1.store = w.store ∧ w1.channels = w.channels ∧ w1.roles = w.roles ∧
    w1.guildId = w.guildId ∧ w1.me = w.me ∧ w1.timers = w.timers

/-- The expired-entry predicate of the sweep at time `t` for guild `g`. -/
def isExpired (g : Nat) (t : Int) (r : RosterEntry) : Prop := r.guildId = g ∧ r.clockOutTime ≤ t

instance (g : Nat) (t : Int) (r : RosterEntry) : Decidable (isExpired g t r) := by
  unfold isExpired; infer_instance

/-- The active-entry predicate of the roster at time `t` for guild `g`. -/
def isActive (g : Nat) (t : Int) (r : RosterEntry) : Prop := r.guildId = g ∧ t < r.clockOutTime

instance (g : Nat) (t : Int) (r : RosterEntry) : Decidable (isActive g t r) := by
  unfold isActive; infer_instance

/-- The calls the three panel functions issue: the roster query and the
message calls. -/
def isPanelCall (a : Action) : Prop :=
  match a with
  | Action.find _ Cmp.gt _ => True
  | Action.fetchPinned _ => True
  | Action.messagesFetch _ _ => True
  | Action.send _ _ => True
  | Action.edit _ _ _ => True
  | Action.pin _ => True
  | _ => False

/-- The calls that follow the member fetch in one step of the revocation loop. -/
def isRevokeCall (a : Action) : Prop :=
  match a with
  | Action.rolesRemove _ _ => True
  | Action.memberSend _ _ => True
  | _ => False

/-- The text a message call carries, if the call is a `send` or an `edit`. -/
def Action.text : Action → Option String
  | Action.send _ content => some content
  | Action.edit _ content _ => some content
  | _ => none

/-- One hour, in milliseconds. -/
def hourMs : Int := 60 * 60 * 1000

/-- A configuration with the names of the specification. -/
def sampleConfig : Config :=
  { CLOCK_CHANNEL := "clock-station"
    PARTY_FINDER := "party-finder"
    CLOCKED_IN := "Clocked In"
    CONTENT_TYPES := [("FULL_ROAM", "Full Roam"), ("ROADS", "Roads")]
    AUTO_CLOCK_OUT_HOURS := 4 }

/-- An environment in which every call succeeds and the clock stands at `t`. -/
def calmEnv (t : Int) : Env :=
  { config := sampleConfig, fails := fun _ _ => false, clock := fun _ => t }

/-- A guild without channels whose collection holds an expired entry, an active
entry, and an expired entry of another guild (at time 1000). -/
def sampleWorld : World :=
  { guildId := 7, me := 99, channels := [], roles := [⟨7, "@everyone", 0, false⟩],
    members := [], messages := [], pins := [],
    store := [⟨7, 1, 500⟩, ⟨7, 2, 5000⟩, ⟨8, 3, 500⟩],
    log := [], nextId := 100, timers := [] }

/-- A text channel named as the party-finder channel of `sampleConfig`. -/
def sampleChannel : Channel :=
  { id := 50, name := "party-finder", type := ChannelType.GuildText, topic := "",
    permissionOverwrites := [] }

/-- A member whose class roles are `Healer` and `Tank`, in this order. -/
def sampleMember : Member :=
  { id := 1, displayName := "Ann",
    roles := [⟨11, "Healer", 0, false⟩, ⟨12, "Tank", 0, false⟩, ⟨13, "Roads", 0, false⟩,
              ⟨14, "Clocked In", 0, false⟩, ⟨7, "@everyone", 0, false⟩],
    cached := true }

/-- The guild has a text channel of this name. -/
def hasTextChannel (w : World) (name : String) : Prop :=
  ∃ ch ∈ w.channels, ch.name = name ∧ ch.type = ChannelType.GuildText

/-- What a reconciliation pass may issue: creations of the desired channels
and roles, and calls that are neither a creation nor a removal. -/
def desiredOnly (config : Config) (a : Action) : Prop :=
  match a with
  | Action.channelsCreate d => d.name = config.CLOCK_CHANNEL ∨ d.name = config.PARTY_FINDER
  | Action.rolesCreate name _ _ => name = config.CLOCKED_IN ∨ name ∈ contentTypeRoles config
  | Action.rolesRemove _ _ => False
  | Action.deleteMany _ _ _ => False
  | _ => True

/-- A run that keeps every channel and every role in place (new ones come
after them), leaves the roster collection and the identity of the guild as
they were, and issues only calls that satisfy `P`. -/
def Additive (P : Action → Prop) (w w1 : World) : Prop :=
  Issues P w w1 ∧ w.channels <+: w1.channels ∧ w.roles <+: w1.roles ∧ w1.store = w.store ∧
    w1.guildId = w.guildId ∧ w1.me = w.me

/-- The test of the channel lookups: a text channel of this name. -/
def isTextChannelNamed (name : String) (ch : Channel) : Bool :=
  ch.name == name && ch.type == ChannelType.GuildText

/-- Every call of the log from position `start` on that satisfies `P` succeeds. -/
def Succeeds (env : Env) (log : List Action) (start : Nat) (P : Action → Prop) : Prop :=
  ∀ i a, start ≤ i → log[i]? = some a → P a → env.fails i a = false

/-- The call is a channel creation. -/
def isChannelsCreate (a : Action) : Prop :=
  match a with
  | Action.channelsCreate _ => True
  | _ => False

/-- An environment in which the creation of the clock-station channel is
rejected and every other call succeeds. -/
def clockCreationFailsEnv : Env :=
  { config := sampleConfig
    fails := fun _ a =>
      match a with
      | Action.channelsCreate d => d.name == "clock-station"
      | _ => false
    clock := fun _ => 1000 }

/-- The call, if it is an edit, edits the message `n`. -/
def editsOnly (n : Nat) (a : Action) : Prop :=
  ∀ i s cs, a = Action.edit i s cs → i = n

/-- The call is not a `send`. -/
def isNotSend (a : Action) : Prop :=
  match a with
  | Action.send _ _ => False
  | _ => True

/-- A text channel named as the clock-station channel of `sampleConfig`. -/
def sampleClockChannel : Channel :=
  { id := 40, name := "clock-station", type := ChannelType.GuildText, topic := "",
    permissionOverwrites := [] }

/-- A guild whose clock-station channel holds one pinned message of the bot
that is not a clock panel. -/
def pinnedNoteWorld : World :=
  { guildId := 7, me := 99, channels := [sampleClockChannel, sampleChannel],
    roles := [⟨7, "@everyone", 0, false⟩, ⟨60, "Clocked In", 0x00ff00, false⟩],
    members := [],
    messages := [⟨5, 40, 99, "Server rules: be kind.", []⟩], pins := [5],
    store := [], log := [], nextId := 100, timers := [] }

/-- The messages of a channel, newest first. -/
def chanMsgs (w : World) (channelId : Nat) : List Message :=
  w.messages.filter (fun m => m.channelId == channelId)

/-- Every external call succeeds. -/
def Calm (env : Env) : Prop := ∀ i a, env.fails i a = false

/-- The ids the platform has given out are below `nextId`, the channels have
different ids, and no message is in a text channel named as the clock-station
or the party-finder channel. -/
def Fresh (config : Config) (w : World) : Prop :=
  (∀ m ∈ w.messages, m.channelId < w.nextId) ∧
    (∀ j ∈ w.pins, j < w.nextId) ∧
    (∀ ch ∈ w.channels, ch.id < w.nextId) ∧
    (w.channels.map Channel.id).Nodup ∧
    (∀ m ∈ w.messages, ∀ ch ∈ w.channels, ch.type = ChannelType.GuildText →
      ch.name = config.CLOCK_CHANNEL ∨ ch.name = config.PARTY_FINDER → m.channelId ≠ ch.id)

/-- The two channels are ready for a first provisioning: they are different,
hold no message, and no pinned id is free. -/
def Ready (w : World) (c p : Channel) : Prop :=
  c.id ≠ p.id ∧ chanMsgs w c.id = [] ∧ chanMsgs w p.id = [] ∧ ∀ j ∈ w.pins, j < w.nextId

/-- The two channels hold the three panels made from the ids `n`, `n + 1` and
`n + 2`: the pinned clock panel in the first, the pinned roster message and,
older and not pinned, the content panel in the second. -/
def Provisioned (w : World) (c p : Channel) (n : Nat) : Prop :=
  c.id ≠ p.id ∧
    (∃ pins, w.pins = (n + 2) :: n :: pins ∧ ∀ j ∈ pins, j < n) ∧
    n + 3 ≤ w.nextId ∧
    chanMsgs w c.id = [⟨n, c.id, w.me, clockContent, [clockRow]⟩] ∧
    ∃ text rows, chanMsgs w p.id =
      [⟨n + 2, p.id, w.me, text, rows⟩, ⟨n + 1, p.id, w.me, contentSelectionContent, contentRows⟩]

/-- A run that sets up roles and channels: it keeps the freshness of the
world, the messages, the pins and the identity of the guild, and the roles and
channels there were stay in place. -/
def SetsUp (config : Config) (w w1 : World) : Prop :=
  (Fresh config w → Fresh config w1) ∧ w1.messages = w.messages ∧ w1.pins = w.pins ∧
    w1.me = w.me ∧ w1.guildId = w.guildId ∧ w.roles <+: w1.roles ∧ w.channels <+: w1.channels

/-- A guild that has the active role and both channels, and no message. -/
def bareChannelsWorld : World :=
  { guildId := 7, me := 99, channels := [sampleClockChannel, sampleChannel],
    roles := [⟨7, "@everyone", 0, false⟩, ⟨60, "Clocked In", 0x00ff00, false⟩],
    members := [], messages := [], pins := [],
    store := [], log := [], nextId := 100, timers := [] }

/-- The detected classes of the rendered members: one per record whose member
resolves and has a detected class, in the order of the records. -/
def renderedClasses (config : Config) (members : List Member)
    (rosterEntries : List RosterEntry) : List String :=
  rosterEntries.filterMap (fun entry =>
    match membersCacheGet members entry.userId with
    | none => none
    | some member => detectedClass config member)

/-- The distinct values of a list, in the order of their first occurrence. -/
def firstOccurrences : List String → List String
  | [] => []
  | a :: l => a :: (firstOccurrences l).filter (fun b => b ≠ a)

/-- Two cached members, the first with the class role `Tank`, the second with
the class role `Healer`. -/
def tankHealerMembers : List Member :=
  [ { id := 1, displayName := "Ann", roles := [⟨12, "Tank", 0, false⟩], cached := true },
    { id := 2, displayName := "Bob", roles := [⟨11, "Healer", 0, false⟩], cached := true } ]

/-- One active record for each member of `tankHealerMembers`, in their order. -/
def tankHealerEntries : List RosterEntry := [⟨7, 1, 5000⟩, ⟨7, 2, 5000⟩]

/-- The computation returns normally, whatever the world it starts from. -/
def Returns {α : Type} (m : M α) : Prop := ∀ w, ∃ a, (m w).1 = Except.ok a

/-- The record's member resolves in the member cache. -/
def resolves (members : List Member) (entry : RosterEntry) : Bool :=
  (membersCacheGet members entry.userId).isSome

/-- A guild whose member cache holds the first of two active members only. -/
def oneResolvedWorld : World :=
  { guildId := 7, me := 99, channels := [sampleChannel], roles := [⟨7, "@everyone", 0, false⟩],
    members := [{ id := 1, displayName := "Ann", roles := [⟨12, "Tank", 0, false⟩],
                  cached := true }],
    messages := [], pins := [],
    store := [⟨7, 1, 5000⟩, ⟨7, 2, 5000⟩],
    log := [], nextId := 100, timers := [] }

/-- The guild of `oneResolvedWorld` at another moment: the collection also
holds an expired record and a record of another guild, the member cache one
more member, and the channel list is empty. -/
def oneResolvedLaterWorld : World :=
  { guildId := 7, me := 99, channels := [], roles := [],
    members := [{ id := 1, displayName := "Ann", roles := [⟨12, "Tank", 0, false⟩],
                  cached := true },
                { id := 5, displayName := "Eve", roles := [], cached := true }],
    messages := [], pins := [],
    store := [⟨8, 9, 9000⟩, ⟨7, 1, 5000⟩, ⟨7, 3, 10⟩, ⟨7, 2, 5000⟩],
    log := [], nextId := 200, timers := [] }

/-- A configuration whose active-status role is named `Active Hunter`. -/
def hunterConfig : Config :=
  { CLOCK_CHANNEL := "clock-station"
    PARTY_FINDER := "party-finder"
    CLOCKED_IN := "Active Hunter"
    CONTENT_TYPES := [("FULL_ROAM", "Full Roam"), ("ROADS", "Roads")]
    AUTO_CLOCK_OUT_HOURS := 4 }

/-- A clocked-in member under `hunterConfig`: the roles are the active-status
role, a content-type role and `@everyone`. -/
def hunterMember : Member :=
  { id := 1, displayName := "Ann",
    roles := [⟨60, "Active Hunter", 0x00ff00, false⟩, ⟨13, "Roads", 0, false⟩,
              ⟨7, "@everyone", 0, false⟩],
    cached := true }

/-- A guild that has the active role and the clock-station channel, and no
party-finder channel. -/
def noPartyFinderWorld : World :=
  { guildId := 7, me := 99, channels := [sampleClockChannel],
    roles := [⟨7, "@everyone", 0, false⟩, ⟨60, "Clocked In", 0x00ff00, false⟩],
    members := [], messages := [], pins := [],
    store := [], log := [], nextId := 100, timers := [] }

/-- An environment in which the creation of the party-finder channel is
rejected and every other call succeeds. -/
def partyFinderCreationFailsEnv : Env :=
  { config := sampleConfig
    fails := fun _ a =>
      match a with
      | Action.channelsCreate d => d.name == "party-finder"
      | _ => false
    clock := fun _ => 1000 }

/-- Whether the overwrites grant `permission` to the role or member `id`. -/
def allowsTo (overwrites : List Overwrite) (id : Nat) (permission : Permission) : Bool :=
  overwrites.any (fun o => o.id == id && o.allow.contains permission)

/-- Whether the overwrites deny `permission` to the role or member `id`. -/
def deniesTo (overwrites : List Overwrite) (id : Nat) (permission : Permission) : Bool :=
  overwrites.any (fun o => o.id == id && o.deny.contains permission)

/-- The users to whom the calls of a log send a direct message, in order. -/
def dmUsers (log : List Action) : List Nat :=
  log.filterMap (fun a =>
    match a with
    | Action.memberSend userId _ => some userId
    | _ => none)

/-- An environment in which every direct message and the role removal of
user 2 are rejected, and every other call succeeds. -/
def dmFailsEnv : Env :=
  { config := sampleConfig
    fails := fun _ a =>
      match a with
      | Action.memberSend _ _ => true
      | Action.rolesRemove userId _ => userId == 2
      | _ => false
    clock := fun _ => 1000 }

/-- A guild with the active role and three members: users 1 and 2 hold the
active role, user 3 does not; user 4 is not a member. -/
def sweepWorld : World :=
  { guildId := 7, me := 99, channels := [],
    roles := [⟨7, "@everyone", 0, false⟩, ⟨60, "Clocked In", 0x00ff00, false⟩],
    members := [{ id := 1, displayName := "Ann", roles := [⟨60, "Clocked In", 0x00ff00, false⟩],
                  cached := true },
                { id := 2, displayName := "Bob", roles := [⟨60, "Clocked In", 0x00ff00, false⟩],
                  cached := false },
                { id := 3, displayName := "Cyd", roles := [], cached := true }],
    messages := [], pins := [], store := [], log := [], nextId := 100, timers := [] }

/-- Four removed records: of users 1, 4 (not a member), 2 and 3. -/
def sweepEntries : List RosterEntry := [⟨7, 1, 500⟩, ⟨7, 4, 500⟩, ⟨7, 2, 500⟩, ⟨7, 3, 500⟩]

/-- A guild whose collection holds two expired records of members who hold the
active role, an active record, and an expired record of another guild (at time
1000). -/
def expiredHoldersWorld : World :=
  { guildId := 7, me := 99, channels := [],
    roles := [⟨7, "@everyone", 0, false⟩, ⟨60, "Clocked In", 0x00ff00, false⟩],
    members := [{ id := 1, displayName := "Ann", roles := [⟨60, "Clocked In", 0x00ff00, false⟩],
                  cached := true },
                { id := 2, displayName := "Bob", roles := [⟨60, "Clocked In", 0x00ff00, false⟩],
                  cached := true }],
    messages := [], pins := [],
    store := [⟨7, 1, 500⟩, ⟨7, 2, 900⟩, ⟨7, 3, 5000⟩, ⟨8, 1, 500⟩],
    log := [], nextId := 100, timers := [] }

/-- An environment in which every member fetch, role removal and direct
message is rejected, and every other call succeeds. -/
def revocationFailsEnv : Env :=
  { config := sampleConfig
    fails := fun _ a =>
      match a with
      | Action.membersFetch _ => true
      | Action.rolesRemove _ _ => true
      | Action.memberSend _ _ => true
      | _ => false
    clock := fun _ => 1000 }

/-! ## The periodic cleanup of `onReady` -/

/-- The callback of the cleanup timer of `onReady`: the loop
`for (const guild of client.guilds.cache.values())` over the guilds of the
client, each step one `try`/`catch` statement around
`cleanupExpiredRosterEntries(guild, database)`.  The guilds share the roster
collection and the log of calls: each step takes them from the step before
and hands them on.  The result is the guilds as the steps left them, the
collection and the log. -/
def cleanupTick (env : Env) :
    List World → List RosterEntry → List Action → List World × List RosterEntry × List Action
  | [], store, log => ([], store, log)
  | guild :: rest, store, log =>
    let w1 := (tryCatch (cleanupExpiredRosterEntries env) (fun _ => pure ())
      { guild with store := store, log := log }).2
    let r := cleanupTick env rest w1.store w1.log
    (w1 :: r.1, r.2)

/-- The guilds whose sweep the calls of a log start: one for each query for
the records that are due. -/
def sweptGuilds (log : List Action) : List Nat :=
  log.filterMap (fun a =>
    match a with
    | Action.find guildId Cmp.lte _ => some guildId
    | _ => none)

/-- The call is not a query for the records that are due. -/
def isNotDueQuery (a : Action) : Prop :=
  match a with
  | Action.find _ Cmp.lte _ => False
  | _ => True

/-- A guild with the id `guildId`, without channels, roles and members. -/
def bareGuild (guildId : Nat) : World :=
  { guildId := guildId, me := 99, channels := [], roles := [], members := [], messages := [],
    pins := [], store := [], log := [], nextId := 100, timers := [] }

/-- An environment in which every call on the roster collection for guild 7 is
rejected (a store fault for that guild) and every other call succeeds. -/
def storeFaultEnv : Env :=
  { config := sampleConfig
    fails := fun _ a =>
      match a with
      | Action.find guildId _ _ => guildId == 7
      | Action.deleteMany guildId _ _ => guildId == 7
      | _ => false
    clock := fun _ => 1000 }

/-! ## The command `/setup-channels` -/

/-- The statement `throw error` (also what evaluating an undeclared identifier
or calling `undefined` does). -/
def throwErr {α : Type} (error : Err) : M α := fun w => (Except.error error, w)

/-- The call `interaction.deferReply({ ephemeral: true })`. -/
def deferReply (env : Env) : M Unit :=
  call env Action.deferReply (fun w => ((), { w with deferred := true }))

/-- The call `interaction.editReply({ content })`. -/
def editReply (env : Env) (content : String) : M Unit :=
  call env (Action.editReply content) (fun w => ((), { w with replied := true }))

/-- The call `interaction.reply({ content, ephemeral: true })`. -/
def reply (env : Env) (content : String) : M Unit :=
  call env (Action.reply content) (fun w => ((), { w with replied := true }))

/-- The call `rosterCollection.countDocuments(filter)`. -/
def countDocuments (env : Env) (guildId : Nat) (op : Cmp) (time : Int) : M Nat :=
  call env (Action.countDocuments guildId op time)
    (fun w => ((w.store.filter (matchesFilter guildId op time)).length, w))

/-- The names `onReady.js` exports: its default export and the three functions
declared with `export`. -/
def onReadyExports : List String :=
  ["default", "verifyAndCreateMissingChannels", "updateClockButtonsForUser",
   "updateRosterMessage"]

/-- The value the destructuring
`const { name } = await import("../../app/events/onReady.js")` binds: the
function of that name when the module exports it, `undefined` (`none`)
otherwise. -/
def imported {α : Type} (name : String) (value : α) : Option α :=
  if onReadyExports.contains name then some value else none

/-- The string `statusMessage` of the subcommand `verify`. -/
def statusMessage (config : Config) (clockChannel partyFinderChannel : Option Channel)
    (rosterCount : Nat) : String :=
  "🎉 **Channel Verification Complete!**\n\n" ++
  "• **Clock Station** (#" ++ config.CLOCK_CHANNEL ++ "): " ++
    (if clockChannel.isSome then "✅ Created/Verified" else "❌ Failed") ++ "\n" ++
  "• **Party Finder** (#" ++ config.PARTY_FINDER ++ "): " ++
    (if partyFinderChannel.isSome then "✅ Created/Verified" else "❌ Failed") ++ "\n" ++
  "• **Current Roster**: " ++ toString rosterCount ++ " active players\n\n" ++
  "The party finder system is now ready to use!"

/-- The reply of the `catch` block of `execute`. -/
def genericError : String := "❌ An error occurred while managing channels."

/-- The method `execute(interaction, context)` of `setup-channels.js`, for the
subcommand `subcommand`.  `channelVerification` is the module variable
`verifyAndCreateMissingChannels`, `null` (`none`) until
`setChannelVerificationFunction` is called.  In the branch `update-times` no
enclosing scope declares `updateRosterMessage` (nor `partyFinderChannel`): the
`const` of these names belong to the blocks of other branches; evaluating the
callee throws a `ReferenceError`.  In the branch `refresh-content` the callee
`createContentSelectionButtons` is a declared binding (of the value
`undefined`, the module not exporting that name) and the argument
`partyFinderChannel` is not declared: the arguments are evaluated before the
callee is called, which throws a `ReferenceError`.  The configuration the
branch `refresh-content` reads again is taken to be the one loaded at start;
the object `contentRoles` it builds is used by the call only. -/
def execute (env : Env) (channelVerification : Option (Env → Role → M Unit))
    (subcommand : String) : M Unit :=
  tryCatch
    (do
      deferReply env
      if subcommand = "verify" then
        match channelVerification with
        | none =>
          editReply env
            "❌ Channel verification function not available. Please restart the bot."
        | some verify => do
          let clockedInRole ← rolesCacheFind env.config.CLOCKED_IN
          match clockedInRole with
          | none =>
            editReply env "❌ Clocked In role not found. Please restart the bot to create it."
          | some clockedInRole => do
            let currentTime ← now env
            let guild ← getWorld
            let rosterCount ← countDocuments env guild.guildId Cmp.gt currentTime
            editReply env "🔍 Scanning and creating missing channels..."
            verify env clockedInRole
            let clockChannel ← channelsCacheFind env.config.CLOCK_CHANNEL
            let partyFinderChannel ← channelsCacheFind env.config.PARTY_FINDER
            editReply env (statusMessage env.config clockChannel partyFinderChannel rosterCount)
      else if subcommand = "refresh" then do
        let partyFinderChannel ← channelsCacheFind env.config.PARTY_FINDER
        match partyFinderChannel with
        | none =>
          editReply env "❌ Party finder channel not found. Run `/setup-channels verify` first."
        | some partyFinderChannel => do
          editReply env "🔄 Refreshing roster display..."
          match imported "updateRosterMessage" updateRosterMessage with
          | some updateRosterMessage => updateRosterMessage env partyFinderChannel
          | none => pure ()
          editReply env
            ("✅ **Roster display refreshed!**\n\nThe party-finder channel now shows the " ++
             "latest information including player roles and helpful tips.")
      else if subcommand = "update-times" then do
        editReply env "⏰ Forcing time display updates..."
        throwErr (Err.referenceError "updateRosterMessage")
        editReply env "✅ Time displays updated successfully!"
      else if subcommand = "refresh-content" then do
        editReply env "🎮 Refreshing content selection buttons..."
        throwErr (Err.referenceError "partyFinderChannel")
        editReply env "✅ Content selection buttons refreshed successfully!"
      else if subcommand = "reset-buttons" then do
        editReply env "🔄 Resetting clock buttons to default state..."
        let clockChannel ← channelsCacheFind env.config.CLOCK_CHANNEL
        match clockChannel with
        | some clockChannel =>
          match imported "createClockButtons" createClockButtons with
          | some createClockButtons => createClockButtons env clockChannel
          | none => throwErr (Err.typeError "createClockButtons")
        | none => pure ()
        editReply env "✅ Clock buttons reset to default state (both enabled)!"
      else pure ())
    (fun _ => do
      let interaction ← getWorld
      if !interaction.replied && !interaction.deferred then reply env genericError
      else editReply env genericError)

/-- The contents of the replies of a log, in order. -/
def replies (log : List Action) : List String :=
  log.filterMap (fun a =>
    match a with
    | Action.editReply content => some content
    | Action.reply content => some content
    | _ => none)

/-- The ids of the messages the calls of a log edit, in order. -/
def editedIds (log : List Action) : List Nat :=
  log.filterMap (fun a =>
    match a with
    | Action.edit messageId _ _ => some messageId
    | _ => none)

/-- A guild that has the active role and both channels, no message, and one
active record whose member has the display name `Content Selection`. -/
def markerNameWorld : World :=
  { guildId := 7, me := 99, channels := [sampleClockChannel, sampleChannel],
    roles := [⟨7, "@everyone", 0, false⟩, ⟨60, "Clocked In", 0x00ff00, false⟩],
    members := [{ id := 1, displayName := "Content Selection", roles := [], cached := true }],
    messages := [], pins := [],
    store := [⟨7, 1, 5000⟩], log := [], nextId := 100, timers := [] }

/-- The run leaves the member cache, the roster collection and the identity of
the guild as they were. -/
def SameRoster (w w1 : World) : Prop :=
  w1.members = w.members ∧ w1.store = w.store ∧ w1.guildId = w.guildId

/-- The text `updateRosterMessage` renders for the guild `w` when it reads the
clock at log position `k`. -/
def rosterText (env : Env) (w : World) (k : Nat) : String :=
  fullContent env.config w.members (env.clock k)
    (w.store.filter (fun r => isActive w.guildId (env.clock k) r))

/-- The two channels hold the three panels made from the ids `n`, `n + 1` and
`n + 2`, each with its own content: the pinned clock panel with its row of
buttons alone in the first; in the second the pinned roster message with the
text `text` and no button and, older and not pinned, the content panel with its
rows of buttons, and nothing else. -/
def Panels (w : World) (c p : Channel) (n : Nat) (text : String) : Prop :=
  c.id ≠ p.id ∧
    (∃ pins, w.pins = (n + 2) :: n :: pins ∧ ∀ j ∈ pins, j < n) ∧
    n + 3 ≤ w.nextId ∧
    chanMsgs w c.id = [⟨n, c.id, w.me, clockContent, [clockRow]⟩] ∧
    chanMsgs w p.id =
      [⟨n + 2, p.id, w.me, text, []⟩,
       ⟨n + 1, p.id, w.me, contentSelectionContent, contentRows⟩]

/-- A guild whose clock-station and party-finder channels each hold one pinned
message of the bot that carries no panel header. -/
def pinnedNotesWorld : World :=
  { guildId := 7, me := 99, channels := [sampleClockChannel, sampleChannel],
    roles := [⟨7, "@everyone", 0, false⟩, ⟨60, "Clocked In", 0x00ff00, false⟩],
    members := [],
    messages := [⟨6, 50, 99, "Looking for a party? Ask here.", []⟩,
                 ⟨5, 40, 99, "Server rules: be kind.", []⟩],
    pins := [6, 5],
    store := [], log := [], nextId := 100, timers := [] }

/-- A guild with the members of `tankHealerMembers` whose collection returns
their active records in the order Ann, Bob. -/
def annBobWorld : World :=
  { guildId := 7, me := 99, channels := [sampleChannel],
    roles := [⟨7, "@everyone", 0, false⟩],
    members := tankHealerMembers, messages := [], pins := [],
    store := tankHealerEntries, log := [], nextId := 100, timers := [] }

/-- The guild of `annBobWorld` with the same records, returned in the order
Bob, Ann. -/
def bobAnnWorld : World :=
  { annBobWorld with store := tankHealerEntries.reverse }


/-! ## Running computations -/

theorem run_pure {α : Type} (a : α) (w : World) : (pure a : M α) w = (Except.ok a, w) := rfl

theorem run_bind {α β : Type} (m : M α) (f : α → M β) (w : World) :
    (m >>= f) w = match m w with
      | (Except.ok a, w1) => f a w1
      | (Except.error e, w1) => (Except.error e, w1) := rfl

theorem steps_pure {α : Type} {R : World → World → Prop} (hrefl : ∀ w, R w w) (a : α) :
    Steps R (pure a : M α) := fun w => hrefl w

theorem steps_bind {α β : Type} {R : World → World → Prop} {m : M α} {f : α → M β}
    (htrans : ∀ a b c, R a b → R b c → R a c)
    (hm : Steps R m) (hf : ∀ a, Steps R (f a)) : Steps R (m >>= f) := by
  intro w
  rw [run_bind]
  have h1 := hm w
  cases h : m w with
  | mk r w1 =>
    rw [h] at h1
    cases r with
    | ok a => exact htrans _ _ _ h1 (hf a w1)
    | error e => exact h1

theorem steps_tryCatch {α : Type} {R : World → World → Prop} {m : M α} {f : Err → M α}
    (htrans : ∀ a b c, R a b → R b c → R a c)
    (hm : Steps R m) (hf : ∀ e, Steps R (f e)) : Steps R (tryCatch m f) := by
  intro w
  unfold Veilborn.tryCatch
  have h1 := hm w
  cases h : m w with
  | mk r w1 =>
    rw [h] at h1
    cases r with
    | ok a => exact h1
    | error e => exact htrans _ _ _ h1 (hf e w1)

theorem steps_call {α : Type} {R : World → World → Prop} (env : Env) (a : Action)
    (effect : World → α × World)
    (hlog : ∀ w : World, R w { w with log := w.log ++ [a] })
    (heff : ∀ w : World, R w (effect { w with log := w.log ++ [a] }).2) :
    Steps R (call env a effect) := by
  intro w
  unfold Veilborn.call
  cases h : env.fails w.log.length a
  · simp only [Bool.false_eq_true, if_false]; exact heff w
  · simp only [if_true]; exact hlog w

theorem steps_mono {α : Type} {R S : World → World → Prop} {m : M α}
    (h : ∀ w w1, R w w1 → S w w1) (hm : Steps R m) : Steps S m := fun w => h _ _ (hm w)

/-- Either `m` returns and `m >>= f` goes on with `f` from the world `m`
left, or `m` throws and so does `m >>= f`, in the world `m` left. -/
theorem bind_world {α β : Type} (m : M α) (f : α → M β) (w : World) :
    (∃ a, (m w).1 = Except.ok a ∧ (m >>= f) w = f a (m w).2) ∨
      (∃ e, (m w).1 = Except.error e ∧ (m >>= f) w = (Except.error e, (m w).2)) := by
  rw [run_bind]
  rcases h : m w with ⟨_ | a, w1⟩
  · right; exact ⟨_, rfl, rfl⟩
  · left; exact ⟨a, rfl, rfl⟩

/-- A statement whose `catch` block does nothing does not throw. -/
theorem tryCatch_ok {α : Type} (m : M α) (a : α) (w : World) :
    ∃ b, (tryCatch m (fun _ => pure a) w).1 = Except.ok b := by
  unfold Veilborn.tryCatch
  rcases h : m w with ⟨_ | b, w1⟩
  · exact ⟨a, rfl⟩
  · exact ⟨b, rfl⟩

/-- A `catch` block that does nothing leaves the world the `try` block left. -/
theorem tryCatch_world {α : Type} (m : M α) (a : α) (w : World) :
    (tryCatch m (fun _ => pure a) w).2 = (m w).2 := by
  unfold Veilborn.tryCatch
  rcases h : m w with ⟨_ | b, w1⟩ <;> rfl

/-! ## The log -/

theorem issues_refl (P : Action → Prop) (w : World) : Issues P w w :=
  ⟨[], by simp, by simp⟩

theorem issues_trans {P : Action → Prop} (a b c : World) (h1 : Issues P a b)
    (h2 : Issues P b c) : Issues P a c := by
  obtain ⟨l1, e1, p1⟩ := h1
  obtain ⟨l2, e2, p2⟩ := h2
  refine ⟨l1 ++ l2, by rw [e2, e1, List.append_assoc], ?_⟩
  intro x hx
  rcases List.mem_append.mp hx with h | h
  · exact p1 x h
  · exact p2 x h

theorem issues_mono {P Q : Action → Prop} (h : ∀ a, P a → Q a) (w w1 : World)
    (hw : Issues P w w1) : Issues Q w w1 := by
  obtain ⟨l, e, p⟩ := hw
  exact ⟨l, e, fun a ha => h a (p a ha)⟩

theorem issues_issued_eq {P : Action → Prop} {α : Type} (m : M α) (w : World)
    (h : Issues P w (m w).2) : (m w).2.log = w.log ++ issued m w ∧ ∀ a ∈ issued m w, P a := by
  obtain ⟨l, e, p⟩ := h
  have : issued m w = l := by unfold issued; rw [e]; simp
  rw [this]; exact ⟨e, p⟩

theorem quiet_refl (P : Action → Prop) (w : World) : Quiet P w w :=
  ⟨issues_refl P w, rfl, rfl, rfl, rfl, rfl, rfl⟩

theorem quiet_trans {P : Action → Prop} (a b c : World) (h1 : Quiet P a b)
    (h2 : Quiet P b c) : Quiet P a c := by
  obtain ⟨i1, s1, c1, r1, g1, m1, t1⟩ := h1
  obtain ⟨i2, s2, c2, r2, g2, m2, t2⟩ := h2
  exact ⟨issues_trans a b c i1 i2, s2.trans s1, c2.trans c1, r2.trans r1, g2.trans g1,
    m2.trans m1, t2.trans t1⟩

theorem quiet_mono {P Q : Action → Prop} (h : ∀ a, P a → Q a) (w w1 : World)
    (hw : Quiet P w w1) : Quiet Q w w1 :=
  ⟨issues_mono h w w1 hw.1, hw.2⟩

/-- A call whose effect leaves the guild and the collection alone is quiet. -/
theorem quiet_call {α : Type} {P : Action → Prop} (env : Env) (a : Action)
    (effect : World → α × World) (hP : P a)
    (heff : ∀ w : World, Quiet P w (effect w).2) : Steps (Quiet P) (call env a effect) := by
  have hlog : ∀ w : World, Quiet P w { w with log := w.log ++ [a] } := fun w =>
    ⟨⟨[a], rfl, by simpa using hP⟩, rfl, rfl, rfl, rfl, rfl, rfl⟩
  exact steps_call env a effect hlog (fun w => quiet_trans _ _ _ (hlog w) (heff _))

/-! ## The primitives are quiet -/

theorem getWorld_steps {R : World → World → Prop} (hrefl : ∀ w, R w w) : Steps R getWorld :=
  fun w => hrefl w

theorem now_steps {R : World → World → Prop} (hrefl : ∀ w, R w w) (env : Env) :
    Steps R (now env) := fun w => hrefl w

theorem channelsCacheFind_steps {R : World → World → Prop} (hrefl : ∀ w, R w w)
    (name : String) : Steps R (channelsCacheFind name) := fun w => hrefl w

theorem rolesCacheFind_steps {R : World → World → Prop} (hrefl : ∀ w, R w w)
    (name : String) : Steps R (rolesCacheFind name) := fun w => hrefl w

theorem find_quiet {P : Action → Prop} (env : Env) (g : Nat) (op : Cmp) (t : Int)
    (hP : P (Action.find g op t)) : Steps (Quiet P) (find env g op t) :=
  quiet_call env _ _ hP (fun w => quiet_refl P w)

theorem fetchPinned_quiet {P : Action → Prop} (env : Env) (c : Nat)
    (hP : P (Action.fetchPinned c)) : Steps (Quiet P) (fetchPinned env c) :=
  quiet_call env _ _ hP (fun w => quiet_refl P w)

theorem messagesFetch_quiet {P : Action → Prop} (env : Env) (c n : Nat)
    (hP : P (Action.messagesFetch c n)) : Steps (Quiet P) (messagesFetch env c n) :=
  quiet_call env _ _ hP (fun w => quiet_refl P w)

theorem send_quiet {P : Action → Prop} (env : Env) (c : Nat) (s : String)
    (hP : P (Action.send c s)) : Steps (Quiet P) (send env c s) :=
  quiet_call env _ _ hP (fun w => ⟨issues_refl P w, rfl, rfl, rfl, rfl, rfl, rfl⟩)

theorem edit_quiet {P : Action → Prop} (env : Env) (m : Message) (s : String)
    (cs : Option (List (List Button))) (hP : P (Action.edit m.id s cs)) :
    Steps (Quiet P) (edit env m s cs) :=
  quiet_call env _ _ hP (fun w => ⟨issues_refl P w, rfl, rfl, rfl, rfl, rfl, rfl⟩)

theorem pin_quiet {P : Action → Prop} (env : Env) (m : Message) (hP : P (Action.pin m.id)) :
    Steps (Quiet P) (pin env m) :=
  quiet_call env _ _ hP (fun w => ⟨issues_refl P w, rfl, rfl, rfl, rfl, rfl, rfl⟩)

theorem rolesRemove_quiet {P : Action → Prop} (env : Env) (m : Member) (r : Role)
    (hP : P (Action.rolesRemove m.id r.id)) : Steps (Quiet P) (rolesRemove env m r) :=
  quiet_call env _ _ hP (fun w => ⟨issues_refl P w, rfl, rfl, rfl, rfl, rfl, rfl⟩)

theorem memberSend_quiet {P : Action → Prop} (env : Env) (m : Member) (s : String)
    (hP : P (Action.memberSend m.id s)) : Steps (Quiet P) (memberSend env m s) :=
  quiet_call env _ _ hP (fun w => quiet_refl P w)

/-! ## The panel functions are quiet -/

/-- The statements that follow the lookup of the roster message are quiet;
their calls are sends to the channel, edits and pins that carry the given
text. -/
theorem upsertRosterMessage_calls {P : Action → Prop} (env : Env) (channel : Channel)
    (content : String) (found : Option Message)
    (h2 : P (Action.send channel.id content)) (h3 : ∀ i, P (Action.edit i content none))
    (h4 : ∀ i, P (Action.pin i)) :
    Steps (Quiet P) (upsertRosterMessage env channel content found) := by
  unfold upsertRosterMessage
  repeat' first
    | exact send_quiet _ _ _ h2
    | exact edit_quiet _ _ _ _ (h3 _)
    | exact pin_quiet _ _ (h4 _)
    | exact steps_pure (quiet_refl _) _
    | apply steps_bind quiet_trans
    | split
    | intro _

/-- The last block of `updateRosterMessage` is quiet; its calls are a fetch of
the pins of the channel, and sends to the channel, edits and pins that carry
the given text. -/
theorem publishRoster_calls {P : Action → Prop} (env : Env) (channel : Channel)
    (content : String) (h1 : P (Action.fetchPinned channel.id))
    (h2 : P (Action.send channel.id content)) (h3 : ∀ i, P (Action.edit i content none))
    (h4 : ∀ i, P (Action.pin i)) :
    Steps (Quiet P) (publishRoster env channel content) := by
  unfold publishRoster
  repeat' first
    | exact getWorld_steps (quiet_refl _)
    | exact fetchPinned_quiet _ _ h1
    | exact upsertRosterMessage_calls _ _ _ _ h2 h3 h4
    | apply steps_bind quiet_trans
    | intro _

theorem publishRoster_quiet (env : Env) (channel : Channel) (content : String) :
    Steps (Quiet isPanelCall) (publishRoster env channel content) :=
  publishRoster_calls env channel content trivial trivial (fun _ => trivial) (fun _ => trivial)

theorem updateRosterMessage_quiet (env : Env) (channel : Channel) :
    Steps (Quiet isPanelCall) (updateRosterMessage env channel) := by
  unfold updateRosterMessage
  repeat' first
    | exact now_steps (quiet_refl _) _
    | exact getWorld_steps (quiet_refl _)
    | exact find_quiet _ _ _ _ trivial
    | exact publishRoster_quiet _ _ _
    | apply steps_bind quiet_trans
    | intro _

theorem upsertClockMessage_quiet (env : Env) (channel : Channel) (found : Option Message) :
    Steps (Quiet isPanelCall) (upsertClockMessage env channel found) := by
  unfold upsertClockMessage
  repeat' first
    | exact send_quiet _ _ _ trivial
    | exact edit_quiet _ _ _ _ trivial
    | exact pin_quiet _ _ trivial
    | exact steps_pure (quiet_refl _) _
    | apply steps_bind quiet_trans
    | apply steps_tryCatch quiet_trans
    | split
    | intro _

theorem createClockButtons_quiet (env : Env) (channel : Channel) :
    Steps (Quiet isPanelCall) (createClockButtons env channel) := by
  unfold createClockButtons
  repeat' first
    | exact getWorld_steps (quiet_refl _)
    | exact fetchPinned_quiet _ _ trivial
    | exact upsertClockMessage_quiet _ _ _
    | apply steps_bind quiet_trans
    | intro _

theorem upsertContentMessage_quiet (env : Env) (channel : Channel) (found : Option Message) :
    Steps (Quiet isPanelCall) (upsertContentMessage env channel found) := by
  unfold upsertContentMessage
  repeat' first
    | exact send_quiet _ _ _ trivial
    | exact edit_quiet _ _ _ _ trivial
    | exact steps_pure (quiet_refl _) _
    | apply steps_bind quiet_trans
    | apply steps_tryCatch quiet_trans
    | split
    | intro _

theorem createContentSelectionButtons_quiet (env : Env) (channel : Channel) :
    Steps (Quiet isPanelCall) (createContentSelectionButtons env channel) := by
  unfold createContentSelectionButtons
  repeat' first
    | exact getWorld_steps (quiet_refl _)
    | exact messagesFetch_quiet _ _ _ trivial
    | exact upsertContentMessage_quiet _ _ _
    | apply steps_bind quiet_trans
    | intro _

/-! ## The expiry sweep -/

theorem fetchedUsers_append (l1 l2 : List Action) :
    fetchedUsers (l1 ++ l2) = fetchedUsers l1 ++ fetchedUsers l2 := by
  unfold fetchedUsers; exact List.filterMap_append _ _ _

theorem fetchedUsers_eq_nil {P : Action → Prop} (hP : ∀ u, ¬ P (Action.membersFetch u))
    (l : List Action) (h : ∀ a ∈ l, P a) : fetchedUsers l = [] := by
  unfold fetchedUsers
  rw [List.filterMap_eq_nil_iff]
  intro a ha
  cases a <;> first | rfl | exact absurd (h _ ha) (hP _)

/-- What follows the member fetch in one step of the loop. -/
theorem revokeEntry_rest_quiet (env : Env) (member : Member) :
    Steps (Quiet isRevokeCall)
      (do
        let clockedInRole ← rolesCacheFind env.config.CLOCKED_IN
        match clockedInRole with
        | some role =>
          if member.roles.any (fun r => r.id == role.id) then do
            rolesRemove env member role
            tryCatch (memberSend env member (autoClockOutText env.config)) (fun _ => pure ())
          else pure ()
        | none => pure ()) := by
  repeat' first
    | exact rolesCacheFind_steps (quiet_refl _) _
    | exact rolesRemove_quiet _ _ _ trivial
    | exact memberSend_quiet _ _ _ trivial
    | exact steps_pure (quiet_refl _) _
    | apply steps_bind quiet_trans
    | apply steps_tryCatch quiet_trans
    | split
    | intro _


theorem membersFetch_spec (env : Env) (userId : Nat) (w : World) :
    (membersFetch env userId w).2.log = w.log ++ [Action.membersFetch userId] ∧
      (membersFetch env userId w).2.store = w.store ∧
      (membersFetch env userId w).2.channels = w.channels ∧
      (membersFetch env userId w).2.roles = w.roles ∧
      (membersFetch env userId w).2.guildId = w.guildId ∧
      (membersFetch env userId w).2.me = w.me ∧
      (membersFetch env userId w).2.timers = w.timers := by
  unfold membersFetch
  cases hfind : w.members.find? (fun m => m.id == userId) with
  | none => exact ⟨rfl, rfl, rfl, rfl, rfl, rfl, rfl⟩
  | some member =>
    cases hf : env.fails w.log.length (Action.membersFetch userId) <;>
      simp [hf]

/-- One step of the revocation loop issues the member fetch of its entry,
then only role removals and direct messages, and is quiet. -/
theorem revokeEntry_spec (env : Env) (entry : RosterEntry) (w : World) :
    ∃ l, (revokeEntry env entry w).2.log = w.log ++ Action.membersFetch entry.userId :: l ∧
      (∀ a ∈ l, isRevokeCall a) ∧
      (revokeEntry env entry w).2.store = w.store ∧
      (revokeEntry env entry w).2.channels = w.channels ∧
      (revokeEntry env entry w).2.roles = w.roles ∧
      (revokeEntry env entry w).2.guildId = w.guildId ∧
      (revokeEntry env entry w).2.me = w.me ∧
      (revokeEntry env entry w).2.timers = w.timers := by
  unfold revokeEntry
  rw [tryCatch_world]
  obtain ⟨hl, hs, hc, hr, hg, hm, ht⟩ := membersFetch_spec env entry.userId w
  rcases bind_world (membersFetch env entry.userId) _ w with ⟨member, -, h⟩ | ⟨e, -, h⟩
  · rw [h]
    obtain ⟨⟨l, el, pl⟩, qs, qc, qr, qg, qm, qt⟩ :=
      revokeEntry_rest_quiet env member (membersFetch env entry.userId w).2
    exact ⟨l, by rw [el, hl]; simp, pl, qs.trans hs, qc.trans hc, qr.trans hr, qg.trans hg,
      qm.trans hm, qt.trans ht⟩
  · rw [h]
    exact ⟨[], by rw [hl], by simp, hs, hc, hr, hg, hm, ht⟩

/-- The revocation loop fetches the members of its entries, one after the
other, and is quiet. -/
theorem revokeExpired_spec (env : Env) (entries : List RosterEntry) :
    ∀ w : World, ∃ l, (revokeExpired env entries w).2.log = w.log ++ l ∧
      fetchedUsers l = entries.map RosterEntry.userId ∧
      (revokeExpired env entries w).2.store = w.store ∧
      (revokeExpired env entries w).2.channels = w.channels ∧
      (revokeExpired env entries w).2.roles = w.roles ∧
      (revokeExpired env entries w).2.guildId = w.guildId ∧
      (revokeExpired env entries w).2.me = w.me := by
  induction entries with
  | nil => intro w; exact ⟨[], by simp [revokeExpired, run_pure], rfl, rfl, rfl, rfl, rfl, rfl⟩
  | cons entry rest ih =>
    intro w
    obtain ⟨l, hl, pl, hs, hc, hr, hg, hm, _⟩ := revokeEntry_spec env entry w
    have hfl : fetchedUsers (Action.membersFetch entry.userId :: l) = [entry.userId] := by
      have h0 := fetchedUsers_eq_nil (P := isRevokeCall) (fun u h => h) l pl
      have h1 := fetchedUsers_append [Action.membersFetch entry.userId] l
      rw [h0] at h1
      simpa [fetchedUsers] using h1
    unfold revokeExpired
    rcases bind_world (revokeEntry env entry) (fun _ => revokeExpired env rest) w with
      ⟨u, -, h⟩ | ⟨e, he, -⟩
    · rw [h]
      obtain ⟨l2, hl2, pl2, hs2, hc2, hr2, hg2, hm2⟩ := ih (revokeEntry env entry w).2
      refine ⟨Action.membersFetch entry.userId :: l ++ l2, ?_, ?_, hs2.trans hs, hc2.trans hc,
        hr2.trans hr, hg2.trans hg, hm2.trans hm⟩
      · rw [hl2, hl]; simp
      · rw [fetchedUsers_append, hfl, pl2]; rfl
    · exfalso
      obtain ⟨b, hb⟩ := tryCatch_ok
        (do
          let member ← membersFetch env entry.userId
          let clockedInRole ← rolesCacheFind env.config.CLOCKED_IN
          match clockedInRole with
          | some role =>
            if member.roles.any (fun r => r.id == role.id) then do
              rolesRemove env member role
              tryCatch (memberSend env member (autoClockOutText env.config)) (fun _ => pure ())
            else pure ()
          | none => pure ()) () w
      unfold revokeEntry at he
      rw [hb] at he
      exact absurd he (by simp)

theorem matchesFilter_lte (g : Nat) (t : Int) (r : RosterEntry) :
    matchesFilter g Cmp.lte t r = decide (isExpired g t r) := by
  unfold matchesFilter isExpired
  by_cases h1 : r.guildId = g <;> by_cases h2 : r.clockOutTime ≤ t <;> simp [h1, h2]

theorem matchesFilter_gt (g : Nat) (t : Int) (r : RosterEntry) :
    matchesFilter g Cmp.gt t r = decide (isActive g t r) := by
  unfold matchesFilter isActive
  by_cases h1 : r.guildId = g <;> by_cases h2 : t < r.clockOutTime <;> simp [h1, h2]

/-- A roster query that is not rejected returns the matching documents and
changes nothing but the log. -/
theorem find_ok (env : Env) (g : Nat) (op : Cmp) (t : Int) (w : World)
    (h : env.fails w.log.length (Action.find g op t) = false) :
    ∃ w1, find env g op t w = (Except.ok (w.store.filter (matchesFilter g op t)), w1) ∧
      w1.log = w.log ++ [Action.find g op t] ∧ w1.store = w.store ∧
      w1.members = w.members := by
  unfold find call
  simp only [h, Bool.false_eq_true, if_false]
  exact ⟨_, rfl, rfl, rfl, rfl⟩

/-- A `deleteMany` that is not rejected removes the matching documents and
changes nothing else but the log. -/
theorem deleteMany_ok (env : Env) (g : Nat) (op : Cmp) (t : Int) (w : World)
    (h : env.fails w.log.length (Action.deleteMany g op t) = false) :
    ∃ w1, deleteMany env g op t w = (Except.ok (), w1) ∧
      w1.log = w.log ++ [Action.deleteMany g op t] ∧
      w1.store = w.store.filter (fun r => !matchesFilter g op t r) := by
  unfold deleteMany call
  simp only [h, Bool.false_eq_true, if_false]
  exact ⟨_, rfl, rfl, rfl⟩

/-- The refresh that ends the sweep is quiet. -/
theorem sweepRefresh_quiet (env : Env) :
    Steps (Quiet isPanelCall)
      (do
        let partyFinderChannel ← channelsCacheFind env.config.PARTY_FINDER
        match partyFinderChannel with
        | some channel => updateRosterMessage env channel
        | none => pure ()) := by
  repeat' first
    | exact channelsCacheFind_steps (quiet_refl _) _
    | exact updateRosterMessage_quiet _ _
    | exact steps_pure (quiet_refl _) _
    | apply steps_bind quiet_trans
    | split
    | intro _

/-- C1. The expiry sweep removes from the collection exactly the entries of
the guild whose `clockOutTime` is at or before the sweep time (every other
entry, of a later time or of another guild, stays as it is and where it is),
and the members it then processes for role revocation are those of the removed
entries, in order.  The two collection calls are taken to succeed. -/
theorem cleanupExpiredRosterEntries_removes_exactly_expired (env : Env) (w : World)
    (hfind : env.fails w.log.length
      (Action.find w.guildId Cmp.lte (env.clock w.log.length)) = false)
    (hdelete : env.fails (w.log.length + 1)
      (Action.deleteMany w.guildId Cmp.lte (env.clock w.log.length)) = false) :
    (cleanupExpiredRosterEntries env w).2.store =
        w.store.filter (fun r => ¬ isExpired w.guildId (env.clock w.log.length) r) ∧
      fetchedUsers (issued (cleanupExpiredRosterEntries env) w) =
        (w.store.filter (fun r => isExpired w.guildId (env.clock w.log.length) r)).map
          RosterEntry.userId := by
  have hexp : w.store.filter (matchesFilter w.guildId Cmp.lte (env.clock w.log.length)) =
      w.store.filter (fun r => isExpired w.guildId (env.clock w.log.length) r) :=
    List.filter_congr (fun r _ => matchesFilter_lte _ _ r)
  have hkeep : w.store.filter
      (fun r => !matchesFilter w.guildId Cmp.lte (env.clock w.log.length) r) =
      w.store.filter (fun r => ¬ isExpired w.guildId (env.clock w.log.length) r) :=
    List.filter_congr (fun r _ => by rw [matchesFilter_lte]; simp)
  obtain ⟨w1, hw1, l1, s1, -⟩ := find_ok env _ _ _ w hfind
  have hd : env.fails w1.log.length
      (Action.deleteMany w.guildId Cmp.lte (env.clock w.log.length)) = false := by
    rw [l1]; simpa using hdelete
  obtain ⟨w2, hw2, l2, s2⟩ := deleteMany_ok env _ _ _ w1 hd
  unfold issued cleanupExpiredRosterEntries
  simp only [run_bind, now, getWorld, hw1]
  split
  · rw [run_bind, hw2]
    simp only []
    obtain ⟨l, hl, ul, hs, -⟩ := revokeExpired_spec env
      (w.store.filter (matchesFilter w.guildId Cmp.lte (env.clock w.log.length))) w2
    rcases bind_world (revokeExpired env
        (w.store.filter (matchesFilter w.guildId Cmp.lte (env.clock w.log.length)))) _ w2 with
      ⟨u, -, h⟩ | ⟨e, -, h⟩
    · rw [h]
      obtain ⟨⟨l3, hl3, pl3⟩, hs3, -⟩ := sweepRefresh_quiet env (revokeExpired env
        (w.store.filter (matchesFilter w.guildId Cmp.lte (env.clock w.log.length))) w2).2
      have hf3 := fetchedUsers_eq_nil (P := isPanelCall) (fun u h => h) l3 pl3
      constructor
      · rw [hs3, hs, s2, s1, hkeep]
      · rw [hl3, hl, l2, l1, ← hexp]
        simp only [List.append_assoc, List.drop_left]
        rw [fetchedUsers_append, fetchedUsers_append, fetchedUsers_append, hf3, ul]
        simp [fetchedUsers]
    · rw [h]
      constructor
      · rw [hs, s2, s1, hkeep]
      · rw [hl, l2, l1, ← hexp]
        simp only [List.append_assoc, List.drop_left]
        rw [fetchedUsers_append, fetchedUsers_append, ul]
        simp [fetchedUsers]
  · rename_i hlen
    have hnil : w.store.filter (matchesFilter w.guildId Cmp.lte (env.clock w.log.length)) = [] := by
      simpa using hlen
    rw [← hkeep, ← hexp, hnil]
    constructor
    · simp only [run_pure, s1]
      symm
      rw [List.filter_eq_self]
      intro r hr
      have := List.filter_eq_nil_iff.mp hnil r hr
      simpa using this
    · simp [run_pure, fetchedUsers, l1]

/-- C1, at a sample world: of three entries, the expired entry of the guild is
removed and processed; the active entry and the entry of another guild stay. -/
theorem cleanupExpiredRosterEntries_removes_exactly_expired_witness :
    (calmEnv 1000).fails sampleWorld.log.length
        (Action.find sampleWorld.guildId Cmp.lte ((calmEnv 1000).clock sampleWorld.log.length)) =
        false ∧
      (calmEnv 1000).fails (sampleWorld.log.length + 1)
        (Action.deleteMany sampleWorld.guildId Cmp.lte
          ((calmEnv 1000).clock sampleWorld.log.length)) = false ∧
      (cleanupExpiredRosterEntries (calmEnv 1000) sampleWorld).2.store =
        sampleWorld.store.filter (fun r => ¬ isExpired sampleWorld.guildId
          ((calmEnv 1000).clock sampleWorld.log.length) r) ∧
      fetchedUsers (issued (cleanupExpiredRosterEntries (calmEnv 1000)) sampleWorld) =
        (sampleWorld.store.filter (fun r => isExpired sampleWorld.guildId
          ((calmEnv 1000).clock sampleWorld.log.length) r)).map RosterEntry.userId :=
  ⟨rfl, rfl, cleanupExpiredRosterEntries_removes_exactly_expired (calmEnv 1000) sampleWorld rfl rfl⟩

/-- C2. The roster is rendered from exactly the entries of the guild whose
`clockOutTime` is after the time of the query (an entry whose `clockOutTime`
is that time is not among them): every text `updateRosterMessage` sends or
edits in is the rendering of that list.  An entry that clocks out four hours
after `T0` is among them one hour after `T0`; five hours after `T0` it is not,
and the expiry sweep selects it.  The roster query is taken to succeed. -/
theorem updateRosterMessage_renders_active (env : Env) (channel : Channel) (w : World)
    (hfind : env.fails w.log.length
      (Action.find w.guildId Cmp.gt (env.clock w.log.length)) = false) :
    (∀ a ∈ issued (updateRosterMessage env channel) w, ∀ s, a.text = some s →
        s = fullContent env.config w.members (env.clock w.log.length)
          (w.store.filter (fun r => isActive w.guildId (env.clock w.log.length) r))) ∧
      (∀ r, r ∈ w.store.filter (fun r => isActive w.guildId (env.clock w.log.length) r) ↔
        r ∈ w.store ∧ r.guildId = w.guildId ∧ env.clock w.log.length < r.clockOutTime) ∧
      (∀ r, r.clockOutTime = env.clock w.log.length →
        r ∉ w.store.filter (fun r => isActive w.guildId (env.clock w.log.length) r)) ∧
      (∀ (T0 : Int) (r : RosterEntry), r ∈ w.store → r.guildId = w.guildId →
        r.clockOutTime = T0 + 4 * hourMs →
        (env.clock w.log.length = T0 + 1 * hourMs →
          r ∈ w.store.filter (fun r => isActive w.guildId (env.clock w.log.length) r)) ∧
        (env.clock w.log.length = T0 + 5 * hourMs →
          r ∉ w.store.filter (fun r => isActive w.guildId (env.clock w.log.length) r) ∧
          r ∈ w.store.filter (fun r => isExpired w.guildId (env.clock w.log.length) r))) := by
  refine ⟨?_, ?_, ?_, ?_⟩
  · obtain ⟨w1, hw1, l1, s1, m1⟩ := find_ok env _ _ _ w hfind
    have hact : w.store.filter (matchesFilter w.guildId Cmp.gt (env.clock w.log.length)) =
        w.store.filter (fun r => isActive w.guildId (env.clock w.log.length) r) :=
      List.filter_congr (fun r _ => matchesFilter_gt _ _ r)
    have hrun : (updateRosterMessage env channel w).2 =
        (publishRoster env channel (fullContent env.config w.members (env.clock w.log.length)
          (w.store.filter (fun r => isActive w.guildId (env.clock w.log.length) r))) w1).2 := by
      unfold updateRosterMessage
      simp only [run_bind, now, getWorld, hw1, m1, hact]
    obtain ⟨⟨l, hl, pl⟩, -⟩ := publishRoster_calls
      (P := fun a => ∀ s, a.text = some s →
        s = fullContent env.config w.members (env.clock w.log.length)
          (w.store.filter (fun r => isActive w.guildId (env.clock w.log.length) r)))
      env channel _ (fun s h => by simp [Action.text] at h)
      (fun s h => by simpa [Action.text] using h.symm)
      (fun i s h => by simpa [Action.text] using h.symm)
      (fun i s h => by simp [Action.text] at h) w1
    intro a ha
    unfold issued at ha
    rw [hrun, hl, l1] at ha
    simp only [List.append_assoc, List.drop_left, List.singleton_append, List.mem_cons] at ha
    rcases ha with rfl | ha
    · intro s h; simp [Action.text] at h
    · exact pl a ha
  · intro r
    simp [isActive]
  · intro r hr
    simp [isActive, hr]
  · intro T0 r hmem hg hout
    refine ⟨fun ht => ?_, fun ht => ⟨?_, ?_⟩⟩
    · simp [isActive, hmem, hg, hout, ht, hourMs]
    · simp [isActive, hout, ht, hourMs]
    · simp [isExpired, hmem, hg, hout, ht, hourMs]

/-- C2, at a sample world: the query succeeds, and every text sent or edited in
is the rendering of the active entries. -/
theorem updateRosterMessage_renders_active_witness :
    (calmEnv 1000).fails sampleWorld.log.length
        (Action.find sampleWorld.guildId Cmp.gt ((calmEnv 1000).clock sampleWorld.log.length)) =
        false ∧
      (∀ a ∈ issued (updateRosterMessage (calmEnv 1000) sampleChannel) sampleWorld, ∀ s,
        a.text = some s →
        s = fullContent (calmEnv 1000).config sampleWorld.members
          ((calmEnv 1000).clock sampleWorld.log.length)
          (sampleWorld.store.filter (fun r => isActive sampleWorld.guildId
            ((calmEnv 1000).clock sampleWorld.log.length) r))) :=
  ⟨rfl, (updateRosterMessage_renders_active (calmEnv 1000) sampleChannel sampleWorld rfl).1⟩

/-! ## Class detection -/

/-- The loop over the patterns returns what the first pattern that matches a
role finds, when no pattern matches the empty string. -/
theorem detectClass_eq (roles : List String) :
    ∀ ps : List RegExp, (∀ p ∈ ps, p.test "" = false) →
      detectClass ps roles =
        match ps.find? (fun p => roles.any (fun role => p.test role)) with
        | none => none
        | some p => roles.find? (fun role => p.test role) := by
  intro ps
  induction ps with
  | nil => intro _; rfl
  | cons p rest ih =>
    intro h
    have hp : p.test "" = false := h p (List.mem_cons_self _ _)
    have hrest : ∀ q ∈ rest, q.test "" = false := fun q hq => h q (List.mem_cons_of_mem _ hq)
    unfold detectClass
    cases hf : roles.find? (fun role => p.test role) with
    | some r =>
      have hr : p.test r = true := by simpa using List.find?_some hf
      have hmem : r ∈ roles := List.mem_of_find?_eq_some hf
      have hne : r ≠ "" := by
        intro e; rw [e, hp] at hr; exact Bool.noConfusion hr
      have hany : roles.any (fun role => p.test role) = true :=
        List.any_eq_true.mpr ⟨r, hmem, hr⟩
      simp [hne, List.find?_cons, hany, hf]
    | none =>
      have hany : roles.any (fun role => p.test role) = false := by
        rw [List.any_eq_false]
        intro x hx
        have := List.find?_eq_none.mp hf x hx
        simpa using this
      simp only [List.find?_cons, hany]
      exact ih hrest

theorem classPatterns_reject_empty : ∀ p ∈ classPatterns, p.test "" = false := by decide

/-- C9. The detected class of a member is decided by the order of the patterns:
it is the first class role (in the order of the member's roles) that the
earliest pattern matching any class role matches; it is absent exactly when no
pattern matches any class role.  With the class roles `Healer`, `Tank` it is
`Tank`. -/
theorem detectedClass_first_pattern_wins (config : Config) (member : Member) :
    (detectedClass config member =
        match classPatterns.find?
          (fun p => (classRoles config member).any (fun role => p.test role)) with
        | none => none
        | some p => (classRoles config member).find? (fun role => p.test role)) ∧
      (detectedClass config member = none ↔
        ∀ p ∈ classPatterns, ∀ role ∈ classRoles config member, p.test role = false) ∧
      (classRoles config member = ["Healer", "Tank"] →
        detectedClass config member = some "Tank") := by
  have h1 := detectClass_eq (classRoles config member) classPatterns classPatterns_reject_empty
  refine ⟨h1, ?_, ?_⟩
  · unfold detectedClass
    rw [h1]
    constructor
    · intro h p hp role hrole
      cases hf : classPatterns.find?
          (fun p => (classRoles config member).any (fun role => p.test role)) with
      | none =>
        have := List.find?_eq_none.mp hf p hp
        simp only [List.any_eq_true, not_exists, not_and, Bool.not_eq_true] at this
        exact this role hrole
      | some q =>
        rw [hf] at h
        simp only at h
        have hq : (classRoles config member).any (fun role => q.test role) = true := by
          simpa using List.find?_some hf
        obtain ⟨r, hr, hr2⟩ := List.any_eq_true.mp hq
        have := List.find?_eq_none.mp h r hr
        simp [hr2] at this
    · intro h
      have : classPatterns.find?
          (fun p => (classRoles config member).any (fun role => p.test role)) = none := by
        rw [List.find?_eq_none]
        intro p hp
        simp only [List.any_eq_true, not_exists, not_and, Bool.not_eq_true]
        exact fun role hrole => h p hp role hrole
      rw [this]
  · intro h
    unfold detectedClass
    rw [h]
    decide

/-- C9, at a sample member whose roles are `Healer`, `Tank`, a content type and
the status roles. -/
theorem detectedClass_first_pattern_wins_witness :
    classRoles sampleConfig sampleMember = ["Healer", "Tank"] ∧
      detectedClass sampleConfig sampleMember = some "Tank" :=
  ⟨by decide, (detectedClass_first_pattern_wins sampleConfig sampleMember).2.2 (by decide)⟩

/-! ## Remaining time -/

theorem append_ne_empty (a b : String) (h : a ≠ "") : a ++ b ≠ "" := by
  intro e
  apply h
  have := congrArg String.length e
  rw [String.length_append] at this
  have h0 : a.length = 0 := by
    have h1 : ("" : String).length = 0 := rfl
    omega
  exact String.ext (List.length_eq_zero.mp h0)

/-- C10. For an entry listed at time `asOf` (its `clockOutTime` is later), with
`t` the remaining milliseconds, `H = t / 3600000` and `M = (t % 3600000) / 60000`:
the rendered time is `(Hh Mm)` from one hour on, `(Mm)` from one minute up to
one hour, and `(<1m)` below one minute; `60 * H + M = t / 60000`, `M < 60`, and
the rendered time is never empty. -/
theorem timeInfo_buckets (clockOutTime asOf : Int) (hlisted : asOf < clockOutTime) :
    ((timeLeftMs clockOutTime asOf : Nat) : Int) = clockOutTime - asOf ∧
      0 < timeLeftMs clockOutTime asOf ∧
      (3600000 ≤ timeLeftMs clockOutTime asOf →
        timeInfo clockOutTime asOf =
          " (" ++ toString (timeLeftMs clockOutTime asOf / 3600000) ++ "h " ++
            toString (timeLeftMs clockOutTime asOf % 3600000 / 60000) ++ "m)") ∧
      (60000 ≤ timeLeftMs clockOutTime asOf → timeLeftMs clockOutTime asOf < 3600000 →
        timeInfo clockOutTime asOf =
          " (" ++ toString (timeLeftMs clockOutTime asOf % 3600000 / 60000) ++ "m)") ∧
      (timeLeftMs clockOutTime asOf < 60000 → timeInfo clockOutTime asOf = " (<1m)") ∧
      60 * (timeLeftMs clockOutTime asOf / 3600000) +
          timeLeftMs clockOutTime asOf % 3600000 / 60000 =
        timeLeftMs clockOutTime asOf / 60000 ∧
      timeLeftMs clockOutTime asOf % 3600000 / 60000 < 60 ∧
      timeInfo clockOutTime asOf ≠ "" := by
  have hpos : 0 < timeLeftMs clockOutTime asOf := by
    unfold timeLeftMs; omega
  have hcast : ((timeLeftMs clockOutTime asOf : Nat) : Int) = clockOutTime - asOf := by
    unfold timeLeftMs; omega
  generalize timeLeftMs clockOutTime asOf = t at hpos hcast ⊢
  have hgen : timeInfo clockOutTime asOf = timeInfoOf t := by
    unfold timeInfo timeLeftMs
    congr 1
    omega
  rw [hgen]
  refine ⟨hcast, hpos, ?_, ?_, ?_, by omega, by omega, ?_⟩
  · intro h
    have hH : hoursLeft t > 0 := by unfold hoursLeft; omega
    unfold timeInfoOf
    rw [if_pos hH]
    rfl
  · intro h1 h2
    have hH : ¬ hoursLeft t > 0 := by unfold hoursLeft; omega
    have hM : minutesLeft t > 0 := by unfold minutesLeft; omega
    unfold timeInfoOf
    rw [if_neg hH, if_pos hM]
    rfl
  · intro h
    have hH : ¬ hoursLeft t > 0 := by unfold hoursLeft; omega
    have hM : ¬ minutesLeft t > 0 := by unfold minutesLeft; omega
    unfold timeInfoOf
    rw [if_neg hH, if_neg hM, if_pos hpos]
  · unfold timeInfoOf
    split
    · simp only [String.append_assoc]
      exact append_ne_empty _ _ (by decide)
    · split
      · simp only [String.append_assoc]
        exact append_ne_empty _ _ (by decide)
      · decide

/-- C10, at an entry that clocks out four hours and five minutes after the
time of the roster: the rendered time is `(4h 5m)`. -/
theorem timeInfo_buckets_witness :
    (1000 : Int) < 1000 + 4 * 3600000 + 5 * 60000 ∧
      timeInfo (1000 + 4 * 3600000 + 5 * 60000) 1000 = " (4h 5m)" :=
  ⟨by decide, by
    have h := (timeInfo_buckets (1000 + 4 * 3600000 + 5 * 60000) 1000 (by decide)).2.2.1
      (by decide)
    rw [h]
    decide⟩
/-! ## Reconciliation is additive -/

theorem additive_refl (P : Action → Prop) (w : World) : Additive P w w :=
  ⟨issues_refl P w, List.prefix_refl _, List.prefix_refl _, rfl, rfl, rfl⟩

theorem additive_trans {P : Action → Prop} (a b c : World) (h1 : Additive P a b)
    (h2 : Additive P b c) : Additive P a c := by
  obtain ⟨i1, c1, r1, s1, g1, m1⟩ := h1
  obtain ⟨i2, c2, r2, s2, g2, m2⟩ := h2
  exact ⟨issues_trans a b c i1 i2, c1.trans c2, r1.trans r2, s2.trans s1, g2.trans g1,
    m2.trans m1⟩

theorem additive_of_quiet {P Q : Action → Prop} (h : ∀ a, P a → Q a) (w w1 : World)
    (hq : Quiet P w w1) : Additive Q w w1 := by
  obtain ⟨i, s, c, r, g, m, _⟩ := hq
  exact ⟨issues_mono h w w1 i, by rw [c], by rw [r], s, g, m⟩

theorem additive_call {α : Type} {P : Action → Prop} (env : Env) (a : Action)
    (effect : World → α × World) (hP : P a)
    (heff : ∀ w : World, Additive P w (effect w).2) : Steps (Additive P) (call env a effect) := by
  have hlog : ∀ w : World, Additive P w { w with log := w.log ++ [a] } := fun w =>
    ⟨⟨[a], rfl, by simpa using hP⟩, List.prefix_refl _, List.prefix_refl _, rfl, rfl, rfl⟩
  exact steps_call env a effect hlog (fun w => additive_trans _ _ _ (hlog w) (heff _))

theorem channelsCreate_additive {P : Action → Prop} (env : Env) (d : ChannelDescriptor)
    (hP : P (Action.channelsCreate d)) : Steps (Additive P) (channelsCreate env d) :=
  additive_call env _ _ hP (fun w =>
    ⟨issues_refl P w, List.prefix_append _ _, List.prefix_refl _, rfl, rfl, rfl⟩)

theorem rolesCreate_additive {P : Action → Prop} (env : Env) (name : String) (color : Nat)
    (b : Bool) (hP : P (Action.rolesCreate name color b)) :
    Steps (Additive P) (rolesCreate env name color b) :=
  additive_call env _ _ hP (fun w =>
    ⟨issues_refl P w, List.prefix_refl _, List.prefix_append _ _, rfl, rfl, rfl⟩)

theorem setInterval_additive {P : Action → Prop} (timer : Timer) :
    Steps (Additive P) (setInterval timer) := fun w =>
  ⟨issues_refl P w, List.prefix_refl _, List.prefix_refl _, rfl, rfl, rfl⟩

theorem createIfMissing_additive {P : Action → Prop} (env : Env) (found : Option Channel)
    (d : ChannelDescriptor) (hP : P (Action.channelsCreate d)) :
    Steps (Additive P) (createIfMissing env found d) := by
  unfold createIfMissing
  repeat' first
    | exact channelsCreate_additive _ _ hP
    | exact steps_pure (additive_refl _) _
    | apply steps_bind additive_trans
    | apply steps_tryCatch additive_trans
    | split
    | intro _

theorem createRoleIfMissing_additive {P : Action → Prop} (env : Env) (found : Option Role)
    (name : String) (color : Nat) (hP : P (Action.rolesCreate name color false)) :
    Steps (Additive P) (createRoleIfMissing env found name color) := by
  unfold createRoleIfMissing
  repeat' first
    | exact rolesCreate_additive _ _ _ _ hP
    | exact steps_pure (additive_refl _) _
    | apply steps_bind additive_trans
    | apply steps_tryCatch additive_trans
    | split
    | intro _

theorem ensureContentRoles_additive {P : Action → Prop} (env : Env) :
    ∀ types : List (String × String),
      (∀ e ∈ types, P (Action.rolesCreate e.2 (getContentTypeColor e.1) false)) →
      Steps (Additive P) (ensureContentRoles env types) := by
  intro types
  induction types with
  | nil => intro _; exact steps_pure (additive_refl _) _
  | cons e rest ih =>
    intro h
    obtain ⟨key, roleName⟩ := e
    unfold ensureContentRoles
    refine steps_bind additive_trans (rolesCacheFind_steps (additive_refl _) _) (fun _ => ?_)
    refine steps_bind additive_trans
      (createRoleIfMissing_additive env _ _ _ (h (key, roleName) (List.mem_cons_self _ _)))
      (fun _ => ?_)
    exact ih (fun e he => h e (List.mem_cons_of_mem _ he))

theorem isPanelCall_desiredOnly (config : Config) (a : Action) (h : isPanelCall a) :
    desiredOnly config a := by
  cases a <;> trivial

theorem setUpCreatedChannels_quiet (env : Env) (b : Bool) (c p : Option Channel) :
    Steps (Quiet isPanelCall) (setUpCreatedChannels env b c p) := by
  unfold setUpCreatedChannels
  repeat' first
    | exact createClockButtons_quiet _ _
    | exact updateRosterMessage_quiet _ _
    | exact steps_pure (quiet_refl _) _
    | apply steps_bind quiet_trans
    | split
    | intro _

theorem verifyAndCreateMissingChannels_additive (env : Env) (clockedInRole : Role) :
    Steps (Additive (desiredOnly env.config)) (verifyAndCreateMissingChannels env clockedInRole) := by
  unfold verifyAndCreateMissingChannels
  repeat' first
    | exact getWorld_steps (additive_refl _)
    | exact channelsCacheFind_steps (additive_refl _) _
    | exact createIfMissing_additive _ _ _ (Or.inl rfl)
    | exact createIfMissing_additive _ _ _ (Or.inr rfl)
    | exact steps_mono (additive_of_quiet (isPanelCall_desiredOnly _))
        (setUpCreatedChannels_quiet _ _ _ _)
    | apply steps_bind additive_trans
    | intro _

theorem provisionAndSchedule_additive (env : Env) (role : Role) (c p : Channel) :
    Steps (Additive (desiredOnly env.config)) (provisionAndSchedule env role c p) := by
  unfold provisionAndSchedule
  repeat' first
    | exact getWorld_steps (additive_refl _)
    | exact setInterval_additive _
    | exact steps_mono (additive_of_quiet (isPanelCall_desiredOnly _))
        (createClockButtons_quiet _ _)
    | exact steps_mono (additive_of_quiet (isPanelCall_desiredOnly _))
        (createContentSelectionButtons_quiet _ _)
    | exact steps_mono (additive_of_quiet (isPanelCall_desiredOnly _))
        (updateRosterMessage_quiet _ _)
    | apply steps_bind additive_trans
    | intro _

theorem initializeRosterSystem_additive (env : Env) :
    Steps (Additive (desiredOnly env.config)) (initializeRosterSystem env) := by
  unfold initializeRosterSystem
  repeat' first
    | exact getWorld_steps (additive_refl _)
    | exact channelsCacheFind_steps (additive_refl _) _
    | exact rolesCacheFind_steps (additive_refl _) _
    | exact createIfMissing_additive _ _ _ (Or.inl rfl)
    | exact createIfMissing_additive _ _ _ (Or.inr rfl)
    | exact createRoleIfMissing_additive _ _ _ _ (Or.inl rfl)
    | exact ensureContentRoles_additive _ _
        (fun e he => Or.inr (List.mem_map_of_mem Prod.snd he))
    | exact provisionAndSchedule_additive _ _ _ _
    | exact steps_pure (additive_refl _) _
    | apply steps_bind additive_trans
    | split
    | intro _

/-- C5. A pass of `initializeRosterSystem` or of `verifyAndCreateMissingChannels`
is additive: the channels and the roles the guild had before the pass are all
there after it, unchanged and in place, with the new ones after them; and the
pass issues no call on channels and roles other than creations of the desired
channels (the two configured names) and roles (the active role and the content
type roles). -/
theorem reconciliation_additive_only (env : Env) (clockedInRole : Role) (w : World) :
    (w.channels <+: (initializeRosterSystem env w).2.channels ∧
        w.roles <+: (initializeRosterSystem env w).2.roles ∧
        ∀ a ∈ issued (initializeRosterSystem env) w, desiredOnly env.config a) ∧
      (w.channels <+: (verifyAndCreateMissingChannels env clockedInRole w).2.channels ∧
        w.roles <+: (verifyAndCreateMissingChannels env clockedInRole w).2.roles ∧
        ∀ a ∈ issued (verifyAndCreateMissingChannels env clockedInRole) w,
          desiredOnly env.config a) := by
  obtain ⟨i1, c1, r1, -⟩ := initializeRosterSystem_additive env w
  obtain ⟨i2, c2, r2, -⟩ := verifyAndCreateMissingChannels_additive env clockedInRole w
  exact ⟨⟨c1, r1, (issues_issued_eq _ w i1).2⟩, ⟨c2, r2, (issues_issued_eq _ w i2).2⟩⟩

/-! ## Which channels a verification pass creates -/

theorem channelCreates_append (l1 l2 : List Action) :
    channelCreates (l1 ++ l2) = channelCreates l1 ++ channelCreates l2 := by
  unfold channelCreates; exact List.filterMap_append _ _ _

theorem channelCreates_eq_nil {P : Action → Prop} (hP : ∀ d, ¬ P (Action.channelsCreate d))
    (l : List Action) (h : ∀ a ∈ l, P a) : channelCreates l = [] := by
  unfold channelCreates
  rw [List.filterMap_eq_nil_iff]
  intro a ha
  cases a <;> first | rfl | exact absurd (h _ ha) (hP _)

theorem find_isTextChannelNamed (w : World) (name : String) :
    (w.channels.find? (isTextChannelNamed name)).isSome ↔ hasTextChannel w name := by
  rw [List.find?_isSome]
  unfold hasTextChannel isTextChannelNamed
  simp

theorem channelsCacheFind_run (name : String) (w : World) :
    channelsCacheFind name w = (Except.ok (w.channels.find? (isTextChannelNamed name)), w) := rfl

/-- The three outcomes of a creation block: the channel was found and nothing
happens; the creation is rejected, which only the log records; the creation
succeeds and the channel is added after the others. -/
theorem createIfMissing_run (env : Env) (found : Option Channel) (d : ChannelDescriptor)
    (w : World) :
    (∃ ch, found = some ch ∧ createIfMissing env found d w = (Except.ok (some ch, false), w)) ∨
      (found = none ∧ env.fails w.log.length (Action.channelsCreate d) = true ∧
        ∃ w1, createIfMissing env found d w = (Except.ok (none, false), w1) ∧
          w1.log = w.log ++ [Action.channelsCreate d] ∧ w1.channels = w.channels) ∨
      (found = none ∧ env.fails w.log.length (Action.channelsCreate d) = false ∧
        ∃ ch w1, createIfMissing env found d w = (Except.ok (some ch, true), w1) ∧
          w1.log = w.log ++ [Action.channelsCreate d] ∧ w1.channels = w.channels ++ [ch] ∧
          ch.name = d.name ∧ ch.type = d.type) := by
  cases found with
  | some ch => left; exact ⟨ch, rfl, rfl⟩
  | none =>
    right
    cases hf : env.fails w.log.length (Action.channelsCreate d) with
    | true =>
      left
      refine ⟨rfl, rfl, ?_⟩
      simp only [createIfMissing, Veilborn.tryCatch, channelsCreate, call, run_bind, hf, if_true,
        run_pure]
      exact ⟨_, rfl, rfl, rfl⟩
    | false =>
      right
      refine ⟨rfl, rfl, ?_⟩
      simp only [createIfMissing, Veilborn.tryCatch, channelsCreate, call, run_bind, hf,
        Bool.false_eq_true, if_false, run_pure]
      exact ⟨_, _, rfl, rfl, rfl, rfl, rfl⟩

/-- The creations of a verification pass, when the two names differ: one for
each required channel the guild lacks, clock-station first. -/
theorem verify_channelCreates (env : Env) (clockedInRole : Role) (w : World)
    (hnames : env.config.CLOCK_CHANNEL ≠ env.config.PARTY_FINDER) :
    channelCreates (issued (verifyAndCreateMissingChannels env clockedInRole) w) =
      (if (w.channels.find? (isTextChannelNamed env.config.CLOCK_CHANNEL)).isSome then []
        else [missingClockChannelDescriptor env.config w.guildId]) ++
      (if (w.channels.find? (isTextChannelNamed env.config.PARTY_FINDER)).isSome then []
        else [missingPartyFinderDescriptor env.config w.guildId clockedInRole]) := by
  unfold issued verifyAndCreateMissingChannels
  simp only [run_bind, getWorld, channelsCacheFind_run]
  -- the clock-station block
  have key : ∃ w1 r1, createIfMissing env (w.channels.find?
        (isTextChannelNamed env.config.CLOCK_CHANNEL))
        (missingClockChannelDescriptor env.config w.guildId) w = (Except.ok r1, w1) ∧
      w1.log = w.log ++ (if (w.channels.find?
          (isTextChannelNamed env.config.CLOCK_CHANNEL)).isSome then []
        else [Action.channelsCreate (missingClockChannelDescriptor env.config w.guildId)]) ∧
      (w1.channels.find? (isTextChannelNamed env.config.PARTY_FINDER)).isSome =
        (w.channels.find? (isTextChannelNamed env.config.PARTY_FINDER)).isSome := by
    rcases createIfMissing_run env (w.channels.find?
        (isTextChannelNamed env.config.CLOCK_CHANNEL))
        (missingClockChannelDescriptor env.config w.guildId) w with
      ⟨ch, hfound, hrun⟩ | ⟨hfound, -, w1, hrun, hlog, hch⟩ |
      ⟨hfound, -, ch, w1, hrun, hlog, hch, hname, -⟩
    · exact ⟨w, _, hrun, by simp [hfound], rfl⟩
    · exact ⟨w1, _, hrun, by simp [hfound, hlog], by rw [hch]⟩
    · refine ⟨w1, _, hrun, by simp [hfound, hlog], ?_⟩
      rw [hch, List.find?_append]
      have : isTextChannelNamed env.config.PARTY_FINDER ch = false := by
        unfold isTextChannelNamed
        have hne : ch.name ≠ env.config.PARTY_FINDER := by
          rw [hname]; exact hnames
        simp [hne]
      cases hp : w.channels.find? (isTextChannelNamed env.config.PARTY_FINDER) <;>
        simp [List.find?_cons, this]
  obtain ⟨w1, r1, hrun1, hlog1, hfind1⟩ := key
  rw [hrun1]
  simp only []
  -- the party-finder block
  have key2 : ∃ w2 r2, createIfMissing env (w1.channels.find?
        (isTextChannelNamed env.config.PARTY_FINDER))
        (missingPartyFinderDescriptor env.config w.guildId clockedInRole) w1 =
        (Except.ok r2, w2) ∧
      w2.log = w1.log ++ (if (w1.channels.find?
          (isTextChannelNamed env.config.PARTY_FINDER)).isSome then []
        else [Action.channelsCreate
          (missingPartyFinderDescriptor env.config w.guildId clockedInRole)]) := by
    rcases createIfMissing_run env (w1.channels.find?
        (isTextChannelNamed env.config.PARTY_FINDER))
        (missingPartyFinderDescriptor env.config w.guildId clockedInRole) w1 with
      ⟨ch, hfound, hrun⟩ | ⟨hfound, -, w2, hrun, hlog, -⟩ | ⟨hfound, -, ch, w2, hrun, hlog, -⟩
    · exact ⟨w1, _, hrun, by simp [hfound]⟩
    · exact ⟨w2, _, hrun, by simp [hfound, hlog]⟩
    · exact ⟨w2, _, hrun, by simp [hfound, hlog]⟩
  obtain ⟨w2, r2, hrun2, hlog2⟩ := key2
  rw [hrun2]
  simp only []
  -- the set-up of the created channels
  obtain ⟨⟨l3, hl3, pl3⟩, -⟩ := setUpCreatedChannels_quiet env (r1.2 || r2.2) r1.1 r2.1 w2
  have h3 : channelCreates l3 = [] :=
    channelCreates_eq_nil (P := isPanelCall) (fun d h => h) l3 pl3
  rw [hl3, hlog2, hlog1, hfind1]
  simp only [List.append_assoc, List.drop_left]
  rw [channelCreates_append, channelCreates_append, h3, List.append_nil]
  congr 1 <;> split <;> rfl

/-- C4. A verification pass attempts to create a required channel exactly when
the guild it observes has no text channel of exactly that name (the two names
being different): it attempts nothing else, it attempts both creations when
neither channel is observed and none when both are. -/
theorem verifyAndCreateMissingChannels_creates_iff_missing (env : Env) (clockedInRole : Role)
    (w : World) (hnames : env.config.CLOCK_CHANNEL ≠ env.config.PARTY_FINDER) :
    (missingClockChannelDescriptor env.config w.guildId ∈
          channelCreates (issued (verifyAndCreateMissingChannels env clockedInRole) w) ↔
        ¬ hasTextChannel w env.config.CLOCK_CHANNEL) ∧
      (missingPartyFinderDescriptor env.config w.guildId clockedInRole ∈
          channelCreates (issued (verifyAndCreateMissingChannels env clockedInRole) w) ↔
        ¬ hasTextChannel w env.config.PARTY_FINDER) ∧
      (∀ d ∈ channelCreates (issued (verifyAndCreateMissingChannels env clockedInRole) w),
        d = missingClockChannelDescriptor env.config w.guildId ∨
        d = missingPartyFinderDescriptor env.config w.guildId clockedInRole) ∧
      (¬ hasTextChannel w env.config.CLOCK_CHANNEL → ¬ hasTextChannel w env.config.PARTY_FINDER →
        (channelCreates (issued (verifyAndCreateMissingChannels env clockedInRole) w)).length =
          2) ∧
      (hasTextChannel w env.config.CLOCK_CHANNEL → hasTextChannel w env.config.PARTY_FINDER →
        channelCreates (issued (verifyAndCreateMissingChannels env clockedInRole) w) = []) := by
  have hd : missingClockChannelDescriptor env.config w.guildId ≠
      missingPartyFinderDescriptor env.config w.guildId clockedInRole := by
    intro e
    exact hnames (congrArg ChannelDescriptor.name e)
  rw [verify_channelCreates env clockedInRole w hnames]
  rw [← find_isTextChannelNamed, ← find_isTextChannelNamed]
  cases hc : (w.channels.find? (isTextChannelNamed env.config.CLOCK_CHANNEL)).isSome <;>
    cases hp : (w.channels.find? (isTextChannelNamed env.config.PARTY_FINDER)).isSome <;>
    simp [hd, hd.symm]

/-- C4, at a guild without channels: the two names differ and the pass attempts
two creations. -/
theorem verifyAndCreateMissingChannels_creates_iff_missing_witness :
    (calmEnv 1000).config.CLOCK_CHANNEL ≠ (calmEnv 1000).config.PARTY_FINDER ∧
      (channelCreates (issued (verifyAndCreateMissingChannels (calmEnv 1000)
        ⟨60, "Clocked In", 0x00ff00, false⟩) sampleWorld)).length = 2 :=
  ⟨by decide,
    (verifyAndCreateMissingChannels_creates_iff_missing (calmEnv 1000)
      ⟨60, "Clocked In", 0x00ff00, false⟩ sampleWorld (by decide)).2.2.2.1
      (by simp [hasTextChannel, sampleWorld]) (by simp [hasTextChannel, sampleWorld])⟩

/-! ## Idempotence of the verification pass -/

/-- The shape of a run of the verification pass: the two creation blocks, one
after the other, then the quiet set-up of the created channels. -/
theorem verify_run (env : Env) (clockedInRole : Role) (w : World) :
    ∃ w1 r1 w2 r2 l3,
      createIfMissing env (w.channels.find? (isTextChannelNamed env.config.CLOCK_CHANNEL))
        (missingClockChannelDescriptor env.config w.guildId) w = (Except.ok r1, w1) ∧
      createIfMissing env (w1.channels.find? (isTextChannelNamed env.config.PARTY_FINDER))
        (missingPartyFinderDescriptor env.config w.guildId clockedInRole) w1 =
        (Except.ok r2, w2) ∧
      verifyAndCreateMissingChannels env clockedInRole w =
        setUpCreatedChannels env (r1.2 || r2.2) r1.1 r2.1 w2 ∧
      (verifyAndCreateMissingChannels env clockedInRole w).2.log = w2.log ++ l3 ∧
      (∀ a ∈ l3, isPanelCall a) ∧
      (verifyAndCreateMissingChannels env clockedInRole w).2.channels = w2.channels := by
  have ok1 : ∃ w1 r1, createIfMissing env
      (w.channels.find? (isTextChannelNamed env.config.CLOCK_CHANNEL))
      (missingClockChannelDescriptor env.config w.guildId) w = (Except.ok r1, w1) := by
    rcases createIfMissing_run env (w.channels.find?
        (isTextChannelNamed env.config.CLOCK_CHANNEL))
        (missingClockChannelDescriptor env.config w.guildId) w with
      ⟨ch, -, hrun⟩ | ⟨-, -, w1, hrun, -⟩ | ⟨-, -, ch, w1, hrun, -⟩
    · exact ⟨_, _, hrun⟩
    · exact ⟨_, _, hrun⟩
    · exact ⟨_, _, hrun⟩
  obtain ⟨w1, r1, hrun1⟩ := ok1
  have ok2 : ∃ w2 r2, createIfMissing env
      (w1.channels.find? (isTextChannelNamed env.config.PARTY_FINDER))
      (missingPartyFinderDescriptor env.config w.guildId clockedInRole) w1 =
      (Except.ok r2, w2) := by
    rcases createIfMissing_run env (w1.channels.find?
        (isTextChannelNamed env.config.PARTY_FINDER))
        (missingPartyFinderDescriptor env.config w.guildId clockedInRole) w1 with
      ⟨ch, -, hrun⟩ | ⟨-, -, w2, hrun, -⟩ | ⟨-, -, ch, w2, hrun, -⟩
    · exact ⟨_, _, hrun⟩
    · exact ⟨_, _, hrun⟩
    · exact ⟨_, _, hrun⟩
  obtain ⟨w2, r2, hrun2⟩ := ok2
  have hrun : verifyAndCreateMissingChannels env clockedInRole w =
      setUpCreatedChannels env (r1.2 || r2.2) r1.1 r2.1 w2 := by
    unfold verifyAndCreateMissingChannels
    simp only [run_bind, getWorld, channelsCacheFind_run, hrun1, hrun2]
  obtain ⟨⟨l3, hl3, pl3⟩, -, hc3, -⟩ :=
    setUpCreatedChannels_quiet env (r1.2 || r2.2) r1.1 r2.1 w2
  exact ⟨w1, r1, w2, r2, l3, hrun1, hrun2, hrun, by rw [hrun, hl3], pl3, by rw [hrun, hc3]⟩

theorem find_append_isSome (l1 l2 : List Channel) (p : Channel → Bool)
    (h : (l1.find? p).isSome = true) : ((l1 ++ l2).find? p).isSome = true := by
  rw [List.find?_isSome] at h ⊢
  obtain ⟨x, hx, hp⟩ := h
  exact ⟨x, List.mem_append_left _ hx, hp⟩

/-- A creation block leaves the guild with the channel, when its creation (if
any) succeeds; `log` is a later log that the log of the block begins. -/
theorem createIfMissing_created (env : Env) (d : ChannelDescriptor) (w : World) (name : String)
    (log : List Action) (start : Nat) (hname : d.name = name)
    (htype : d.type = ChannelType.GuildText) (hstart : start ≤ w.log.length)
    (hlog : ∃ l, log = (createIfMissing env
      (w.channels.find? (isTextChannelNamed name)) d w).2.log ++ l)
    (hs : Succeeds env log start isChannelsCreate) :
    ((createIfMissing env (w.channels.find? (isTextChannelNamed name)) d w).2.channels.find?
      (isTextChannelNamed name)).isSome = true := by
  obtain ⟨l, hl⟩ := hlog
  rcases createIfMissing_run env (w.channels.find? (isTextChannelNamed name)) d w with
    ⟨ch, hfound, hrun⟩ | ⟨-, hfail, w1, hrun, hlog1, -⟩ | ⟨-, -, ch, w1, hrun, -, hch, hn, ht⟩
  · rw [hrun]; simp [hfound]
  · exfalso
    rw [hrun] at hl
    simp only [hlog1] at hl
    have hget : log[w.log.length]? = some (Action.channelsCreate d) := by
      rw [hl, List.append_assoc, List.getElem?_append_right (le_refl _)]
      simp
    have := hs _ _ hstart hget trivial
    rw [this] at hfail
    exact Bool.noConfusion hfail
  · rw [hrun]
    simp only [hch]
    rw [List.find?_isSome]
    refine ⟨ch, by simp, ?_⟩
    simp [isTextChannelNamed, hn, ht, hname, htype]

/-- C3. The verification pass is idempotent: when every channel creation of a
first run succeeds, a second run from the world the first one left (whatever
its clock, its call outcomes and its role argument, under the same
configuration) issues no call at all, hence no creation and no message
provisioning, and leaves the world as it is. -/
theorem verifyAndCreateMissingChannels_idempotent (env env2 : Env) (role role2 : Role)
    (w : World) (hconfig : env2.config = env.config)
    (hcreate : Succeeds env (verifyAndCreateMissingChannels env role w).2.log w.log.length
      isChannelsCreate) :
    verifyAndCreateMissingChannels env2 role2 (verifyAndCreateMissingChannels env role w).2 =
        (Except.ok (), (verifyAndCreateMissingChannels env role w).2) ∧
      issued (verifyAndCreateMissingChannels env2 role2)
        (verifyAndCreateMissingChannels env role w).2 = [] := by
  obtain ⟨w1, r1, w2, r2, l3, hrun1, hrun2, -, hlog, -, hch⟩ := verify_run env role w
  obtain ⟨⟨l1, hl1, -⟩, hpre1, -⟩ := createIfMissing_additive (P := fun _ => True) env
    (w.channels.find? (isTextChannelNamed env.config.CLOCK_CHANNEL))
    (missingClockChannelDescriptor env.config w.guildId) trivial w
  obtain ⟨⟨l2, hl2, -⟩, hpre2, -⟩ := createIfMissing_additive (P := fun _ => True) env
    (w1.channels.find? (isTextChannelNamed env.config.PARTY_FINDER))
    (missingPartyFinderDescriptor env.config w.guildId role) trivial w1
  rw [hrun1] at hl1 hpre1
  rw [hrun2] at hl2 hpre2
  simp only at hl1 hl2 hpre1 hpre2
  -- after the first block the guild has the clock-station channel
  have hc1 := createIfMissing_created env (missingClockChannelDescriptor env.config w.guildId) w
    env.config.CLOCK_CHANNEL _ w.log.length rfl rfl (le_refl _)
    ⟨l2 ++ l3, by rw [hrun1, hlog, hl2, List.append_assoc]⟩ hcreate
  rw [hrun1] at hc1
  simp only at hc1
  -- after the second block it has the party-finder channel
  have hc2 := createIfMissing_created env
    (missingPartyFinderDescriptor env.config w.guildId role) w1
    env.config.PARTY_FINDER _ w.log.length rfl rfl (by rw [hl1]; simp)
    ⟨l3, by rw [hrun2, hlog]⟩ hcreate
  rw [hrun2] at hc2
  simp only at hc2
  obtain ⟨t2, ht2⟩ := hpre2
  have hc1' : (w2.channels.find? (isTextChannelNamed env.config.CLOCK_CHANNEL)).isSome = true := by
    rw [← ht2]; exact find_append_isSome _ _ _ hc1
  -- the second run finds both
  generalize (verifyAndCreateMissingChannels env role w).2 = W at hch ⊢
  obtain ⟨c, hc⟩ := Option.isSome_iff_exists.mp hc1'
  obtain ⟨p, hp⟩ := Option.isSome_iff_exists.mp hc2
  have hrunW : verifyAndCreateMissingChannels env2 role2 W = (Except.ok (), W) := by
    unfold verifyAndCreateMissingChannels
    simp only [run_bind, getWorld, channelsCacheFind_run, hconfig, hch, hc, hp, createIfMissing,
      run_pure, setUpCreatedChannels, Bool.or_self, Bool.false_eq_true, if_false]
  refine ⟨hrunW, ?_⟩
  unfold issued
  rw [hrunW]
  simp

/-- C3, at a guild without channels, all calls succeeding: the second run
issues nothing. -/
theorem verifyAndCreateMissingChannels_idempotent_witness :
    (calmEnv 2000).config = (calmEnv 1000).config ∧
      Succeeds (calmEnv 1000)
        (verifyAndCreateMissingChannels (calmEnv 1000) ⟨60, "Clocked In", 0x00ff00, false⟩
          sampleWorld).2.log sampleWorld.log.length isChannelsCreate ∧
      issued (verifyAndCreateMissingChannels (calmEnv 2000) ⟨60, "Clocked In", 0x00ff00, false⟩)
        (verifyAndCreateMissingChannels (calmEnv 1000) ⟨60, "Clocked In", 0x00ff00, false⟩
          sampleWorld).2 = [] :=
  ⟨rfl, fun _ _ _ _ _ => rfl,
    (verifyAndCreateMissingChannels_idempotent (calmEnv 1000) (calmEnv 2000)
      ⟨60, "Clocked In", 0x00ff00, false⟩ ⟨60, "Clocked In", 0x00ff00, false⟩ sampleWorld rfl
      (fun _ _ _ _ _ => rfl)).2⟩

/-! ## A failed creation in the initial pass -/

/-- C6 (failing input). On a guild without channels, when the creation of the
clock-station channel is rejected, `initializeRosterSystem` stops: the only
channel creation it attempts is that of clock-station, party-finder is not
attempted and no timer is installed; `verifyAndCreateMissingChannels`, from the
same world and with the same outcomes, goes on and attempts both. -/
theorem initializeRosterSystem_stops_at_failed_creation :
    channelCreates (issued (initializeRosterSystem clockCreationFailsEnv) sampleWorld) =
        [clockChannelDescriptor sampleConfig 7] ∧
      (initializeRosterSystem clockCreationFailsEnv sampleWorld).2.timers = [] ∧
      channelCreates (issued (verifyAndCreateMissingChannels clockCreationFailsEnv
          ⟨60, "Clocked In", 0x00ff00, false⟩) sampleWorld) =
        [missingClockChannelDescriptor sampleConfig 7,
         missingPartyFinderDescriptor sampleConfig 7 ⟨60, "Clocked In", 0x00ff00, false⟩] := by
  refine ⟨?_, ?_, ?_⟩
  · decide
  · decide
  · decide

/-! ## The lookups of the panels -/

theorem bind_assoc_run {α β γ : Type} (m : M α) (f : α → M β) (g : β → M γ) :
    (m >>= f) >>= g = m >>= fun a => f a >>= g := by
  funext w
  simp only [run_bind]
  rcases m w with ⟨_ | a, w1⟩ <;> rfl

/-- A message returned by `fetchPinned` is a message of the channel whose id
is pinned. -/
theorem mem_pinned (w : World) (channelId : Nat) (m : Message)
    (h : m ∈ w.pins.filterMap (fun id =>
      w.messages.find? (fun m => m.id == id && m.channelId == channelId))) :
    m ∈ w.messages ∧ m.channelId = channelId ∧ m.id ∈ w.pins := by
  rw [List.mem_filterMap] at h
  obtain ⟨id, hid, hfind⟩ := h
  have h1 := List.mem_of_find?_eq_some hfind
  have h2 := List.find?_some hfind
  simp only [Bool.and_eq_true, beq_iff_eq] at h2
  exact ⟨h1, h2.2, by rw [h2.1]; exact hid⟩

/-- The outcomes of `fetchPinned`: rejected, or the pinned messages of the
channel; the world changes by the log only. -/
theorem fetchPinned_run (env : Env) (c : Nat) (w : World) :
    ∃ w1, w1.log = w.log ++ [Action.fetchPinned c] ∧ w1.messages = w.messages ∧
      w1.pins = w.pins ∧ w1.nextId = w.nextId ∧ w1.me = w.me ∧
      ((∃ e, fetchPinned env c w = (Except.error e, w1)) ∨
        fetchPinned env c w = (Except.ok (w.pins.filterMap (fun id =>
          w.messages.find? (fun m => m.id == id && m.channelId == c))), w1)) := by
  refine ⟨(fetchPinned env c w).2, ?_⟩
  unfold fetchPinned call
  cases h : env.fails w.log.length (Action.fetchPinned c) <;> simp

/-- The outcomes of `messages.fetch`: rejected, or the newest messages of the
channel; the world changes by the log only. -/
theorem messagesFetch_run (env : Env) (c n : Nat) (w : World) :
    ∃ w1, w1.log = w.log ++ [Action.messagesFetch c n] ∧ w1.messages = w.messages ∧
      w1.pins = w.pins ∧ w1.nextId = w.nextId ∧ w1.me = w.me ∧
      ((∃ e, messagesFetch env c n w = (Except.error e, w1)) ∨
        messagesFetch env c n w =
          (Except.ok ((w.messages.filter (fun m => m.channelId == c)).take n), w1)) := by
  refine ⟨(messagesFetch env c n w).2, ?_⟩
  unfold messagesFetch call
  cases h : env.fails w.log.length (Action.messagesFetch c n) <;> simp

/-- The outcomes of `send`: rejected, or a message with the next id. -/
theorem send_run (env : Env) (c : Nat) (s : String) (w : World) :
    ∃ w1, w1.log = w.log ++ [Action.send c s] ∧
      ((∃ e, send env c s w = (Except.error e, w1)) ∨
        ∃ msg, send env c s w = (Except.ok msg, w1) ∧ msg.id = w.nextId) := by
  refine ⟨(send env c s w).2, ?_⟩
  unfold send call
  cases h : env.fails w.log.length (Action.send c s) <;> simp

theorem edit_issues {P : Action → Prop} (env : Env) (m : Message) (s : String)
    (cs : Option (List (List Button))) (hP : P (Action.edit m.id s cs)) :
    Steps (Issues P) (edit env m s cs) :=
  steps_mono (fun _ _ h => h.1) (edit_quiet env m s cs hP)

theorem pin_issues {P : Action → Prop} (env : Env) (m : Message) (hP : P (Action.pin m.id)) :
    Steps (Issues P) (pin env m) :=
  steps_mono (fun _ _ h => h.1) (pin_quiet env m hP)

/-- When a message was found, the clock panel is edited in place: only that
message is edited and nothing is sent. -/
theorem upsertClockMessage_found (env : Env) (channel : Channel) (m : Message) :
    Steps (Issues (fun a => editsOnly m.id a ∧ isNotSend a))
      (upsertClockMessage env channel (some m)) := by
  unfold upsertClockMessage
  repeat' first
    | exact edit_issues _ _ _ _ ⟨fun i s cs h => by cases h; rfl, trivial⟩
    | exact steps_pure (issues_refl _) _
    | apply steps_bind issues_trans
    | apply steps_tryCatch issues_trans
    | intro _

theorem upsertContentMessage_found (env : Env) (channel : Channel) (m : Message) :
    Steps (Issues (fun a => editsOnly m.id a ∧ isNotSend a))
      (upsertContentMessage env channel (some m)) := by
  unfold upsertContentMessage
  repeat' first
    | exact edit_issues _ _ _ _ ⟨fun i s cs h => by cases h; rfl, trivial⟩
    | exact steps_pure (issues_refl _) _
    | apply steps_bind issues_trans
    | apply steps_tryCatch issues_trans
    | intro _

theorem upsertRosterMessage_found (env : Env) (channel : Channel) (content : String)
    (m : Message) :
    Steps (Issues (fun a => editsOnly m.id a ∧ isNotSend a))
      (upsertRosterMessage env channel content (some m)) := by
  unfold upsertRosterMessage
  repeat' first
    | exact edit_issues _ _ _ _ ⟨fun i s cs h => by cases h; rfl, trivial⟩
    | exact steps_pure (issues_refl _) _
    | apply steps_bind issues_trans
    | intro _

/-- When no message was found, the clock panel is sent: the log begins with
the `send`, and the edits that follow are edits of the message sent. -/
theorem upsertClockMessage_missing (env : Env) (channel : Channel) (w : World) :
    ∃ l, (upsertClockMessage env channel none w).2.log =
        w.log ++ Action.send channel.id clockContent :: l ∧
      ∀ a ∈ l, editsOnly w.nextId a := by
  unfold upsertClockMessage
  rw [tryCatch_world]
  simp only [bind_assoc_run]
  obtain ⟨w1, hlog, hsend⟩ := send_run env channel.id clockContent w
  rcases bind_world (send env channel.id clockContent) _ w with ⟨msg, hok, h⟩ | ⟨e, -, h⟩
  · rw [h]
    rcases hsend with ⟨e, he⟩ | ⟨msg2, he, hid⟩
    · rw [he] at hok; exact absurd hok (by simp)
    · rw [he] at hok ⊢
      have hmsg : msg2 = msg := by simpa using hok
      subst hmsg
      have hsteps : Steps (Issues (editsOnly msg2.id))
          (do
            let x ← pin env msg2
            let a ← (fun _ => pure msg2 : Unit → M Message) x
            edit env a clockContent (some [clockRow])) := by
        repeat' first
          | exact edit_issues _ _ _ _ (fun i s cs h => by cases h; rfl)
          | exact pin_issues _ _ (fun i s cs h => by cases h)
          | exact steps_pure (issues_refl _) _
          | apply steps_bind issues_trans
          | intro _
      obtain ⟨l, hl, pl⟩ := hsteps w1
      refine ⟨l, ?_, ?_⟩
      · simp only [] at hl ⊢
        rw [hl, hlog]; simp
      · rw [← hid]; exact pl
  · rw [h]
    rcases hsend with ⟨e2, he⟩ | ⟨msg2, he, -⟩
    · rw [he]; exact ⟨[], by simp [hlog], by simp⟩
    · rw [he]; exact ⟨[], by simp [hlog], by simp⟩

/-- When no message was found, the content panel is sent: the log begins with
the `send`, and the edits that follow are edits of the message sent. -/
theorem upsertContentMessage_missing (env : Env) (channel : Channel) (w : World) :
    ∃ l, (upsertContentMessage env channel none w).2.log =
        w.log ++ Action.send channel.id contentSelectionContent :: l ∧
      ∀ a ∈ l, editsOnly w.nextId a := by
  unfold upsertContentMessage
  rw [tryCatch_world]
  obtain ⟨w1, hlog, hsend⟩ := send_run env channel.id contentSelectionContent w
  rcases bind_world (send env channel.id contentSelectionContent) _ w with
    ⟨msg, hok, h⟩ | ⟨e, -, h⟩
  · simp only [] at h ⊢
    rw [h]
    rcases hsend with ⟨e, he⟩ | ⟨msg2, he, hid⟩
    · rw [he] at hok; exact absurd hok (by simp)
    · rw [he] at hok ⊢
      have hmsg : msg2 = msg := by simpa using hok
      subst hmsg
      obtain ⟨l, hl, pl⟩ := edit_issues (P := editsOnly msg2.id) env msg2
        contentSelectionContent (some contentRows) (fun i s cs h => by cases h; rfl) w1
      refine ⟨l, ?_, ?_⟩
      · simp only [] at hl ⊢
        rw [hl, hlog]; simp
      · rw [← hid]; exact pl
  · simp only [] at h ⊢
    rw [h]
    rcases hsend with ⟨e2, he⟩ | ⟨msg2, he, -⟩
    · rw [he]; exact ⟨[], by simp [hlog], by simp⟩
    · rw [he]; exact ⟨[], by simp [hlog], by simp⟩

/-- When no message was found, the roster panel is sent: the log begins with
the `send`, and the edits that follow are edits of the message sent. -/
theorem upsertRosterMessage_missing (env : Env) (channel : Channel) (content : String)
    (w : World) :
    ∃ l, (upsertRosterMessage env channel content none w).2.log =
        w.log ++ Action.send channel.id content :: l ∧
      ∀ a ∈ l, editsOnly w.nextId a := by
  unfold upsertRosterMessage
  obtain ⟨w1, hlog, hsend⟩ := send_run env channel.id content w
  rcases bind_world (send env channel.id content) _ w with ⟨msg, hok, h⟩ | ⟨e, -, h⟩
  · simp only [] at h ⊢
    rw [h]
    rcases hsend with ⟨e, he⟩ | ⟨msg2, he, hid⟩
    · rw [he] at hok; exact absurd hok (by simp)
    · rw [he] at hok ⊢
      have hmsg : msg2 = msg := by simpa using hok
      subst hmsg
      have hsteps : Steps (Issues (editsOnly msg2.id))
          (do
            pin env msg2
            edit env msg2 content none) := by
        repeat' first
          | exact edit_issues _ _ _ _ (fun i s cs h => by cases h; rfl)
          | exact pin_issues _ _ (fun i s cs h => by cases h)
          | apply steps_bind issues_trans
          | intro _
      obtain ⟨l, hl, pl⟩ := hsteps w1
      refine ⟨l, ?_, ?_⟩
      · simp only [] at hl ⊢
        rw [hl, hlog]; simp
      · rw [← hid]; exact pl
  · simp only [] at h ⊢
    rw [h]
    rcases hsend with ⟨e2, he⟩ | ⟨msg2, he, -⟩
    · rw [he]; exact ⟨[], by simp [hlog], by simp⟩
    · rw [he]; exact ⟨[], by simp [hlog], by simp⟩

/-- The edits of `createClockButtons`. -/
theorem createClockButtons_edits (env : Env) (channel : Channel) (w : World) (i : Nat)
    (s : String) (cs : Option (List (List Button)))
    (h : Action.edit i s cs ∈ issued (createClockButtons env channel) w) :
    (∃ m ∈ w.messages, m.id = i ∧ m.authorId = w.me ∧ m.channelId = channel.id ∧ i ∈ w.pins) ∨
      (i = w.nextId ∧
        Action.send channel.id clockContent ∈ issued (createClockButtons env channel) w) := by
  obtain ⟨w1, hlog, hmsgs, hpins, hnext, hme, hrun⟩ := fetchPinned_run env channel.id w
  unfold issued createClockButtons at h ⊢
  rcases hrun with ⟨e, he⟩ | hok
  · simp only [run_bind, he, hlog] at h
    simp at h
  · simp only [run_bind, hok, getWorld] at h ⊢
    rw [hme] at h ⊢
    cases hfind : (w.pins.filterMap (fun id =>
        w.messages.find? (fun m => m.id == id && m.channelId == channel.id))).find?
        (fun msg => msg.authorId == w.me) with
    | some m =>
      left
      rw [hfind] at h
      obtain ⟨l, hl, pl⟩ := upsertClockMessage_found env channel m w1
      rw [hl, hlog] at h
      simp only [List.append_assoc, List.drop_left, List.singleton_append, List.mem_cons] at h
      rcases h with h | h
      · cases h
      · have hi := (pl _ h).1 i s cs rfl
        have hm := mem_pinned w channel.id m (List.mem_of_find?_eq_some hfind)
        have ha : m.authorId = w.me := by simpa using List.find?_some hfind
        exact ⟨m, hm.1, hi.symm, ha, hm.2.1, by rw [hi]; exact hm.2.2⟩
    | none =>
      right
      rw [hfind] at h
      obtain ⟨l, hl, pl⟩ := upsertClockMessage_missing env channel w1
      rw [hl, hlog] at h ⊢
      simp only [List.append_assoc, List.drop_left, List.singleton_append, List.mem_cons] at h
      refine ⟨?_, by simp⟩
      rcases h with h | h | h
      · cases h
      · cases h
      · rw [← hnext]; exact pl _ h i s cs rfl

/-- The edits of the last block of `updateRosterMessage`. -/
theorem publishRoster_edits (env : Env) (channel : Channel) (content : String) (w : World)
    (i : Nat) (s : String) (cs : Option (List (List Button)))
    (h : Action.edit i s cs ∈ issued (publishRoster env channel content) w) :
    (∃ m ∈ w.messages, m.id = i ∧ m.authorId = w.me ∧ m.channelId = channel.id ∧ i ∈ w.pins) ∨
      (i = w.nextId ∧
        Action.send channel.id content ∈ issued (publishRoster env channel content) w) := by
  obtain ⟨w1, hlog, hmsgs, hpins, hnext, hme, hrun⟩ := fetchPinned_run env channel.id w
  unfold issued publishRoster at h ⊢
  rcases hrun with ⟨e, he⟩ | hok
  · simp only [run_bind, he, hlog] at h
    simp at h
  · simp only [run_bind, hok, getWorld] at h ⊢
    rw [hme] at h ⊢
    cases hfind : (w.pins.filterMap (fun id =>
        w.messages.find? (fun m => m.id == id && m.channelId == channel.id))).find?
        (fun msg => msg.authorId == w.me) with
    | some m =>
      left
      rw [hfind] at h
      obtain ⟨l, hl, pl⟩ := upsertRosterMessage_found env channel content m w1
      rw [hl, hlog] at h
      simp only [List.append_assoc, List.drop_left, List.singleton_append, List.mem_cons] at h
      rcases h with h | h
      · cases h
      · have hi := (pl _ h).1 i s cs rfl
        have hm := mem_pinned w channel.id m (List.mem_of_find?_eq_some hfind)
        have ha : m.authorId = w.me := by simpa using List.find?_some hfind
        exact ⟨m, hm.1, hi.symm, ha, hm.2.1, by rw [hi]; exact hm.2.2⟩
    | none =>
      right
      rw [hfind] at h
      obtain ⟨l, hl, pl⟩ := upsertRosterMessage_missing env channel content w1
      rw [hl, hlog] at h ⊢
      simp only [List.append_assoc, List.drop_left, List.singleton_append, List.mem_cons] at h
      refine ⟨?_, by simp⟩
      rcases h with h | h | h
      · cases h
      · cases h
      · rw [← hnext]; exact pl _ h i s cs rfl

/-- The edits of `createContentSelectionButtons`. -/
theorem createContentSelectionButtons_edits (env : Env) (channel : Channel) (w : World)
    (i : Nat) (s : String) (cs : Option (List (List Button)))
    (h : Action.edit i s cs ∈ issued (createContentSelectionButtons env channel) w) :
    (∃ m ∈ (w.messages.filter (fun m => m.channelId == channel.id)).take 10,
        m.id = i ∧ m.authorId = w.me ∧ includes m.content "Content Selection" = true) ∨
      (i = w.nextId ∧ Action.send channel.id contentSelectionContent ∈
        issued (createContentSelectionButtons env channel) w) := by
  obtain ⟨w1, hlog, hmsgs, hpins, hnext, hme, hrun⟩ := messagesFetch_run env channel.id 10 w
  unfold issued createContentSelectionButtons at h ⊢
  rcases hrun with ⟨e, he⟩ | hok
  · simp only [run_bind, he, hlog] at h
    simp at h
  · simp only [run_bind, hok, getWorld] at h ⊢
    rw [hme] at h ⊢
    cases hfind : ((w.messages.filter (fun m => m.channelId == channel.id)).take 10).find?
        (fun msg => msg.authorId == w.me && includes msg.content "Content Selection") with
    | some m =>
      left
      rw [hfind] at h
      obtain ⟨l, hl, pl⟩ := upsertContentMessage_found env channel m w1
      rw [hl, hlog] at h
      simp only [List.append_assoc, List.drop_left, List.singleton_append, List.mem_cons] at h
      rcases h with h | h
      · cases h
      · have hi := (pl _ h).1 i s cs rfl
        have ha := List.find?_some hfind
        simp only [Bool.and_eq_true, beq_iff_eq] at ha
        exact ⟨m, List.mem_of_find?_eq_some hfind, hi.symm, ha.1, ha.2⟩
    | none =>
      right
      rw [hfind] at h
      obtain ⟨l, hl, pl⟩ := upsertContentMessage_missing env channel w1
      rw [hl, hlog] at h ⊢
      simp only [List.append_assoc, List.drop_left, List.singleton_append, List.mem_cons] at h
      refine ⟨?_, by simp⟩
      rcases h with h | h | h
      · cases h
      · cases h
      · rw [← hnext]; exact pl _ h i s cs rfl

/-- The outcomes of the roster query: rejected, or the matching documents; the
world changes by the log only. -/
theorem find_run (env : Env) (g : Nat) (op : Cmp) (t : Int) (w : World) :
    ∃ w1, w1.log = w.log ++ [Action.find g op t] ∧ w1.messages = w.messages ∧
      w1.pins = w.pins ∧ w1.nextId = w.nextId ∧ w1.me = w.me ∧
      ((∃ e, find env g op t w = (Except.error e, w1)) ∨
        find env g op t w = (Except.ok (w.store.filter (matchesFilter g op t)), w1)) := by
  refine ⟨(find env g op t w).2, ?_⟩
  unfold find call
  cases h : env.fails w.log.length (Action.find g op t) <;> simp

/-- The edits of `updateRosterMessage`. -/
theorem updateRosterMessage_edits (env : Env) (channel : Channel) (w : World)
    (i : Nat) (s : String) (cs : Option (List (List Button)))
    (h : Action.edit i s cs ∈ issued (updateRosterMessage env channel) w) :
    (∃ m ∈ w.messages, m.id = i ∧ m.authorId = w.me ∧ m.channelId = channel.id ∧ i ∈ w.pins) ∨
      (i = w.nextId ∧
        ∃ content, Action.send channel.id content ∈ issued (updateRosterMessage env channel) w) := by
  obtain ⟨w1, hlog, hmsgs, hpins, hnext, hme, hrun⟩ :=
    find_run env w.guildId Cmp.gt (env.clock w.log.length) w
  unfold issued updateRosterMessage at h ⊢
  rcases hrun with ⟨e, he⟩ | hok
  · simp only [run_bind, now, getWorld, he, hlog] at h
    simp at h
  · simp only [run_bind, now, getWorld, hok] at h ⊢
    generalize fullContent env.config w1.members (env.clock w.log.length)
      (w.store.filter (matchesFilter w.guildId Cmp.gt (env.clock w.log.length))) = content at h ⊢
    obtain ⟨l, hl, -⟩ := (publishRoster_quiet env channel content w1).1
    have hiss : (publishRoster env channel content w1).2.log =
        w1.log ++ issued (publishRoster env channel content) w1 := by
      unfold issued; rw [hl]; simp
    rw [hiss, hlog] at h ⊢
    simp only [List.append_assoc, List.drop_left, List.singleton_append, List.mem_cons] at h ⊢
    rcases h with h | h
    · cases h
    · rcases publishRoster_edits env channel content w1 i s cs h with
        ⟨m, hm, hid, ha, hc, hp⟩ | ⟨hid, hsend⟩
      · left
        exact ⟨m, by rw [← hmsgs]; exact hm, hid, by rw [← hme]; exact ha, hc,
          by rw [← hpins]; exact hp⟩
      · right
        exact ⟨by rw [← hnext]; exact hid, content, Or.inr hsend⟩

set_option maxRecDepth 100000 in
/-- C8 (counterexample). A pinned message of the bot that carries no clock
panel header is selected by the lookup of `createClockButtons`: nothing is
sent, the message is edited in place and becomes the clock panel. -/
theorem clock_lookup_ignores_header :
    includes "Server rules: be kind." "Clock Station" = false ∧
      pinnedNoteWorld.messages = [⟨5, 40, 99, "Server rules: be kind.", []⟩] ∧
      issued (createClockButtons (calmEnv 1000) sampleClockChannel) pinnedNoteWorld =
        [Action.fetchPinned 40, Action.edit 5 clockContent none,
         Action.edit 5 clockContent (some [clockRow])] ∧
      (createClockButtons (calmEnv 1000) sampleClockChannel pinnedNoteWorld).2.messages =
        [⟨5, 40, 99, clockContent, [clockRow]⟩] := by
  decide
/-! ## Provisioning when every call succeeds -/

theorem find?_in_channel (ms : List Message) (j c : Nat) :
    ms.find? (fun m => m.id == j && m.channelId == c) =
      (ms.filter (fun m => m.channelId == c)).find? (fun m => m.id == j) := by
  induction ms with
  | nil => rfl
  | cons m rest ih =>
    by_cases hc : m.channelId = c <;> by_cases hj : m.id = j <;>
      simp [List.find?_cons, List.filter_cons, hc, hj, ih]

theorem filterMap_none {α β : Type} (l : List α) :
    l.filterMap (fun _ => (none : Option β)) = [] := by
  induction l with
  | nil => rfl
  | cons a rest ih => simp [List.filterMap_cons]

theorem applyEdit_channelId (i : Nat) (s : String) (cs : Option (List (List Button)))
    (m : Message) : (applyEdit i s cs m).channelId = m.channelId := by
  unfold applyEdit; split <;> rfl

theorem filter_map_applyEdit (ms : List Message) (i : Nat) (s : String)
    (cs : Option (List (List Button))) (c : Nat) :
    (ms.map (applyEdit i s cs)).filter (fun m => m.channelId == c) =
      (ms.filter (fun m => m.channelId == c)).map (applyEdit i s cs) := by
  induction ms with
  | nil => rfl
  | cons m rest ih =>
    by_cases hc : m.channelId = c <;>
      simp [List.filter_cons, applyEdit_channelId, hc, ih]

theorem fetchPinned_calm {env : Env} (hcalm : Calm env) (c : Nat) (w : World) :
    ∃ w1, fetchPinned env c w =
        (Except.ok (w.pins.filterMap (fun id => (chanMsgs w c).find? (fun m => m.id == id))),
          w1) ∧
      w1.log = w.log ++ [Action.fetchPinned c] ∧ w1.messages = w.messages ∧
      w1.pins = w.pins ∧ w1.nextId = w.nextId ∧ w1.me = w.me := by
  refine ⟨(fetchPinned env c w).2, ?_⟩
  unfold fetchPinned call chanMsgs
  simp [hcalm _ _, find?_in_channel]

theorem messagesFetch_calm {env : Env} (hcalm : Calm env) (c n : Nat) (w : World) :
    ∃ w1, messagesFetch env c n w = (Except.ok ((chanMsgs w c).take n), w1) ∧
      w1.log = w.log ++ [Action.messagesFetch c n] ∧ w1.messages = w.messages ∧
      w1.pins = w.pins ∧ w1.nextId = w.nextId ∧ w1.me = w.me := by
  refine ⟨(messagesFetch env c n w).2, ?_⟩
  unfold messagesFetch call chanMsgs
  simp [hcalm _ _]

theorem find_calm {env : Env} (hcalm : Calm env) (g : Nat) (op : Cmp) (t : Int) (w : World) :
    ∃ w1, find env g op t w = (Except.ok (w.store.filter (matchesFilter g op t)), w1) ∧
      w1.log = w.log ++ [Action.find g op t] ∧ w1.messages = w.messages ∧
      w1.pins = w.pins ∧ w1.nextId = w.nextId ∧ w1.me = w.me := by
  refine ⟨(find env g op t w).2, ?_⟩
  unfold find call
  simp [hcalm _ _]

theorem send_calm {env : Env} (hcalm : Calm env) (c : Nat) (s : String) (w : World) :
    ∃ w1, send env c s w = (Except.ok ⟨w.nextId, c, w.me, s, []⟩, w1) ∧
      w1.log = w.log ++ [Action.send c s] ∧
      w1.messages = ⟨w.nextId, c, w.me, s, []⟩ :: w.messages ∧
      w1.pins = w.pins ∧ w1.nextId = w.nextId + 1 ∧ w1.me = w.me := by
  refine ⟨(send env c s w).2, ?_⟩
  unfold send call
  simp [hcalm _ _]

theorem edit_calm {env : Env} (hcalm : Calm env) (m : Message) (s : String)
    (cs : Option (List (List Button))) (w : World) :
    ∃ w1, edit env m s cs w = (Except.ok (), w1) ∧
      w1.log = w.log ++ [Action.edit m.id s cs] ∧
      w1.messages = w.messages.map (applyEdit m.id s cs) ∧
      w1.pins = w.pins ∧ w1.nextId = w.nextId ∧ w1.me = w.me := by
  refine ⟨(edit env m s cs w).2, ?_⟩
  unfold edit call
  simp [hcalm _ _]

theorem pin_calm {env : Env} (hcalm : Calm env) (m : Message) (w : World)
    (hfree : m.id ∉ w.pins) :
    ∃ w1, pin env m w = (Except.ok (), w1) ∧
      w1.log = w.log ++ [Action.pin m.id] ∧ w1.messages = w.messages ∧
      w1.pins = m.id :: w.pins ∧ w1.nextId = w.nextId ∧ w1.me = w.me := by
  refine ⟨(pin env m w).2, ?_⟩
  unfold pin call
  simp [hcalm _ _, hfree]

/-- A first run of `createClockButtons` on a channel without messages. -/
theorem createClockButtons_new {env : Env} (hcalm : Calm env) (c : Channel) (w : World)
    (hno : chanMsgs w c.id = []) (hfree : w.nextId ∉ w.pins) :
    ∃ w1, createClockButtons env c w = (Except.ok (), w1) ∧
      w1.log = w.log ++ [Action.fetchPinned c.id, Action.send c.id clockContent,
        Action.pin w.nextId, Action.edit w.nextId clockContent (some [clockRow])] ∧
      w1.messages = (⟨w.nextId, c.id, w.me, clockContent, []⟩ :: w.messages).map
        (applyEdit w.nextId clockContent (some [clockRow])) ∧
      w1.pins = w.nextId :: w.pins ∧ w1.nextId = w.nextId + 1 ∧ w1.me = w.me := by
  obtain ⟨wa, ra, la, ma, pa, na, ea⟩ := fetchPinned_calm hcalm c.id w
  obtain ⟨wb, rb, lb, mb, pb, nb, eb⟩ := send_calm hcalm c.id clockContent wa
  obtain ⟨wc, rc, lc, mc, pc, nc, ec⟩ := pin_calm hcalm ⟨wa.nextId, c.id, wa.me, clockContent, []⟩
    wb (by rw [pb, pa, na]; exact hfree)
  obtain ⟨wd, rd, ld, md, pd, nd, ed⟩ := edit_calm hcalm
    ⟨wa.nextId, c.id, wa.me, clockContent, []⟩ clockContent (some [clockRow]) wc
  refine ⟨wd, ?_, ?_, ?_, ?_, ?_, ?_⟩
  · unfold createClockButtons upsertClockMessage
    simp only [run_bind, ra, hno, getWorld, List.find?_nil, filterMap_none, Veilborn.tryCatch,
      rb, rc, run_pure, rd]
  · rw [ld, lc, lb, la, na]; simp
  · rw [md, mc, mb, ma, na, ea]
  · rw [pd, pc, pb, pa, na]
  · rw [nd, nc, nb, na]
  · rw [ed, ec, eb, ea]

/-- A run of `createClockButtons` whose lookup finds the message `m`. -/
theorem createClockButtons_again {env : Env} (hcalm : Calm env) (c : Channel) (w : World)
    (m : Message)
    (hfound : (w.pins.filterMap (fun id => (chanMsgs w c.id).find? (fun m => m.id == id))).find?
      (fun msg => msg.authorId == w.me) = some m) :
    ∃ w1, createClockButtons env c w = (Except.ok (), w1) ∧
      w1.log = w.log ++ [Action.fetchPinned c.id, Action.edit m.id clockContent none,
        Action.edit m.id clockContent (some [clockRow])] ∧
      w1.messages = (w.messages.map (applyEdit m.id clockContent none)).map
        (applyEdit m.id clockContent (some [clockRow])) ∧
      w1.pins = w.pins ∧ w1.nextId = w.nextId ∧ w1.me = w.me := by
  obtain ⟨wa, ra, la, ma, pa, na, ea⟩ := fetchPinned_calm hcalm c.id w
  obtain ⟨wb, rb, lb, mb, pb, nb, eb⟩ := edit_calm hcalm m clockContent none wa
  obtain ⟨wc, rc, lc, mc, pc, nc, ec⟩ := edit_calm hcalm m clockContent (some [clockRow]) wb
  refine ⟨wc, ?_, ?_, ?_, ?_, ?_, ?_⟩
  · unfold createClockButtons upsertClockMessage
    simp only [run_bind, ra, getWorld, ea, hfound, Veilborn.tryCatch, rb, rc, run_pure]
  · rw [lc, lb, la]; simp
  · rw [mc, mb, ma]
  · rw [pc, pb, pa]
  · rw [nc, nb, na]
  · rw [ec, eb, ea]

/-- A first run of `createContentSelectionButtons`: no message is found. -/
theorem createContentSelectionButtons_new {env : Env} (hcalm : Calm env) (p : Channel)
    (w : World)
    (hnone : ((chanMsgs w p.id).take 10).find? (fun msg =>
      msg.authorId == w.me && includes msg.content "Content Selection") = none) :
    ∃ w1, createContentSelectionButtons env p w = (Except.ok (), w1) ∧
      w1.log = w.log ++ [Action.messagesFetch p.id 10,
        Action.send p.id contentSelectionContent,
        Action.edit w.nextId contentSelectionContent (some contentRows)] ∧
      w1.messages = (⟨w.nextId, p.id, w.me, contentSelectionContent, []⟩ :: w.messages).map
        (applyEdit w.nextId contentSelectionContent (some contentRows)) ∧
      w1.pins = w.pins ∧ w1.nextId = w.nextId + 1 ∧ w1.me = w.me := by
  obtain ⟨wa, ra, la, ma, pa, na, ea⟩ := messagesFetch_calm hcalm p.id 10 w
  obtain ⟨wb, rb, lb, mb, pb, nb, eb⟩ := send_calm hcalm p.id contentSelectionContent wa
  obtain ⟨wc, rc, lc, mc, pc, nc, ec⟩ := edit_calm hcalm
    ⟨wa.nextId, p.id, wa.me, contentSelectionContent, []⟩ contentSelectionContent
    (some contentRows) wb
  simp only [ea, na] at rb rc lc mc mb
  refine ⟨wc, ?_, ?_, ?_, ?_, ?_, ?_⟩
  · unfold createContentSelectionButtons upsertContentMessage
    simp only [run_bind, ra, getWorld, ea, hnone, Veilborn.tryCatch, rb, rc, run_pure]
  · rw [lc, lb, la]; simp
  · rw [mc, mb, ma]
  · rw [pc, pb, pa]
  · rw [nc, nb, na]
  · rw [ec, eb, ea]

/-- A run of `createContentSelectionButtons` whose lookup finds the message `m`. -/
theorem createContentSelectionButtons_again {env : Env} (hcalm : Calm env) (p : Channel)
    (w : World) (m : Message)
    (hfound : ((chanMsgs w p.id).take 10).find? (fun msg =>
      msg.authorId == w.me && includes msg.content "Content Selection") = some m) :
    ∃ w1, createContentSelectionButtons env p w = (Except.ok (), w1) ∧
      w1.log = w.log ++ [Action.messagesFetch p.id 10,
        Action.edit m.id contentSelectionContent none,
        Action.edit m.id contentSelectionContent (some contentRows)] ∧
      w1.messages = (w.messages.map (applyEdit m.id contentSelectionContent none)).map
        (applyEdit m.id contentSelectionContent (some contentRows)) ∧
      w1.pins = w.pins ∧ w1.nextId = w.nextId ∧ w1.me = w.me := by
  obtain ⟨wa, ra, la, ma, pa, na, ea⟩ := messagesFetch_calm hcalm p.id 10 w
  obtain ⟨wb, rb, lb, mb, pb, nb, eb⟩ := edit_calm hcalm m contentSelectionContent none wa
  obtain ⟨wc, rc, lc, mc, pc, nc, ec⟩ := edit_calm hcalm m contentSelectionContent
    (some contentRows) wb
  refine ⟨wc, ?_, ?_, ?_, ?_, ?_, ?_⟩
  · unfold createContentSelectionButtons upsertContentMessage
    simp only [run_bind, ra, getWorld, ea, hfound, Veilborn.tryCatch, rb, rc, run_pure]
  · rw [lc, lb, la]; simp
  · rw [mc, mb, ma]
  · rw [pc, pb, pa]
  · rw [nc, nb, na]
  · rw [ec, eb, ea]

/-- A first run of `updateRosterMessage` on a channel without pinned message of
the bot. -/
theorem updateRosterMessage_new {env : Env} (hcalm : Calm env) (p : Channel) (w : World)
    (hnone : (w.pins.filterMap (fun id => (chanMsgs w p.id).find? (fun m => m.id == id))).find?
      (fun msg => msg.authorId == w.me) = none) (hfree : w.nextId ∉ w.pins) :
    ∃ w1 text, updateRosterMessage env p w = (Except.ok (), w1) ∧
      w1.log = w.log ++ [Action.find w.guildId Cmp.gt (env.clock w.log.length),
        Action.fetchPinned p.id, Action.send p.id text,
        Action.pin w.nextId, Action.edit w.nextId text none] ∧
      w1.messages = (⟨w.nextId, p.id, w.me, text, []⟩ :: w.messages).map
        (applyEdit w.nextId text none) ∧
      w1.pins = w.nextId :: w.pins ∧ w1.nextId = w.nextId + 1 ∧ w1.me = w.me := by
  obtain ⟨w0, r0, l0, m0, p0, n0, e0⟩ :=
    find_calm hcalm w.guildId Cmp.gt (env.clock w.log.length) w
  generalize htext : fullContent env.config w0.members (env.clock w.log.length)
    (w.store.filter (matchesFilter w.guildId Cmp.gt (env.clock w.log.length))) = text
  have hc0 : chanMsgs w0 p.id = chanMsgs w p.id := by unfold chanMsgs; rw [m0]
  obtain ⟨wa, ra, la, ma, pa, na, ea⟩ := fetchPinned_calm hcalm p.id w0
  obtain ⟨wb, rb, lb, mb, pb, nb, eb⟩ := send_calm hcalm p.id text wa
  obtain ⟨wc, rc, lc, mc, pc, nc, ec⟩ := pin_calm hcalm ⟨wa.nextId, p.id, wa.me, text, []⟩
    wb (by rw [pb, pa, na, p0, n0]; exact hfree)
  obtain ⟨wd, rd, ld, md, pd, nd, ed⟩ := edit_calm hcalm
    ⟨wa.nextId, p.id, wa.me, text, []⟩ text none wc
  simp only [ea, na, e0, n0] at rb rc rd lc ld mb md pc
  refine ⟨wd, text, ?_, ?_, ?_, ?_, ?_, ?_⟩
  · unfold updateRosterMessage publishRoster upsertRosterMessage
    simp only [run_bind, now, getWorld, r0, htext, ra, hc0, p0, ea, e0, hnone, rb, rc, rd]
  · rw [ld, lc, lb, la, l0]; simp
  · rw [md, mc, mb, ma, m0]
  · rw [pd, pc, pb, pa, p0]
  · rw [nd, nc, nb, na, n0]
  · rw [ed, ec, eb, ea, e0]

/-- A run of `updateRosterMessage` whose lookup finds the message `m`. -/
theorem updateRosterMessage_again {env : Env} (hcalm : Calm env) (p : Channel) (w : World)
    (m : Message)
    (hfound : (w.pins.filterMap (fun id => (chanMsgs w p.id).find? (fun m => m.id == id))).find?
      (fun msg => msg.authorId == w.me) = some m) :
    ∃ w1 text, updateRosterMessage env p w = (Except.ok (), w1) ∧
      w1.log = w.log ++ [Action.find w.guildId Cmp.gt (env.clock w.log.length),
        Action.fetchPinned p.id, Action.edit m.id text none,
        Action.edit m.id text none] ∧
      w1.messages = (w.messages.map (applyEdit m.id text none)).map (applyEdit m.id text none) ∧
      w1.pins = w.pins ∧ w1.nextId = w.nextId ∧ w1.me = w.me := by
  obtain ⟨w0, r0, l0, m0, p0, n0, e0⟩ :=
    find_calm hcalm w.guildId Cmp.gt (env.clock w.log.length) w
  generalize htext : fullContent env.config w0.members (env.clock w.log.length)
    (w.store.filter (matchesFilter w.guildId Cmp.gt (env.clock w.log.length))) = text
  have hc0 : chanMsgs w0 p.id = chanMsgs w p.id := by unfold chanMsgs; rw [m0]
  obtain ⟨wa, ra, la, ma, pa, na, ea⟩ := fetchPinned_calm hcalm p.id w0
  obtain ⟨wb, rb, lb, mb, pb, nb, eb⟩ := edit_calm hcalm m text none wa
  obtain ⟨wc, rc, lc, mc, pc, nc, ec⟩ := edit_calm hcalm m text none wb
  refine ⟨wc, text, ?_, ?_, ?_, ?_, ?_, ?_⟩
  · unfold updateRosterMessage publishRoster upsertRosterMessage
    simp only [run_bind, now, getWorld, r0, htext, ra, hc0, p0, ea, e0, hfound, rb, rc]
  · rw [lc, lb, la, l0]; simp
  · rw [mc, mb, ma, m0]
  · rw [pc, pb, pa, p0]
  · rw [nc, nb, na, n0]
  · rw [ec, eb, ea, e0]

theorem filterMap_older (old : List Nat) (msgs : List Message) (n : Nat)
    (hold : ∀ j ∈ old, j < n) (hmsgs : ∀ m ∈ msgs, n ≤ m.id) :
    old.filterMap (fun id => msgs.find? (fun m => m.id == id)) = [] := by
  rw [List.filterMap_eq_nil_iff]
  intro j hj
  rw [List.find?_eq_none]
  intro m hm
  have h1 := hold j hj
  have h2 := hmsgs m hm
  simp only [beq_iff_eq]
  omega

theorem includes_contentSelectionContent :
    includes contentSelectionContent "Content Selection" = true := by decide

theorem setInterval_guild (timer : Timer) :
    Steps (fun w w1 => w1.channels = w.channels ∧ w1.roles = w.roles) (setInterval timer) :=
  fun _ => ⟨rfl, rfl⟩

/-- The panels do not touch the channels and the roles, and neither do the
timers. -/
theorem provisionAndSchedule_guild (env : Env) (role : Role) (c p : Channel) :
    Steps (fun w w1 => w1.channels = w.channels ∧ w1.roles = w.roles)
      (provisionAndSchedule env role c p) := by
  have htrans : ∀ a b c : World, (b.channels = a.channels ∧ b.roles = a.roles) →
      (c.channels = b.channels ∧ c.roles = b.roles) →
      (c.channels = a.channels ∧ c.roles = a.roles) :=
    fun _ _ _ h1 h2 => ⟨h2.1.trans h1.1, h2.2.trans h1.2⟩
  unfold provisionAndSchedule
  repeat' first
    | exact getWorld_steps (fun _ => ⟨rfl, rfl⟩)
    | exact setInterval_guild _
    | exact steps_mono (fun _ _ h => ⟨h.2.2.1, h.2.2.2.1⟩) (createClockButtons_quiet _ _)
    | exact steps_mono (fun _ _ h => ⟨h.2.2.1, h.2.2.2.1⟩)
        (createContentSelectionButtons_quiet _ _)
    | exact steps_mono (fun _ _ h => ⟨h.2.2.1, h.2.2.2.1⟩) (updateRosterMessage_quiet _ _)
    | apply steps_bind htrans
    | intro _

/-- A first provisioning: from two ready channels to the three panels. -/
theorem provisionAndSchedule_new {env : Env} (hcalm : Calm env) (role : Role) (c p : Channel)
    (w : World) (hready : Ready w c p) :
    ∃ w1, provisionAndSchedule env role c p w = (Except.ok (), w1) ∧
      Provisioned w1 c p w.nextId ∧ w1.me = w.me := by
  obtain ⟨hcp, hc, hp, hpins⟩ := hready
  have hfree : ∀ k, w.nextId ≤ k → k ∉ w.pins := fun k hk hmem => by
    have := hpins k hmem; omega
  -- the clock panel
  obtain ⟨w1, r1, -, m1, p1, n1, e1⟩ := createClockButtons_new hcalm c w hc (hfree _ (le_refl _))
  have hc1 : chanMsgs w1 c.id = [⟨w.nextId, c.id, w.me, clockContent, [clockRow]⟩] := by
    unfold chanMsgs at hc ⊢
    rw [m1, filter_map_applyEdit, List.filter_cons]
    simp [hc, applyEdit]
  have hp1 : chanMsgs w1 p.id = [] := by
    unfold chanMsgs at hp ⊢
    rw [m1, filter_map_applyEdit, List.filter_cons]
    simp [hp, hcp]
  -- the content panel
  obtain ⟨w2, r2, -, m2, p2, n2, e2⟩ := createContentSelectionButtons_new hcalm p w1
    (by rw [hp1]; rfl)
  have hc2 : chanMsgs w2 c.id = [⟨w.nextId, c.id, w.me, clockContent, [clockRow]⟩] := by
    unfold chanMsgs at hc1 ⊢
    rw [m2, filter_map_applyEdit, List.filter_cons]
    simp [hc1, applyEdit, hcp.symm, n1]
  have hp2 : chanMsgs w2 p.id =
      [⟨w.nextId + 1, p.id, w.me, contentSelectionContent, contentRows⟩] := by
    unfold chanMsgs at hp1 ⊢
    rw [m2, filter_map_applyEdit, List.filter_cons]
    simp [hp1, applyEdit, n1, e1]
  -- the roster
  have hlook : (w2.pins.filterMap
      (fun id => (chanMsgs w2 p.id).find? (fun m => m.id == id))).find?
      (fun msg => msg.authorId == w2.me) = none := by
    rw [hp2, p2, p1, List.filterMap_cons]
    have hold := filterMap_older w.pins
      [⟨w.nextId + 1, p.id, w.me, contentSelectionContent, contentRows⟩] w.nextId hpins
      (by simp)
    have hnew : List.find? (fun m : Message => m.id == w.nextId)
        [⟨w.nextId + 1, p.id, w.me, contentSelectionContent, contentRows⟩] = none := by
      simp
    rw [hnew, hold]
    rfl
  obtain ⟨w3, text, r3, -, m3, p3, n3, e3⟩ := updateRosterMessage_new hcalm p w2 hlook
    (by rw [p2, p1, n2, n1]
        simp only [List.mem_cons, not_or]
        exact ⟨by omega, hfree _ (by omega)⟩)
  have hc3 : chanMsgs w3 c.id = [⟨w.nextId, c.id, w.me, clockContent, [clockRow]⟩] := by
    unfold chanMsgs at hc2 ⊢
    rw [m3, filter_map_applyEdit, List.filter_cons]
    simp [hc2, applyEdit, hcp.symm, n1, n2]
    intro h
    omega
  have hp3 : chanMsgs w3 p.id =
      [⟨w.nextId + 2, p.id, w.me, text, []⟩,
       ⟨w.nextId + 1, p.id, w.me, contentSelectionContent, contentRows⟩] := by
    unfold chanMsgs at hp2 ⊢
    rw [m3, filter_map_applyEdit, List.filter_cons]
    simp [hp2, applyEdit, n1, n2, e1, e2]
  refine ⟨(provisionAndSchedule env role c p w).2, ?_, ?_, ?_⟩
  · unfold provisionAndSchedule
    simp only [run_bind, r1, r2, r3, getWorld, setInterval]
  · have hrun : (provisionAndSchedule env role c p w).2.messages = w3.messages ∧
        (provisionAndSchedule env role c p w).2.pins = w3.pins ∧
        (provisionAndSchedule env role c p w).2.nextId = w3.nextId ∧
        (provisionAndSchedule env role c p w).2.me = w3.me := by
      unfold provisionAndSchedule
      simp [run_bind, r1, r2, r3, getWorld, setInterval]
    obtain ⟨hm, hpn, hn, he⟩ := hrun
    have hcm : ∀ x, chanMsgs (provisionAndSchedule env role c p w).2 x = chanMsgs w3 x := by
      intro x; unfold chanMsgs; rw [hm]
    refine ⟨hcp, ⟨w.pins, ?_, hpins⟩, ?_, ?_, text, [], ?_⟩
    · rw [hpn, p3, p2, p1, n2, n1]
    · rw [hn, n3, n2, n1]
    · rw [hcm, hc3, he, e3, e2, e1]
    · rw [hcm, hp3, he, e3, e2, e1]
  · unfold provisionAndSchedule
    simp only [run_bind, r1, r2, r3, getWorld, setInterval]
    rw [e3, e2, e1]

/-- A pass over provisioned channels: the three panels are found and edited in
place; nothing is sent, and the panels stay the only messages of the two
channels. -/
theorem provisionAndSchedule_again {env : Env} (hcalm : Calm env) (role : Role) (c p : Channel)
    (w : World) (n : Nat) (hprov : Provisioned w c p n) :
    ∃ w1, provisionAndSchedule env role c p w = (Except.ok (), w1) ∧
      Provisioned w1 c p n ∧ w1.nextId = w.nextId ∧ w1.me = w.me ∧
      (∀ a ∈ issued (provisionAndSchedule env role c p) w, isNotSend a) ∧
      (∀ i s cs, Action.edit i s cs ∈ issued (provisionAndSchedule env role c p) w →
        i = n ∨ i = n + 1 ∨ i = n + 2) := by
  obtain ⟨hcp, ⟨old, hpins, hold⟩, hnext, hc, text, rows, hp⟩ := hprov
  -- the clock panel is found
  have hlook1 : (w.pins.filterMap
      (fun id => (chanMsgs w c.id).find? (fun m => m.id == id))).find?
      (fun msg => msg.authorId == w.me) =
      some ⟨n, c.id, w.me, clockContent, [clockRow]⟩ := by
    rw [hc, hpins, List.filterMap_cons, List.filterMap_cons]
    have h0 := filterMap_older old [⟨n, c.id, w.me, clockContent, [clockRow]⟩] n hold (by simp)
    have h1 : List.find? (fun m : Message => m.id == n + 2)
        [⟨n, c.id, w.me, clockContent, [clockRow]⟩] = none := by simp
    have h2 : List.find? (fun m : Message => m.id == n)
        [⟨n, c.id, w.me, clockContent, [clockRow]⟩] =
        some ⟨n, c.id, w.me, clockContent, [clockRow]⟩ := by simp
    rw [h1, h2, h0]
    simp
  obtain ⟨w1, r1, l1, m1, p1, n1, e1⟩ := createClockButtons_again hcalm c w _ hlook1
  have hc1 : chanMsgs w1 c.id = [⟨n, c.id, w.me, clockContent, [clockRow]⟩] := by
    unfold chanMsgs at hc ⊢
    rw [m1, filter_map_applyEdit, filter_map_applyEdit, hc]
    simp [applyEdit]
  have hp1 : chanMsgs w1 p.id =
      [⟨n + 2, p.id, w.me, text, rows⟩,
       ⟨n + 1, p.id, w.me, contentSelectionContent, contentRows⟩] := by
    unfold chanMsgs at hp ⊢
    rw [m1, filter_map_applyEdit, filter_map_applyEdit, hp]
    simp [applyEdit]
  -- the content panel is found: the newest message of the bot that carries the header
  have hlook2 : ∃ k text2 rows2 x, (k = n + 1 ∨ k = n + 2) ∧ x.id = k ∧
      ((chanMsgs w1 p.id).take 10).find? (fun msg =>
        msg.authorId == w1.me && includes msg.content "Content Selection") = some x ∧
      (((chanMsgs w1 p.id).map (applyEdit k contentSelectionContent none)).map
        (applyEdit k contentSelectionContent (some contentRows))) =
        [⟨n + 2, p.id, w.me, text2, rows2⟩,
         ⟨n + 1, p.id, w.me, contentSelectionContent, contentRows⟩] := by
    rw [hp1, e1]
    by_cases hinc : includes text "Content Selection" = true
    · refine ⟨n + 2, contentSelectionContent, contentRows, ⟨n + 2, p.id, w.me, text, rows⟩,
        Or.inr rfl, rfl, ?_, ?_⟩
      · simp [List.find?_cons, hinc]
      · simp [applyEdit]
    · refine ⟨n + 1, text, rows,
        ⟨n + 1, p.id, w.me, contentSelectionContent, contentRows⟩, Or.inl rfl, rfl, ?_, ?_⟩
      · simp [List.find?_cons, hinc, includes_contentSelectionContent]
      · simp [applyEdit]
  obtain ⟨k, text2, rows2, x, hk, hxk, hfind2, hedit2⟩ := hlook2
  obtain ⟨w2, r2, l2, m2, p2, n2, e2⟩ := createContentSelectionButtons_again hcalm p w1 x hfind2
  rw [hxk] at l2 m2
  have hc2 : chanMsgs w2 c.id = [⟨n, c.id, w.me, clockContent, [clockRow]⟩] := by
    unfold chanMsgs at hc1 ⊢
    rw [m2, filter_map_applyEdit, filter_map_applyEdit, hc1]
    rcases hk with rfl | rfl <;> simp [applyEdit]
  have hp2 : chanMsgs w2 p.id =
      [⟨n + 2, p.id, w.me, text2, rows2⟩,
       ⟨n + 1, p.id, w.me, contentSelectionContent, contentRows⟩] := by
    unfold chanMsgs at hedit2 ⊢
    rw [m2, filter_map_applyEdit, filter_map_applyEdit, hedit2]
  -- the roster is found
  have hlook3 : (w2.pins.filterMap
      (fun id => (chanMsgs w2 p.id).find? (fun m => m.id == id))).find?
      (fun msg => msg.authorId == w2.me) = some ⟨n + 2, p.id, w.me, text2, rows2⟩ := by
    rw [hp2, p2, p1, hpins, e2, e1, List.filterMap_cons, List.filterMap_cons]
    have h0 := filterMap_older old
      [⟨n + 2, p.id, w.me, text2, rows2⟩,
       ⟨n + 1, p.id, w.me, contentSelectionContent, contentRows⟩] n hold (by simp)
    have h1 : List.find? (fun m : Message => m.id == n + 2)
        [⟨n + 2, p.id, w.me, text2, rows2⟩,
         ⟨n + 1, p.id, w.me, contentSelectionContent, contentRows⟩] =
        some ⟨n + 2, p.id, w.me, text2, rows2⟩ := by simp
    have h2 : List.find? (fun m : Message => m.id == n)
        [⟨n + 2, p.id, w.me, text2, rows2⟩,
         ⟨n + 1, p.id, w.me, contentSelectionContent, contentRows⟩] = none := by simp
    rw [h1, h2, h0]
    simp
  obtain ⟨w3, text3, r3, l3, m3, p3, n3, e3⟩ :=
    updateRosterMessage_again hcalm p w2 _ hlook3
  have hc3 : chanMsgs w3 c.id = [⟨n, c.id, w.me, clockContent, [clockRow]⟩] := by
    unfold chanMsgs at hc2 ⊢
    rw [m3, filter_map_applyEdit, filter_map_applyEdit, hc2]
    simp [applyEdit]
  have hp3 : chanMsgs w3 p.id =
      [⟨n + 2, p.id, w.me, text3, rows2⟩,
       ⟨n + 1, p.id, w.me, contentSelectionContent, contentRows⟩] := by
    unfold chanMsgs at hp2 ⊢
    rw [m3, filter_map_applyEdit, filter_map_applyEdit, hp2]
    simp [applyEdit]
  have hrun : provisionAndSchedule env role c p w =
      (Except.ok (), (provisionAndSchedule env role c p w).2) ∧
      (provisionAndSchedule env role c p w).2.messages = w3.messages ∧
      (provisionAndSchedule env role c p w).2.pins = w3.pins ∧
      (provisionAndSchedule env role c p w).2.nextId = w3.nextId ∧
      (provisionAndSchedule env role c p w).2.me = w3.me ∧
      (provisionAndSchedule env role c p w).2.log = w3.log := by
    unfold provisionAndSchedule
    simp [run_bind, r1, r2, r3, getWorld, setInterval]
  obtain ⟨hr, hm, hpn, hn, he, hl⟩ := hrun
  have hcm : ∀ x, chanMsgs (provisionAndSchedule env role c p w).2 x = chanMsgs w3 x := by
    intro x; unfold chanMsgs; rw [hm]
  have hlog : issued (provisionAndSchedule env role c p) w =
      [Action.fetchPinned c.id, Action.edit n clockContent none,
        Action.edit n clockContent (some [clockRow]),
        Action.messagesFetch p.id 10, Action.edit k contentSelectionContent none,
        Action.edit k contentSelectionContent (some contentRows),
        Action.find w2.guildId Cmp.gt (env.clock w2.log.length),
        Action.fetchPinned p.id, Action.edit (n + 2) text3 none,
        Action.edit (n + 2) text3 none] := by
    unfold issued
    rw [hl, l3, l2, l1]
    simp
  refine ⟨_, hr, ⟨hcp, ⟨old, ?_, hold⟩, ?_, ?_, text3, rows2, ?_⟩, ?_, ?_, ?_, ?_⟩
  · rw [hpn, p3, p2, p1, hpins]
  · rw [hn, n3, n2, n1]; exact hnext
  · rw [hcm, hc3, he, e3, e2, e1]
  · rw [hcm, hp3, he, e3, e2, e1]
  · rw [hn, n3, n2, n1]
  · rw [he, e3, e2, e1]
  · rw [hlog]
    intro a ha
    simp only [List.mem_cons, List.mem_singleton, List.not_mem_nil, or_false] at ha
    rcases ha with rfl | rfl | rfl | rfl | rfl | rfl | rfl | rfl | rfl | rfl <;> trivial
  · rw [hlog]
    intro i s cs ha
    simp only [List.mem_cons, List.mem_singleton, List.not_mem_nil, or_false] at ha
    rcases ha with h | h | h | h | h | h | h | h | h | h
    · cases h
    · left; exact (Action.edit.inj h).1
    · left; exact (Action.edit.inj h).1
    · cases h
    · have := (Action.edit.inj h).1
      rcases hk with hk | hk <;> omega
    · have := (Action.edit.inj h).1
      rcases hk with hk | hk <;> omega
    · cases h
    · cases h
    · right; right; exact (Action.edit.inj h).1
    · right; right; exact (Action.edit.inj h).1
/-! ## The set-up of roles and channels when every call succeeds -/

theorem setsUp_refl (config : Config) (w : World) : SetsUp config w w :=
  ⟨id, rfl, rfl, rfl, rfl, List.prefix_refl _, List.prefix_refl _⟩

theorem setsUp_trans {config : Config} (a b c : World) (h1 : SetsUp config a b)
    (h2 : SetsUp config b c) : SetsUp config a c := by
  obtain ⟨f1, m1, p1, e1, g1, r1, c1⟩ := h1
  obtain ⟨f2, m2, p2, e2, g2, r2, c2⟩ := h2
  exact ⟨fun h => f2 (f1 h), m2.trans m1, p2.trans p1, e2.trans e1, g2.trans g1, r1.trans r2,
    c1.trans c2⟩

theorem setsUp_logged (config : Config) (w : World) (a : Action) :
    SetsUp config w { w with log := w.log ++ [a] } :=
  ⟨fun h => h, rfl, rfl, rfl, rfl, List.prefix_refl _, List.prefix_refl _⟩

theorem rolesCreate_setsUp (config : Config) (env : Env) (name : String) (color : Nat)
    (b : Bool) : Steps (SetsUp config) (rolesCreate env name color b) := by
  refine steps_call env _ _ (fun w => setsUp_logged config w _) (fun w => ?_)
  refine ⟨?_, rfl, rfl, rfl, rfl, List.prefix_append _ _, List.prefix_refl _⟩
  rintro ⟨h1, h2, h3, h4, h5⟩
  refine ⟨fun m hm => ?_, fun j hj => ?_, fun ch hch => ?_, h4, h5⟩
  · exact Nat.lt_succ_of_lt (h1 m hm)
  · exact Nat.lt_succ_of_lt (h2 j hj)
  · exact Nat.lt_succ_of_lt (h3 ch hch)

theorem channelsCreate_setsUp (config : Config) (env : Env) (d : ChannelDescriptor) :
    Steps (SetsUp config) (channelsCreate env d) := by
  refine steps_call env _ _ (fun w => setsUp_logged config w _) (fun w => ?_)
  refine ⟨?_, rfl, rfl, rfl, rfl, List.prefix_refl _, List.prefix_append _ _⟩
  rintro ⟨h1, h2, h3, h4, h5⟩
  refine ⟨fun m hm => ?_, fun j hj => ?_, fun ch hch => ?_, ?_, fun m hm ch hch ht hn => ?_⟩
  · exact Nat.lt_succ_of_lt (h1 m hm)
  · exact Nat.lt_succ_of_lt (h2 j hj)
  · simp only [List.mem_append, List.mem_singleton] at hch
    rcases hch with hch | rfl
    · exact Nat.lt_succ_of_lt (h3 ch hch)
    · exact Nat.lt_succ_self _
  · simp only [List.map_append, List.map_cons, List.map_nil]
    rw [List.nodup_append]
    refine ⟨h4, List.nodup_singleton _, ?_⟩
    intro a ha hb
    simp only [List.mem_singleton] at hb
    obtain ⟨ch, hch, rfl⟩ := List.mem_map.mp ha
    have := h3 ch hch
    omega
  · simp only [List.mem_append, List.mem_singleton] at hch
    rcases hch with hch | rfl
    · exact h5 m hm ch hch ht hn
    · have := h1 m hm
      simp only
      omega

theorem createIfMissing_setsUp (config : Config) (env : Env) (found : Option Channel)
    (d : ChannelDescriptor) : Steps (SetsUp config) (createIfMissing env found d) := by
  unfold createIfMissing
  repeat' first
    | exact channelsCreate_setsUp _ _ _
    | exact steps_pure (setsUp_refl _) _
    | apply steps_bind setsUp_trans
    | apply steps_tryCatch setsUp_trans
    | split
    | intro _

theorem createRoleIfMissing_setsUp (config : Config) (env : Env) (found : Option Role)
    (name : String) (color : Nat) :
    Steps (SetsUp config) (createRoleIfMissing env found name color) := by
  unfold createRoleIfMissing
  repeat' first
    | exact rolesCreate_setsUp _ _ _ _ _
    | exact steps_pure (setsUp_refl _) _
    | apply steps_bind setsUp_trans
    | apply steps_tryCatch setsUp_trans
    | split
    | intro _

theorem ensureContentRoles_setsUp (config : Config) (env : Env) :
    ∀ types : List (String × String), Steps (SetsUp config) (ensureContentRoles env types) := by
  intro types
  induction types with
  | nil => exact steps_pure (setsUp_refl _) _
  | cons e rest ih =>
    obtain ⟨key, roleName⟩ := e
    unfold ensureContentRoles
    refine steps_bind setsUp_trans (rolesCacheFind_steps (setsUp_refl _) _) (fun _ => ?_)
    exact steps_bind setsUp_trans (createRoleIfMissing_setsUp config env _ _ _) (fun _ => ih)

theorem find?_grows {α : Type} {l1 l2 : List α} (p : α → Bool) (a : α) (h : l1 <+: l2)
    (hf : l1.find? p = some a) : l2.find? p = some a := by
  obtain ⟨t, rfl⟩ := h
  rw [List.find?_append, hf]
  rfl

/-- A role block, when the creation succeeds: afterwards the lookup finds the
role the block returns. -/
theorem createRoleIfMissing_calm {env : Env} (hcalm : Calm env) (name : String) (color : Nat)
    (w : World) :
    ∃ role w1, createRoleIfMissing env (w.roles.find? (fun role => role.name == name)) name
        color w = (Except.ok (some role), w1) ∧
      w1.roles.find? (fun role => role.name == name) = some role := by
  cases hfind : w.roles.find? (fun role => role.name == name) with
  | some role => exact ⟨role, w, rfl, hfind⟩
  | none =>
    refine ⟨⟨w.nextId, name, color, false⟩, (rolesCreate env name color false w).2, ?_, ?_⟩
    · simp [createRoleIfMissing, Veilborn.tryCatch, rolesCreate, call, run_bind, run_pure,
        hcalm _ _]
    · simp [rolesCreate, call, hcalm _ _, List.find?_append, hfind]

/-- A channel block, when the creation succeeds: afterwards the lookup finds
the channel the block returns. -/
theorem createIfMissing_calm {env : Env} (hcalm : Calm env) (name : String)
    (d : ChannelDescriptor) (w : World) (hname : d.name = name)
    (htype : d.type = ChannelType.GuildText) :
    ∃ ch b w1, createIfMissing env (w.channels.find? (isTextChannelNamed name)) d w =
        (Except.ok (some ch, b), w1) ∧
      w1.channels.find? (isTextChannelNamed name) = some ch := by
  cases hfind : w.channels.find? (isTextChannelNamed name) with
  | some ch => exact ⟨ch, false, w, rfl, hfind⟩
  | none =>
    refine ⟨⟨w.nextId, d.name, d.type, d.topic, d.permissionOverwrites⟩, true,
      (channelsCreate env d w).2, ?_, ?_⟩
    · simp [createIfMissing, Veilborn.tryCatch, channelsCreate, call, run_bind, run_pure,
        hcalm _ _]
    · simp [channelsCreate, call, hcalm _ _, List.find?_append, hfind, isTextChannelNamed,
        hname, htype]

/-- The loop over the content types, when every creation succeeds: afterwards
every content type role is found. -/
theorem ensureContentRoles_calm {env : Env} (hcalm : Calm env) :
    ∀ (types : List (String × String)) (w : World),
      ∃ w1, ensureContentRoles env types w = (Except.ok (), w1) ∧
        ∀ e ∈ types, (w1.roles.find? (fun role => role.name == e.2)).isSome = true := by
  intro types
  induction types with
  | nil => intro w; exact ⟨w, rfl, by simp⟩
  | cons e rest ih =>
    intro w
    obtain ⟨key, roleName⟩ := e
    obtain ⟨role, w1, r1, f1⟩ := createRoleIfMissing_calm hcalm roleName
      (getContentTypeColor key) w
    obtain ⟨w2, r2, f2⟩ := ih w1
    have hpre : w1.roles <+: w2.roles := by
      have := ensureContentRoles_setsUp env.config env rest w1
      rw [r2] at this
      exact this.2.2.2.2.2.1
    refine ⟨w2, ?_, ?_⟩
    · unfold ensureContentRoles
      simp only [run_bind, rolesCacheFind, r1, r2]
    · intro e he
      rcases List.mem_cons.mp he with rfl | he
      · rw [find?_grows _ _ hpre f1]; rfl
      · exact f2 e he

/-- The loop over the content types issues nothing when every role is found. -/
theorem ensureContentRoles_found (env : Env) :
    ∀ (types : List (String × String)) (w : World),
      (∀ e ∈ types, (w.roles.find? (fun role => role.name == e.2)).isSome = true) →
      ensureContentRoles env types w = (Except.ok (), w) := by
  intro types
  induction types with
  | nil => intro w _; rfl
  | cons e rest ih =>
    intro w h
    obtain ⟨key, roleName⟩ := e
    obtain ⟨role, hrole⟩ := Option.isSome_iff_exists.mp (h (key, roleName) (List.mem_cons_self _ _))
    unfold ensureContentRoles
    simp only [run_bind, rolesCacheFind, hrole, createRoleIfMissing, run_pure]
    exact ih w (fun e he => h e (List.mem_cons_of_mem _ he))

theorem isTextChannelNamed_of_find {l : List Channel} {name : String} {ch : Channel}
    (h : l.find? (isTextChannelNamed name) = some ch) :
    ch ∈ l ∧ ch.name = name ∧ ch.type = ChannelType.GuildText := by
  have h1 := List.mem_of_find?_eq_some h
  have h2 := List.find?_some h
  unfold isTextChannelNamed at h2
  simp only [Bool.and_eq_true, beq_iff_eq] at h2
  exact ⟨h1, h2.1, h2.2⟩

/-- In a fresh world, the first text channels of the two names are ready for a
first provisioning. -/
theorem ready_of_fresh {config : Config} {w : World} {c p : Channel}
    (hnames : config.CLOCK_CHANNEL ≠ config.PARTY_FINDER) (hfresh : Fresh config w)
    (hc : w.channels.find? (isTextChannelNamed config.CLOCK_CHANNEL) = some c)
    (hp : w.channels.find? (isTextChannelNamed config.PARTY_FINDER) = some p) :
    Ready w c p := by
  obtain ⟨-, h2, -, h4, h5⟩ := hfresh
  obtain ⟨cmem, cname, ctype⟩ := isTextChannelNamed_of_find hc
  obtain ⟨pmem, pname, ptype⟩ := isTextChannelNamed_of_find hp
  refine ⟨?_, ?_, ?_, h2⟩
  · intro hid
    have := List.inj_on_of_nodup_map h4 cmem pmem hid
    rw [this, pname] at cname
    exact hnames cname.symm
  · unfold chanMsgs
    rw [List.filter_eq_nil_iff]
    intro m hm
    simpa using h5 m hm c cmem ctype (Or.inl cname)
  · unfold chanMsgs
    rw [List.filter_eq_nil_iff]
    intro m hm
    simpa using h5 m hm p pmem ptype (Or.inr pname)

/-- A first pass of `initializeRosterSystem` in which every call succeeds, from
a fresh world: roles and channels are set up, then the two channels, ready, are
provisioned. -/
theorem initializeRosterSystem_first {env : Env} (hcalm : Calm env) (w : World)
    (hnames : env.config.CLOCK_CHANNEL ≠ env.config.PARTY_FINDER)
    (hfresh : Fresh env.config w) :
    ∃ role c p w4, initializeRosterSystem env w = provisionAndSchedule env role c p w4 ∧
      Ready w4 c p ∧
      w4.roles.find? (fun r => r.name == env.config.CLOCKED_IN) = some role ∧
      (∀ e ∈ env.config.CONTENT_TYPES,
        (w4.roles.find? (fun r => r.name == e.2)).isSome = true) ∧
      w4.channels.find? (isTextChannelNamed env.config.CLOCK_CHANNEL) = some c ∧
      w4.channels.find? (isTextChannelNamed env.config.PARTY_FINDER) = some p := by
  obtain ⟨role, w1, r1, f1⟩ := createRoleIfMissing_calm hcalm env.config.CLOCKED_IN 0x00ff00 w
  have s1 := createRoleIfMissing_setsUp env.config env
    (w.roles.find? (fun r => r.name == env.config.CLOCKED_IN)) env.config.CLOCKED_IN 0x00ff00 w
  rw [r1] at s1
  obtain ⟨w2, r2, f2⟩ := ensureContentRoles_calm hcalm env.config.CONTENT_TYPES w1
  have s2 := ensureContentRoles_setsUp env.config env env.config.CONTENT_TYPES w1
  rw [r2] at s2
  obtain ⟨c, b3, w3, r3, f3⟩ := createIfMissing_calm hcalm env.config.CLOCK_CHANNEL
    (clockChannelDescriptor env.config w.guildId) w2 rfl rfl
  have s3 := createIfMissing_setsUp env.config env
    (w2.channels.find? (isTextChannelNamed env.config.CLOCK_CHANNEL))
    (clockChannelDescriptor env.config w.guildId) w2
  rw [r3] at s3
  obtain ⟨p, b4, w4, r4, f4⟩ := createIfMissing_calm hcalm env.config.PARTY_FINDER
    (partyFinderDescriptor env.config w.guildId role w.me) w3 rfl rfl
  have s4 := createIfMissing_setsUp env.config env
    (w3.channels.find? (isTextChannelNamed env.config.PARTY_FINDER))
    (partyFinderDescriptor env.config w.guildId role w.me) w3
  rw [r4] at s4
  simp only at s1 s2 s3 s4
  have hfresh4 : Fresh env.config w4 := s4.1 (s3.1 (s2.1 (s1.1 hfresh)))
  have hc4 : w4.channels.find? (isTextChannelNamed env.config.CLOCK_CHANNEL) = some c :=
    find?_grows _ _ s4.2.2.2.2.2.2 f3
  have hrole4 : w4.roles.find? (fun r => r.name == env.config.CLOCKED_IN) = some role :=
    find?_grows _ _ (s2.2.2.2.2.2.1.trans (s3.2.2.2.2.2.1.trans s4.2.2.2.2.2.1)) f1
  refine ⟨role, c, p, w4, ?_, ready_of_fresh hnames hfresh4 hc4 f4, hrole4, ?_, hc4, f4⟩
  · unfold initializeRosterSystem
    simp only [run_bind, getWorld, rolesCacheFind, r1, r2, channelsCacheFind_run, r3, r4]
  · intro e he
    obtain ⟨r, hr⟩ := Option.isSome_iff_exists.mp (f2 e he)
    rw [find?_grows _ _ (s3.2.2.2.2.2.1.trans s4.2.2.2.2.2.1) hr]
    rfl

/-- A pass of `initializeRosterSystem` over a guild that has the roles and the
channels: nothing is created, the two channels are provisioned. -/
theorem initializeRosterSystem_found (env : Env) (w : World) (role : Role) (c p : Channel)
    (hrole : w.roles.find? (fun r => r.name == env.config.CLOCKED_IN) = some role)
    (htypes : ∀ e ∈ env.config.CONTENT_TYPES,
      (w.roles.find? (fun r => r.name == e.2)).isSome = true)
    (hc : w.channels.find? (isTextChannelNamed env.config.CLOCK_CHANNEL) = some c)
    (hp : w.channels.find? (isTextChannelNamed env.config.PARTY_FINDER) = some p) :
    initializeRosterSystem env w = provisionAndSchedule env role c p w := by
  unfold initializeRosterSystem
  simp only [run_bind, getWorld, rolesCacheFind, hrole, createRoleIfMissing, run_pure,
    ensureContentRoles_found env _ w htypes, channelsCacheFind_run, hc, hp, createIfMissing]

/-- A verification pass over a guild that has both channels issues no call. -/
theorem verifyAndCreateMissingChannels_found (env : Env) (role : Role) (w : World)
    (hc : hasTextChannel w env.config.CLOCK_CHANNEL)
    (hp : hasTextChannel w env.config.PARTY_FINDER) :
    verifyAndCreateMissingChannels env role w = (Except.ok (), w) := by
  obtain ⟨c, hc⟩ := Option.isSome_iff_exists.mp ((find_isTextChannelNamed w _).mpr hc)
  obtain ⟨p, hp⟩ := Option.isSome_iff_exists.mp ((find_isTextChannelNamed w _).mpr hp)
  unfold verifyAndCreateMissingChannels
  simp only [run_bind, getWorld, channelsCacheFind_run, hc, hp, createIfMissing,
    run_pure, setUpCreatedChannels, Bool.or_self, Bool.false_eq_true, if_false]
theorem detectClass_ne_empty (patterns : List RegExp) (roles : List String) (c : String)
    (h : detectClass patterns roles = some c) : c ≠ "" := by
  induction patterns with
  | nil => simp [detectClass] at h
  | cons p rest ih =>
    unfold detectClass at h
    split at h
    · split at h
      · cases h; assumption
      · exact ih h
    · exact ih h

theorem roleStats_eq_foldl (config : Config) (members : List Member)
    (rosterEntries : List RosterEntry) :
    roleStats config members rosterEntries =
      (renderedClasses config members rosterEntries).foldl bump [] := by
  unfold roleStats renderedClasses
  generalize ([] : List (String × Nat)) = init
  induction rosterEntries generalizing init with
  | nil => rfl
  | cons e rest ih =>
    simp only [List.foldl_cons, List.filterMap_cons]
    cases hm : membersCacheGet members e.userId with
    | none => simp only [hm]; exact ih init
    | some member =>
      simp only [hm]
      cases hc : detectedClass config member with
      | none => simp only [hc]; exact ih init
      | some c =>
        have hne : c ≠ "" := detectClass_ne_empty _ _ _ hc
        simp only [hc, hne, ne_eq, not_false_eq_true, if_true, List.foldl_cons]
        exact ih _

theorem bump_keys (stats : List (String × Nat)) (k : String) :
    (bump stats k).map Prod.fst =
      if k ∈ stats.map Prod.fst then stats.map Prod.fst else stats.map Prod.fst ++ [k] := by
  induction stats with
  | nil => simp [bump]
  | cons e rest ih =>
    obtain ⟨a, n⟩ := e
    unfold bump
    by_cases h : a = k
    · simp [h]
    · have h2 : ¬ k = a := fun h3 => h h3.symm
      simp only [h, if_false, List.map_cons, ih, List.mem_cons, h2, false_or]
      split <;> simp

theorem foldl_bump_keys (l : List String) (init : List (String × Nat)) :
    (l.foldl bump init).map Prod.fst =
      init.map Prod.fst ++ (firstOccurrences l).filter (fun b => b ∉ init.map Prod.fst) := by
  induction l generalizing init with
  | nil => simp [firstOccurrences]
  | cons a l ih =>
    simp only [List.foldl_cons, ih, bump_keys, firstOccurrences]
    by_cases h : a ∈ init.map Prod.fst
    · simp only [h, if_true, List.filter_cons, not_true_eq_false, decide_False,
        Bool.false_eq_true, if_false, List.filter_filter]
      congr 1
      apply List.filter_congr
      intro b _
      by_cases hb : b = a
      · subst hb; simp [h]
      · simp [hb]
    · simp only [h, if_false, List.filter_cons, not_false_eq_true, decide_True, if_true,
        List.filter_filter, List.append_assoc, List.singleton_append]
      congr 2
      apply List.filter_congr
      intro b _
      by_cases hb : b = a
      · subst hb; simp
      · simp [hb]

theorem firstOccurrences_nodup (l : List String) : (firstOccurrences l).Nodup := by
  induction l with
  | nil => simp [firstOccurrences]
  | cons a l ih =>
    simp only [firstOccurrences, List.nodup_cons]
    exact ⟨by simp [List.mem_filter], ih.filter _⟩


theorem bump_mem (stats : List (String × Nat)) (k : String)
    (hnd : (stats.map Prod.fst).Nodup) (c : String) (n : Nat) :
    (c, n) ∈ bump stats k ↔
      (c ≠ k ∧ (c, n) ∈ stats) ∨
      (c = k ∧ ((∃ m, (k, m) ∈ stats ∧ n = m + 1) ∨ (k ∉ stats.map Prod.fst ∧ n = 1))) := by
  induction stats with
  | nil =>
    simp [bump]
  | cons e rest ih =>
    obtain ⟨a, j⟩ := e
    simp only [List.map_cons, List.nodup_cons] at hnd
    have ih1 := ih hnd.2
    unfold bump
    by_cases h : a = k
    · subst h
      have hno : ∀ m, (a, m) ∉ rest := fun m hm => hnd.1 (List.mem_map_of_mem Prod.fst hm)
      simp only [if_true, List.mem_cons, Prod.mk.injEq, List.map_cons, true_or,
        not_true_eq_false, false_and, or_false]
      constructor
      · rintro (⟨rfl, rfl⟩ | h1)
        · exact Or.inr ⟨rfl, j, Or.inl ⟨trivial, rfl⟩, rfl⟩
        · by_cases hc : c = a
          · subst hc; exact absurd h1 (hno n)
          · exact Or.inl ⟨hc, Or.inr h1⟩
      · rintro (⟨hc, (⟨h1, _⟩ | h1)⟩ | ⟨rfl, m, (⟨_, rfl⟩ | h1), rfl⟩)
        · exact absurd h1 hc
        · exact Or.inr h1
        · exact Or.inl ⟨rfl, rfl⟩
        · exact absurd h1 (hno m)
    · have h2 : ¬ k = a := fun h3 => h h3.symm
      simp only [h, if_false, List.mem_cons, Prod.mk.injEq, ih1, List.map_cons, h2, false_or,
        false_and]
      constructor
      · rintro (⟨rfl, rfl⟩ | h1 | h1)
        · exact Or.inl ⟨h, Or.inl ⟨rfl, rfl⟩⟩
        · exact Or.inl ⟨h1.1, Or.inr h1.2⟩
        · exact Or.inr h1
      · rintro (⟨hc, (h1 | h1)⟩ | h1)
        · exact Or.inl h1
        · exact Or.inr (Or.inl ⟨hc, h1⟩)
        · exact Or.inr (Or.inr h1)

theorem bump_nodup (stats : List (String × Nat)) (k : String)
    (hnd : (stats.map Prod.fst).Nodup) : ((bump stats k).map Prod.fst).Nodup := by
  rw [bump_keys]
  split
  · exact hnd
  · rename_i h
    exact List.Nodup.append hnd (List.nodup_singleton k) (by simpa using h)

/-- The tally after counting the classes `l`: every class of `l` once, with the
number of its occurrences, and nothing else. -/
theorem foldl_bump_mem (l : List String) :
    ((l.foldl bump []).map Prod.fst).Nodup ∧
      ∀ c n, (c, n) ∈ l.foldl bump [] ↔ n = l.count c ∧ 0 < n := by
  induction l using List.reverseRecOn with
  | nil => simp
  | append_singleton l a ih =>
    obtain ⟨hnd, hmem⟩ := ih
    rw [List.foldl_append, List.foldl_cons, List.foldl_nil]
    refine ⟨bump_nodup _ _ hnd, fun c n => ?_⟩
    rw [bump_mem _ _ hnd, List.count_append]
    have hkey : a ∈ (l.foldl bump []).map Prod.fst ↔ 0 < l.count a := by
      constructor
      · intro h
        obtain ⟨⟨c1, m⟩, hm, rfl⟩ := List.mem_map.mp h
        exact ((hmem c1 m).mp hm).1 ▸ ((hmem c1 m).mp hm).2
      · intro h
        exact List.mem_map.mpr ⟨(a, l.count a), (hmem a _).mpr ⟨rfl, h⟩, rfl⟩
    by_cases hc : c = a
    · subst hc
      simp only [ne_eq, not_true_eq_false, false_and, hmem, true_and, false_or, hkey,
        List.count_singleton_self]
      constructor
      · rintro (⟨m, ⟨rfl, _⟩, rfl⟩ | ⟨h0, rfl⟩)
        · exact ⟨rfl, Nat.succ_pos _⟩
        · exact ⟨by omega, Nat.one_pos⟩
      · rintro ⟨rfl, _⟩
        by_cases h0 : 0 < l.count c
        · exact Or.inl ⟨_, ⟨rfl, h0⟩, rfl⟩
        · exact Or.inr ⟨h0, by omega⟩
    · have hca : ¬ a = c := fun h => hc h.symm
      have h0 : List.count c [a] = 0 := by simp [List.count_singleton, hca]
      simp only [ne_eq, hc, not_false_eq_true, true_and, hmem, false_and, or_false, h0,
        Nat.add_zero]

theorem sortedStats_sorted (stats : List (String × Nat)) :
    (sortedStats stats).Sorted (fun x y => y.2 ≤ x.2) := by
  haveI : IsTotal (String × Nat) (fun x y => y.2 ≤ x.2) := ⟨fun a b => le_total b.2 a.2⟩
  haveI : IsTrans (String × Nat) (fun x y => y.2 ≤ x.2) := ⟨fun _ _ _ h1 h2 => le_trans h2 h1⟩
  exact List.sorted_insertionSort _ stats

theorem orderedInsert_filter (e : String × Nat) (l : List (String × Nat)) (n : Nat) :
    (List.orderedInsert (fun x y : String × Nat => y.2 ≤ x.2) e l).filter (fun x => x.2 = n) =
      (e :: l).filter (fun x => x.2 = n) := by
  induction l with
  | nil => rfl
  | cons b l ih =>
    rw [List.orderedInsert]
    split
    · rfl
    · rename_i h
      have hlt : e.2 < b.2 := Nat.lt_of_not_le h
      rw [List.filter_cons, ih]
      by_cases hb : b.2 = n
      · have he : ¬ e.2 = n := by omega
        simp [List.filter_cons, hb, he]
      · simp [List.filter_cons, hb]

theorem sortedStats_filter (stats : List (String × Nat)) (n : Nat) :
    (sortedStats stats).filter (fun x => x.2 = n) = stats.filter (fun x => x.2 = n) := by
  unfold sortedStats
  induction stats with
  | nil => rfl
  | cons e l ih =>
    rw [List.insertionSort, orderedInsert_filter, List.filter_cons, ih, List.filter_cons]


/-- C11 (as the code has it): the role breakdown joined by `updateRosterMessage`
lists every detected class exactly once, with the number of rendered members
of that class, ordered by count descending; classes with equal counts keep the
order in which they were first detected along the record sequence (the sort
compares counts only and is stable), for every record sequence. -/
theorem roleBreakdown_by_count_then_first_detected (config : Config) (members : List Member)
    (rosterEntries : List RosterEntry) :
    ((sortedStats (roleStats config members rosterEntries)).map Prod.fst).Nodup ∧
    (∀ c n, (c, n) ∈ sortedStats (roleStats config members rosterEntries) ↔
      n = (renderedClasses config members rosterEntries).count c ∧ 0 < n) ∧
    (sortedStats (roleStats config members rosterEntries)).Sorted (fun x y => y.2 ≤ x.2) ∧
    (∀ n, (sortedStats (roleStats config members rosterEntries)).filter (fun e => e.2 = n) =
      (roleStats config members rosterEntries).filter (fun e => e.2 = n)) ∧
    (roleStats config members rosterEntries).map Prod.fst =
      firstOccurrences (renderedClasses config members rosterEntries) := by
  have hperm : (sortedStats (roleStats config members rosterEntries)).Perm
      (roleStats config members rosterEntries) := List.perm_insertionSort _ _
  have hfold := foldl_bump_mem (renderedClasses config members rosterEntries)
  rw [← roleStats_eq_foldl] at hfold
  refine ⟨?_, ?_, sortedStats_sorted _, sortedStats_filter _, ?_⟩
  · exact (List.Perm.nodup_iff (hperm.map Prod.fst)).mpr hfold.1
  · intro c n
    rw [hperm.mem_iff]
    exact hfold.2 c n
  · rw [roleStats_eq_foldl, foldl_bump_keys]
    simp

/-- C11 (counterexample): with a `Tank` member recorded before a `Healer` member,
one each, the breakdown reads `Tank: 1 • Healer: 1`, although `Healer` comes
before `Tank` in alphabetical order. -/
theorem roleBreakdown_ties_not_alphabetical :
    sortedStats (roleStats sampleConfig tankHealerMembers tankHealerEntries) =
      [("Tank", 1), ("Healer", 1)] ∧
    "Healer" < "Tank" ∧
    statsContent (roleStats sampleConfig tankHealerMembers tankHealerEntries) =
      "\n\n**📊 Role Breakdown:** Tank: 1 • Healer: 1" := by
  refine ⟨by decide, String.lt_iff_toList_lt.mpr (by decide), by decide⟩

/-! ## The lines of the roster view -/

theorem returns_pure {α : Type} (a : α) : Returns (pure a : M α) := fun _ => ⟨a, rfl⟩

theorem returns_bind {α β : Type} {m : M α} {f : α → M β} (hm : Returns m)
    (hf : ∀ a, Returns (f a)) : Returns (m >>= f) := by
  intro w
  obtain ⟨a, ha⟩ := hm w
  rcases bind_world m f w with ⟨b, hb, hrun⟩ | ⟨e, he, _⟩
  · rw [hrun]; exact hf b _
  · rw [ha] at he; cases he

theorem returns_call {α : Type} (env : Env) (hcalm : Calm env) (a : Action)
    (effect : World → α × World) : Returns (call env a effect) := by
  intro w
  unfold call
  simp only [hcalm _ _, Bool.false_eq_true, if_false]
  exact ⟨_, rfl⟩

theorem updateRosterMessage_returns (env : Env) (hcalm : Calm env) (channel : Channel) :
    Returns (updateRosterMessage env channel) := by
  unfold updateRosterMessage publishRoster upsertRosterMessage find fetchPinned send pin edit
  repeat' first
    | exact returns_call env hcalm _ _
    | exact returns_pure _
    | exact fun w => ⟨_, rfl⟩
    | apply returns_bind
    | split
    | intro _

theorem rosterLines_valid (config : Config) (members : List Member) (currentTime : Int)
    (rosterEntries : List RosterEntry) :
    (rosterLines config members currentTime rosterEntries).filterMap id =
      rosterEntries.filterMap (fun entry =>
        (membersCacheGet members entry.userId).map (rosterLine config currentTime entry)) := by
  unfold rosterLines
  rw [List.filterMap_map]
  apply List.filterMap_congr
  intro entry _
  simp only [Function.comp, id]
  cases hm : membersCacheGet members entry.userId <;> rfl

theorem renderedClasses_resolved (config : Config) (members : List Member)
    (rosterEntries : List RosterEntry) :
    renderedClasses config members (rosterEntries.filter (resolves members)) =
      renderedClasses config members rosterEntries := by
  unfold renderedClasses
  induction rosterEntries with
  | nil => rfl
  | cons e rest ih =>
    cases hm : membersCacheGet members e.userId with
    | none => simp [List.filter_cons, resolves, hm, ih]
    | some member =>
      have hr : resolves members e = true := by simp [resolves, hm]
      rw [List.filter_cons, if_pos hr, List.filterMap_cons, List.filterMap_cons, ih]

/-- C12. For every record sequence and member lookup, the roster view has one
line per record whose member resolves, in the order of the records, and none
for a record whose member does not resolve; the number in the header
`Active Players (n)` is the number of these lines; a record whose member does
not resolve adds nothing to the role breakdown; and `updateRosterMessage`
returns normally whether or not members resolve, when its calls succeed. -/
theorem rosterView_one_line_per_resolved_member (env : Env) (channel : Channel) (w : World)
    (config : Config) (members : List Member) (currentTime : Int)
    (rosterEntries : List RosterEntry) :
    (rosterLines config members currentTime rosterEntries).filterMap id =
        rosterEntries.filterMap (fun entry =>
          (membersCacheGet members entry.userId).map (rosterLine config currentTime entry)) ∧
      ((rosterLines config members currentTime rosterEntries).filterMap id).length =
        (rosterEntries.filter (resolves members)).length ∧
      (rosterEntries ≠ [] →
        rosterContent config members currentTime rosterEntries =
          "**🎯 Active Players (" ++
            toString ((rosterLines config members currentTime rosterEntries).filterMap id).length ++
            "):**\n" ++
            String.intercalate "\n"
              ((rosterLines config members currentTime rosterEntries).filterMap id)) ∧
      roleStats config members rosterEntries =
        roleStats config members (rosterEntries.filter (resolves members)) ∧
      (Calm env → (updateRosterMessage env channel w).1 = Except.ok ()) := by
  refine ⟨rosterLines_valid _ _ _ _, ?_, ?_, ?_, ?_⟩
  · rw [rosterLines_valid]
    induction rosterEntries with
    | nil => rfl
    | cons e rest ih =>
      cases hm : membersCacheGet members e.userId with
      | none => simpa [List.filterMap_cons, List.filter_cons, resolves, hm] using ih
      | some member => simpa [List.filterMap_cons, List.filter_cons, resolves, hm] using ih
  · intro hne
    have hlen : rosterEntries.length > 0 := List.length_pos.mpr hne
    simp only [rosterContent, hlen, if_true]
  · rw [roleStats_eq_foldl, roleStats_eq_foldl, renderedClasses_resolved]
  · intro hcalm
    obtain ⟨a, ha⟩ := updateRosterMessage_returns env hcalm channel w
    exact ha

set_option maxRecDepth 100000 in
/-- C12, at a sample guild: of two active records the member of the first
resolves; the view has the line of that member only under the header
`Active Players (1)`, and the update returns normally. -/
theorem rosterView_one_line_per_resolved_member_witness :
    oneResolvedWorld.store ≠ [] ∧ Calm (calmEnv 1000) ∧
      rosterContent sampleConfig oneResolvedWorld.members 1000 oneResolvedWorld.store =
        "**🎯 Active Players (1):**\n• Ann - Tank (<1m)" ∧
      (updateRosterMessage (calmEnv 1000) sampleChannel oneResolvedWorld).1 = Except.ok () :=
  ⟨by decide, fun _ _ => rfl,
    ((rosterView_one_line_per_resolved_member (calmEnv 1000) sampleChannel oneResolvedWorld
      sampleConfig oneResolvedWorld.members 1000 oneResolvedWorld.store).2.2.1
        (by decide)).trans (by decide),
    (rosterView_one_line_per_resolved_member (calmEnv 1000) sampleChannel oneResolvedWorld
      sampleConfig oneResolvedWorld.members 1000 oneResolvedWorld.store).2.2.2.2
        (fun _ _ => rfl)⟩

/-! ## The rendered text as a function of its inputs -/

/-- Every text `updateRosterMessage` sends or edits in is the rendering of the
active records, when the roster query succeeds. -/
theorem updateRosterMessage_texts (env : Env) (channel : Channel) (w : World)
    (hfind : env.fails w.log.length
      (Action.find w.guildId Cmp.gt (env.clock w.log.length)) = false) :
    ∀ a ∈ issued (updateRosterMessage env channel) w, ∀ s, a.text = some s →
      s = fullContent env.config w.members (env.clock w.log.length)
        (w.store.filter (fun r => isActive w.guildId (env.clock w.log.length) r)) := by
  obtain ⟨w1, hw1, l1, s1, m1⟩ := find_ok env _ _ _ w hfind
  have hact : w.store.filter (matchesFilter w.guildId Cmp.gt (env.clock w.log.length)) =
      w.store.filter (fun r => isActive w.guildId (env.clock w.log.length) r) :=
    List.filter_congr (fun r _ => matchesFilter_gt _ _ r)
  have hrun : (updateRosterMessage env channel w).2 =
      (publishRoster env channel (fullContent env.config w.members (env.clock w.log.length)
        (w.store.filter (fun r => isActive w.guildId (env.clock w.log.length) r))) w1).2 := by
    unfold updateRosterMessage
    simp only [run_bind, now, getWorld, hw1, m1, hact]
  obtain ⟨⟨l, hl, pl⟩, -⟩ := publishRoster_calls
    (P := fun a => ∀ s, a.text = some s →
      s = fullContent env.config w.members (env.clock w.log.length)
        (w.store.filter (fun r => isActive w.guildId (env.clock w.log.length) r)))
    env channel _ (fun s h => by simp [Action.text] at h)
    (fun s h => by simpa [Action.text] using h.symm)
    (fun i s h => by simpa [Action.text] using h.symm)
    (fun i s h => by simp [Action.text] at h) w1
  intro a ha
  unfold issued at ha
  rw [hrun, hl, l1] at ha
  simp only [List.append_assoc, List.drop_left, List.singleton_append, List.mem_cons] at ha
  rcases ha with rfl | ha
  · intro s h; simp [Action.text] at h
  · exact pl a ha

/-- The rendering uses the configuration through the content-type names only. -/
theorem fullContent_config (config1 config2 : Config) (members : List Member)
    (currentTime : Int) (rosterEntries : List RosterEntry)
    (h : config1.CONTENT_TYPES = config2.CONTENT_TYPES) :
    fullContent config1 members currentTime rosterEntries =
      fullContent config2 members currentTime rosterEntries := by
  have h1 : contentTypeRoles config1 = contentTypeRoles config2 := by
    unfold contentTypeRoles; rw [h]
  simp only [fullContent, rosterContent, rosterLines, rosterLine, roleStats, detectedClass,
    classRoles, contentInfo, selectedContentTypes, h1]

/-- The rendering uses the member cache through the lookups of the records'
users only. -/
theorem fullContent_members (config : Config) (members1 members2 : List Member)
    (currentTime : Int) (rosterEntries : List RosterEntry)
    (h : ∀ e ∈ rosterEntries,
      membersCacheGet members1 e.userId = membersCacheGet members2 e.userId) :
    fullContent config members1 currentTime rosterEntries =
      fullContent config members2 currentTime rosterEntries := by
  have hlines : rosterLines config members1 currentTime rosterEntries =
      rosterLines config members2 currentTime rosterEntries := by
    unfold rosterLines
    apply List.map_congr_left
    intro e he
    rw [h e he]
  have hclasses : renderedClasses config members1 rosterEntries =
      renderedClasses config members2 rosterEntries := by
    unfold renderedClasses
    apply List.filterMap_congr
    intro e he
    rw [h e he]
  simp only [fullContent, rosterContent, hlines, roleStats_eq_foldl, hclasses]

/-- C13. The text `updateRosterMessage` renders is a function of the active
records, the member lookup of their users, the content-type names of the
configuration and the time of the query: two runs (in whatever guild state,
on whatever channel, under whatever other configuration) that agree on these
send and edit in the same text.  The roster query is taken to succeed in both
runs; the records are compared as the sequence the query returns. -/
theorem updateRosterMessage_deterministic (env1 env2 : Env) (channel1 channel2 : Channel)
    (w1 w2 : World)
    (hfind1 : env1.fails w1.log.length
      (Action.find w1.guildId Cmp.gt (env1.clock w1.log.length)) = false)
    (hfind2 : env2.fails w2.log.length
      (Action.find w2.guildId Cmp.gt (env2.clock w2.log.length)) = false)
    (hvocabulary : env1.config.CONTENT_TYPES = env2.config.CONTENT_TYPES)
    (htime : env1.clock w1.log.length = env2.clock w2.log.length)
    (hrecords : w1.store.filter (fun r => isActive w1.guildId (env1.clock w1.log.length) r) =
      w2.store.filter (fun r => isActive w2.guildId (env2.clock w2.log.length) r))
    (hmembers : ∀ e ∈ w1.store.filter
        (fun r => isActive w1.guildId (env1.clock w1.log.length) r),
      membersCacheGet w1.members e.userId = membersCacheGet w2.members e.userId) :
    ∀ a1 ∈ issued (updateRosterMessage env1 channel1) w1,
      ∀ a2 ∈ issued (updateRosterMessage env2 channel2) w2,
        ∀ s1 s2, a1.text = some s1 → a2.text = some s2 → s1 = s2 := by
  intro a1 ha1 a2 ha2 s1 s2 h1 h2
  rw [updateRosterMessage_texts env1 channel1 w1 hfind1 a1 ha1 s1 h1,
    updateRosterMessage_texts env2 channel2 w2 hfind2 a2 ha2 s2 h2,
    fullContent_config _ _ _ _ _ hvocabulary,
    fullContent_members _ _ _ _ _ hmembers, hrecords, htime]

/-- C13, at two sample runs: the same guild at two moments at which the active
records, the lookups of their users and the time agree, on different channels. -/
theorem updateRosterMessage_deterministic_witness :
    oneResolvedWorld.store.filter (fun r => isActive oneResolvedWorld.guildId
        ((calmEnv 1000).clock oneResolvedWorld.log.length) r) =
      oneResolvedLaterWorld.store.filter (fun r => isActive oneResolvedLaterWorld.guildId
        ((calmEnv 1000).clock oneResolvedLaterWorld.log.length) r) ∧
    ∀ a1 ∈ issued (updateRosterMessage (calmEnv 1000) sampleChannel) oneResolvedWorld,
      ∀ a2 ∈ issued (updateRosterMessage (calmEnv 1000) sampleClockChannel)
          oneResolvedLaterWorld,
        ∀ s1 s2, a1.text = some s1 → a2.text = some s2 → s1 = s2 :=
  ⟨by decide,
    updateRosterMessage_deterministic (calmEnv 1000) (calmEnv 1000) sampleChannel
      sampleClockChannel oneResolvedWorld oneResolvedLaterWorld rfl rfl rfl rfl (by decide)
      (by decide)⟩

/-! ## Which roles are classified -/

theorem detectClass_mem (patterns : List RegExp) (roles : List String) (c : String)
    (h : detectClass patterns roles = some c) : c ∈ roles := by
  induction patterns with
  | nil => simp [detectClass] at h
  | cons p rest ih =>
    unfold detectClass at h
    split at h
    · rename_i r hr
      split at h
      · cases h; exact List.mem_of_find?_eq_some hr
      · exact ih h
    · exact ih h

/-- The detected class is never a content-type name of the configuration, nor
`@everyone`, nor the literal `Clocked In`, whatever the configuration. -/
theorem detectedClass_excluded_names (config : Config) (member : Member) (c : String)
    (h : detectedClass config member = some c) :
    c ∉ contentTypeRoles config ∧ c ≠ "@everyone" ∧ c ≠ "Clocked In" := by
  have hmem := detectClass_mem _ _ _ h
  simp only [classRoles, memberRoles, List.mem_filter, List.mem_map, Bool.not_eq_true',
    List.contains_eq_any_beq, List.any_eq_false, beq_iff_eq, Bool.and_eq_true, bne_iff_ne,
    ne_eq] at hmem
  obtain ⟨⟨role, ⟨_, h1, h2⟩, rfl⟩, h3⟩ := hmem
  exact ⟨fun hc => h3 _ hc rfl, h1, h2⟩

/-- C20 (failing input). Under a configuration whose active-status role is
named `Active Hunter`, that role is the detected class of a clocked-in member
and is counted in the role breakdown: the filter of `updateRosterMessage`
leaves out the literal `Clocked In`, not `config.ROLES.CLOCKED_IN`.  The
content-type role of the member is in the content-tag display only. -/
theorem detectedClass_is_configured_active_role :
    detectedClass hunterConfig hunterMember = some hunterConfig.CLOCKED_IN ∧
      roleStats hunterConfig [hunterMember] [⟨7, 1, 5000⟩] = [(hunterConfig.CLOCKED_IN, 1)] ∧
      selectedContentTypes hunterConfig hunterMember = ["Roads"] ∧
      fullContent hunterConfig [hunterMember] 1000 [⟨7, 1, 5000⟩] =
        "**🎯 Active Players (1):**\n• Ann - Active Hunter [🛣️] (<1m)" ++
          "\n\n**📊 Role Breakdown:** Active Hunter: 1" ++ helpContent := by
  refine ⟨by decide, by decide, by decide, ?_⟩
  unfold fullContent
  congr 1

/-! ## The descriptors of the two creation paths -/

/-- C16 (failing input). The two paths create clock-station from equal
descriptors, but party-finder from different ones: the descriptor of
`verifyAndCreateMissingChannels` differs from that of `initializeRosterSystem`
in the topic and in the permission overwrites, for every configuration, guild,
active role and bot; on a guild that lacks party-finder the two paths issue
different creations. -/
theorem partyFinder_descriptor_differs_between_paths :
    (∀ config guildId,
      missingClockChannelDescriptor config guildId = clockChannelDescriptor config guildId) ∧
    (∀ config guildId clockedInRole botId,
      (missingPartyFinderDescriptor config guildId clockedInRole).topic ≠
          (partyFinderDescriptor config guildId clockedInRole botId).topic ∧
        (missingPartyFinderDescriptor config guildId clockedInRole).permissionOverwrites ≠
          (partyFinderDescriptor config guildId clockedInRole botId).permissionOverwrites) ∧
    channelCreates (issued (initializeRosterSystem (calmEnv 1000)) noPartyFinderWorld) =
        [partyFinderDescriptor sampleConfig 7 ⟨60, "Clocked In", 0x00ff00, false⟩ 99] ∧
    channelCreates (issued (verifyAndCreateMissingChannels (calmEnv 1000)
          ⟨60, "Clocked In", 0x00ff00, false⟩) noPartyFinderWorld) =
        [missingPartyFinderDescriptor sampleConfig 7 ⟨60, "Clocked In", 0x00ff00, false⟩] := by
  refine ⟨fun _ _ => rfl, fun config guildId clockedInRole botId => ⟨?_, ?_⟩,
    by decide, by decide⟩
  · show "Party finder - Only visible to clocked-in users" ≠
      "🎯 Party Finder - Real-time roster of available players (Read-only)"
    decide
  intro h
  have hlen := congrArg List.length h
  simp [missingPartyFinderDescriptor, partyFinderDescriptor] at hlen

/-- C17 (failing input). The party-finder channel that
`verifyAndCreateMissingChannels` creates allows `SendMessages` to the active
role, and its only overwrite that denies `SendMessages` is the first, that of
`@everyone`, for every configuration, guild and role; the channel
`initializeRosterSystem` creates denies it to the active role.  On a guild that lacks
party-finder, the channel the verification pass leaves is writable by the
active role. -/
theorem missingPartyFinder_allows_active_role_to_send :
    (∀ config guildId (clockedInRole : Role),
      allowsTo (missingPartyFinderDescriptor config guildId clockedInRole).permissionOverwrites
          clockedInRole.id Permission.SendMessages = true ∧
        (missingPartyFinderDescriptor config guildId clockedInRole).permissionOverwrites.map
            (fun o => o.deny.contains Permission.SendMessages) = [true, false]) ∧
    (∀ config guildId (clockedInRole : Role) botId,
      deniesTo (partyFinderDescriptor config guildId clockedInRole botId).permissionOverwrites
        clockedInRole.id Permission.SendMessages = true) ∧
    ((verifyAndCreateMissingChannels (calmEnv 1000) ⟨60, "Clocked In", 0x00ff00, false⟩
        noPartyFinderWorld).2.channels.filter (isTextChannelNamed "party-finder")).map
          (fun ch => (allowsTo ch.permissionOverwrites 60 Permission.SendMessages,
            deniesTo ch.permissionOverwrites 60 Permission.SendMessages)) =
      [(true, false)] := by
  refine ⟨fun config guildId clockedInRole => ⟨?_, ?_⟩,
    fun config guildId clockedInRole botId => ?_, by decide⟩
  · simp [allowsTo, missingPartyFinderDescriptor]
  · simp [missingPartyFinderDescriptor]
  · simp [deniesTo, partyFinderDescriptor]

/-! ## The timers after a partly failed initial pass -/

/-- C18 (failing input). On a guild without channels, when the creation of the
party-finder channel is rejected and every other call succeeds,
`initializeRosterSystem` returns normally having created the active role and
the clock-station channel, and installs no timer; when every call succeeds it
installs the two timers. -/
theorem initializeRosterSystem_partial_installs_no_timer :
    (initializeRosterSystem partyFinderCreationFailsEnv sampleWorld).1 = Except.ok () ∧
      ((initializeRosterSystem partyFinderCreationFailsEnv sampleWorld).2.roles.map
        (fun role => role.name)).contains "Clocked In" = true ∧
      ((initializeRosterSystem partyFinderCreationFailsEnv sampleWorld).2.channels.map
        (fun ch => ch.name)) = ["clock-station"] ∧
      (initializeRosterSystem partyFinderCreationFailsEnv sampleWorld).2.timers = [] ∧
      (initializeRosterSystem (calmEnv 1000) sampleWorld).2.timers =
        [Timer.rosterUpdate 7 (10 * 60 * 1000),
         Timer.channelVerification 7 ⟨100, "Clocked In", 0x00ff00, false⟩ (30 * 60 * 1000)] := by
  refine ⟨rfl, by decide, by decide, by decide, by decide⟩

/-! ## Failures in the revocation loop -/

/-- One step of the revocation loop, case by case: after the member fetch it
issues nothing, or the role removal alone, or the role removal and one direct
message; the removal is issued when the member is fetched and holds the
active role; the roles stay, and the members change by a map that keeps ids
and the members of other users. -/
theorem revokeEntry_run (env : Env) (entry : RosterEntry) (w : World) :
    ∃ l f, (revokeEntry env entry w).2.log = w.log ++ Action.membersFetch entry.userId :: l ∧
      (l = [] ∨ ∃ r, l = [Action.rolesRemove entry.userId r] ∨
        l = [Action.rolesRemove entry.userId r,
             Action.memberSend entry.userId (autoClockOutText env.config)]) ∧
      (∀ member role, w.members.find? (fun m => m.id == entry.userId) = some member →
        w.roles.find? (fun r => r.name == env.config.CLOCKED_IN) = some role →
        member.roles.any (fun r => r.id == role.id) = true →
        env.fails w.log.length (Action.membersFetch entry.userId) = false →
        Action.rolesRemove entry.userId role.id ∈ l) ∧
      (revokeEntry env entry w).2.roles = w.roles ∧
      (revokeEntry env entry w).2.members = w.members.map f ∧
      (∀ m, (f m).id = m.id) ∧ (∀ m, m.id ≠ entry.userId → f m = m) := by
  cases hm : w.members.find? (fun m => m.id == entry.userId) with
  | none =>
    refine ⟨[], id, ?_, Or.inl rfl, ?_, ?_, ?_, fun _ => rfl, fun _ _ => rfl⟩
    · simp [revokeEntry, tryCatch, membersFetch, run_bind, hm, run_pure]
    · intro member role h; cases h
    · simp [revokeEntry, tryCatch, membersFetch, run_bind, hm, run_pure]
    · simp [revokeEntry, tryCatch, membersFetch, run_bind, hm, run_pure]
  | some member =>
    have hid : member.id = entry.userId := by simpa using List.find?_some hm
    cases hf : env.fails w.log.length (Action.membersFetch entry.userId) with
    | true =>
      refine ⟨[], id, ?_, Or.inl rfl, ?_, ?_, ?_, fun _ => rfl, fun _ _ => rfl⟩
      · simp [revokeEntry, tryCatch, membersFetch, run_bind, hm, hf, run_pure]
      · intro _ _ _ _ _ h; cases h
      · simp [revokeEntry, tryCatch, membersFetch, run_bind, hm, hf, run_pure]
      · simp [revokeEntry, tryCatch, membersFetch, run_bind, hm, hf, run_pure]
    | false =>
      cases hr : w.roles.find? (fun r => r.name == env.config.CLOCKED_IN) with
      | none =>
        refine ⟨[], fun m => if m.id = entry.userId then { m with cached := true } else m,
          ?_, Or.inl rfl, ?_, ?_, ?_, ?_, ?_⟩
        · simp [revokeEntry, tryCatch, membersFetch, rolesCacheFind, run_bind, hm, hf, hr,
            run_pure]
        · intro _ role _ h; cases h
        · simp [revokeEntry, tryCatch, membersFetch, rolesCacheFind, run_bind, hm, hf, hr,
            run_pure]
        · simp [revokeEntry, tryCatch, membersFetch, rolesCacheFind, run_bind, hm, hf, hr,
            run_pure]
        · intro m; by_cases h : m.id = entry.userId <;> simp [h]
        · intro m h; simp [h]
      | some role =>
        cases hh : member.roles.any (fun r => r.id == role.id) with
        | false =>
          have hh1 : ¬ ∃ x ∈ member.roles, x.id = role.id := by simpa using hh
          refine ⟨[], fun m => if m.id = entry.userId then { m with cached := true } else m,
            ?_, Or.inl rfl, ?_, ?_, ?_, ?_, ?_⟩
          · simp [revokeEntry, tryCatch, membersFetch, rolesCacheFind, run_bind, hm, hf, hr, hh1,
              run_pure]
          · intro member1 role1 h1 h2 h3
            cases h1; cases h2; rw [hh] at h3; cases h3
          · simp [revokeEntry, tryCatch, membersFetch, rolesCacheFind, run_bind, hm, hf, hr, hh1,
              run_pure]
          · simp [revokeEntry, tryCatch, membersFetch, rolesCacheFind, run_bind, hm, hf, hr, hh1,
              run_pure]
          · intro m; by_cases h : m.id = entry.userId <;> simp [h]
          · intro m h; simp [h]
        | true =>
          have hh1 : ∃ x ∈ member.roles, x.id = role.id := by simpa using hh
          cases hrem : env.fails (w.log.length + 1) (Action.rolesRemove entry.userId role.id) with
          | true =>
            refine ⟨[Action.rolesRemove entry.userId role.id],
              fun m => if m.id = entry.userId then { m with cached := true } else m,
              ?_, Or.inr ⟨role.id, Or.inl rfl⟩, ?_, ?_, ?_, ?_, ?_⟩
            · simp [revokeEntry, tryCatch, membersFetch, rolesCacheFind, rolesRemove, call,
                run_bind, hm, hf, hr, hh1, hid, hrem, run_pure]
            · intro member1 role1 h1 h2 h3
              cases h1; cases h2; simp
            · simp [revokeEntry, tryCatch, membersFetch, rolesCacheFind, rolesRemove, call,
                run_bind, hm, hf, hr, hh1, hid, hrem, run_pure]
            · simp [revokeEntry, tryCatch, membersFetch, rolesCacheFind, rolesRemove, call,
                run_bind, hm, hf, hr, hh1, hid, hrem, run_pure]
            · intro m; by_cases h : m.id = entry.userId <;> simp [h]
            · intro m h; simp [h]
          | false =>
            refine ⟨[Action.rolesRemove entry.userId role.id,
                Action.memberSend entry.userId (autoClockOutText env.config)],
              (fun m => if m.id = entry.userId then
                  { m with roles := m.roles.filter (fun r => r.id != role.id) } else m) ∘
                (fun m => if m.id = entry.userId then { m with cached := true } else m),
              ?_, Or.inr ⟨role.id, Or.inr rfl⟩, ?_, ?_, ?_, ?_, ?_⟩
            · cases hs : env.fails (w.log.length + 1 + 1)
                (Action.memberSend entry.userId (autoClockOutText env.config)) <;>
              simp [revokeEntry, tryCatch, membersFetch, rolesCacheFind, rolesRemove, memberSend,
                call, run_bind, hm, hf, hr, hh1, hid, hrem, hs, run_pure]
            · intro member1 role1 h1 h2 h3
              cases h1; cases h2; simp
            · cases hs : env.fails (w.log.length + 1 + 1)
                (Action.memberSend entry.userId (autoClockOutText env.config)) <;>
              simp [revokeEntry, tryCatch, membersFetch, rolesCacheFind, rolesRemove, memberSend,
                call, run_bind, hm, hf, hr, hh1, hid, hrem, hs, run_pure]
            · cases hs : env.fails (w.log.length + 1 + 1)
                (Action.memberSend entry.userId (autoClockOutText env.config)) <;>
              simp [revokeEntry, tryCatch, membersFetch, rolesCacheFind, rolesRemove, memberSend,
                call, run_bind, hm, hf, hr, hh1, hid, hrem, hs, run_pure]
            · intro m; by_cases h : m.id = entry.userId <;> simp [h]
            · intro m h; simp [h]

theorem find?_map_other (members : List Member) (f : Member → Member) (u v : Nat)
    (hid : ∀ m, (f m).id = m.id) (hother : ∀ m, m.id ≠ v → f m = m) (huv : u ≠ v) :
    (members.map f).find? (fun m => m.id == u) = members.find? (fun m => m.id == u) := by
  induction members with
  | nil => rfl
  | cons m rest ih =>
    simp only [List.map_cons, List.find?_cons, hid]
    by_cases h : m.id = u
    · have hm : f m = m := hother m (by rw [h]; exact huv)
      simp [h, hm]
    · have hb : (m.id == u) = false := by simpa using h
      simp only [hb]
      exact ih

theorem dmUsers_append (l1 l2 : List Action) : dmUsers (l1 ++ l2) = dmUsers l1 ++ dmUsers l2 := by
  simp [dmUsers, List.filterMap_append]

/-- The revocation loop, whatever fails: it returns normally; the direct
messages it attempts go to users of the entries, at most one per entry and in
their order; and it attempts the role removal of every entry whose member
holds the active role and whose fetch is not rejected. -/
theorem revokeExpired_run (env : Env) (entries : List RosterEntry) :
    ∀ w : World, ∃ l, (revokeExpired env entries w).2.log = w.log ++ l ∧
      (revokeExpired env entries w).1 = Except.ok () ∧
      (dmUsers l).Sublist (entries.map RosterEntry.userId) ∧
      (∀ e ∈ entries, ∀ member role,
        w.members.find? (fun m => m.id == e.userId) = some member →
        w.roles.find? (fun r => r.name == env.config.CLOCKED_IN) = some role →
        member.roles.any (fun r => r.id == role.id) = true →
        (∀ i, env.fails i (Action.membersFetch e.userId) = false) →
        Action.rolesRemove e.userId role.id ∈ l) := by
  induction entries with
  | nil =>
    intro w
    exact ⟨[], by simp [revokeExpired, run_pure], rfl, by simp [dmUsers],
      fun e he => by cases he⟩
  | cons entry rest ih =>
    intro w
    obtain ⟨l0, f, hl0, hshape, hrem, hroles, hmembers, hfid, hfother⟩ :=
      revokeEntry_run env entry w
    obtain ⟨l1, hl1, hok1, hdm1, hrem1⟩ := ih (revokeEntry env entry w).2
    have hrun : revokeExpired env (entry :: rest) w =
        revokeExpired env rest (revokeEntry env entry w).2 := by
      show (revokeEntry env entry >>= fun _ => revokeExpired env rest) w = _
      rcases bind_world (revokeEntry env entry) (fun _ => revokeExpired env rest) w with
        ⟨a, -, h⟩ | ⟨e, he, -⟩
      · exact h
      · obtain ⟨b, hb⟩ := tryCatch_ok _ () w
        unfold revokeEntry at he
        rw [hb] at he
        cases he
    refine ⟨Action.membersFetch entry.userId :: l0 ++ l1, ?_, ?_, ?_, ?_⟩
    · rw [hrun, hl1, hl0]; simp
    · rw [hrun]; exact hok1
    · have h0 : (dmUsers (Action.membersFetch entry.userId :: l0)).Sublist [entry.userId] := by
        rcases hshape with rfl | ⟨r, rfl | rfl⟩
        · simp [dmUsers]
        · simp [dmUsers]
        · simp [dmUsers]
      rw [dmUsers_append]
      exact List.Sublist.append h0 hdm1
    · intro e he member role hm hr hh hfetch
      by_cases hu : e.userId = entry.userId
      · have h1 := hrem member role (hu ▸ hm) hr hh (hu ▸ hfetch _)
        rw [hu]
        exact List.mem_append_left _ (List.mem_cons_of_mem _ h1)
      · have hrest : e ∈ rest := by
          rcases List.mem_cons.mp he with rfl | h
          · exact absurd rfl hu
          · exact h
        have hm1 : (revokeEntry env entry w).2.members.find? (fun m => m.id == e.userId) =
            some member := by
          rw [hmembers, find?_map_other _ f _ _ hfid hfother hu]; exact hm
        exact List.mem_append_right _ (hrem1 e hrest member role hm1 (hroles ▸ hr) hh hfetch)

/-- C14. The loop of the expiry sweep over the removed records, for every list
of records and every pattern of failures of member fetch, role removal and
direct message: it returns normally and fetches the member of every record, in
order; it attempts the role removal of every record whose member holds the
active role and whose fetch is not rejected; and the direct messages it
attempts are at most one per record, in the order of the records. -/
theorem expirySweep_failures_do_not_block (env : Env) (entries : List RosterEntry) (w : World) :
    (revokeExpired env entries w).1 = Except.ok () ∧
      fetchedUsers (issued (revokeExpired env entries) w) = entries.map RosterEntry.userId ∧
      (∀ e ∈ entries, ∀ member role,
        w.members.find? (fun m => m.id == e.userId) = some member →
        w.roles.find? (fun r => r.name == env.config.CLOCKED_IN) = some role →
        member.roles.any (fun r => r.id == role.id) = true →
        (∀ i, env.fails i (Action.membersFetch e.userId) = false) →
        Action.rolesRemove e.userId role.id ∈ issued (revokeExpired env entries) w) ∧
      (dmUsers (issued (revokeExpired env entries) w)).Sublist
        (entries.map RosterEntry.userId) := by
  obtain ⟨l, hl, hok, hdm, hrem⟩ := revokeExpired_run env entries w
  obtain ⟨l2, hl2, hfetch, -⟩ := revokeExpired_spec env entries w
  have hi : issued (revokeExpired env entries) w = l := by
    unfold issued; rw [hl]; simp
  have hi2 : issued (revokeExpired env entries) w = l2 := by
    unfold issued; rw [hl2]; simp
  refine ⟨hok, ?_, ?_, ?_⟩
  · rw [hi2]; exact hfetch
  · rw [hi]; exact hrem
  · rw [hi]; exact hdm

/-- C14, at a sample sweep in which every direct message and the role removal
of user 2 are rejected and user 4 cannot be fetched: users 1 and 2 hold the
active role and their fetches are not rejected, and the removals of both are
attempted all the same. -/
theorem expirySweep_failures_do_not_block_witness :
    (sweepWorld.members.find? (fun m => m.id == 2)).map (fun m => m.roles.map (fun r => r.id)) =
        some [60] ∧
      dmFailsEnv.fails 1 (Action.memberSend 1 (autoClockOutText sampleConfig)) = true ∧
      Action.rolesRemove 1 60 ∈ issued (revokeExpired dmFailsEnv sweepEntries) sweepWorld ∧
      Action.rolesRemove 2 60 ∈ issued (revokeExpired dmFailsEnv sweepEntries) sweepWorld :=
  ⟨by decide, rfl,
    (expirySweep_failures_do_not_block dmFailsEnv sweepEntries sweepWorld).2.2.1 ⟨7, 1, 500⟩
      (by decide) _ ⟨60, "Clocked In", 0x00ff00, false⟩ rfl rfl rfl (fun _ => rfl),
    (expirySweep_failures_do_not_block dmFailsEnv sweepEntries sweepWorld).2.2.1 ⟨7, 2, 500⟩
      (by decide) _ ⟨60, "Clocked In", 0x00ff00, false⟩ rfl rfl rfl (fun _ => rfl)⟩

/-! ## The store after the sweep -/

/-- The store the expiry sweep leaves, when its two collection calls succeed:
the records of the guild that were due are gone, whatever else fails. -/
theorem cleanupExpiredRosterEntries_store (env : Env) (w : World)
    (hfind : env.fails w.log.length
      (Action.find w.guildId Cmp.lte (env.clock w.log.length)) = false)
    (hdelete : env.fails (w.log.length + 1)
      (Action.deleteMany w.guildId Cmp.lte (env.clock w.log.length)) = false) :
    (cleanupExpiredRosterEntries env w).2.store =
      w.store.filter (fun r => ¬ isExpired w.guildId (env.clock w.log.length) r) := by
  have hkeep : w.store.filter
      (fun r => !matchesFilter w.guildId Cmp.lte (env.clock w.log.length) r) =
      w.store.filter (fun r => ¬ isExpired w.guildId (env.clock w.log.length) r) :=
    List.filter_congr (fun r _ => by rw [matchesFilter_lte]; simp)
  obtain ⟨w1, hw1, l1, s1, -⟩ := find_ok env _ _ _ w hfind
  have hd : env.fails w1.log.length
      (Action.deleteMany w.guildId Cmp.lte (env.clock w.log.length)) = false := by
    rw [l1]; simpa using hdelete
  obtain ⟨w2, hw2, l2, s2⟩ := deleteMany_ok env _ _ _ w1 hd
  unfold cleanupExpiredRosterEntries
  simp only [run_bind, now, getWorld, hw1]
  split
  · rw [run_bind, hw2]
    simp only []
    obtain ⟨l, hl, ul, hs, -⟩ := revokeExpired_spec env
      (w.store.filter (matchesFilter w.guildId Cmp.lte (env.clock w.log.length))) w2
    rcases bind_world (revokeExpired env
        (w.store.filter (matchesFilter w.guildId Cmp.lte (env.clock w.log.length)))) _ w2 with
      ⟨u, -, h⟩ | ⟨e, -, h⟩
    · rw [h]
      obtain ⟨-, hs3, -⟩ := sweepRefresh_quiet env (revokeExpired env
        (w.store.filter (matchesFilter w.guildId Cmp.lte (env.clock w.log.length))) w2).2
      rw [hs3, hs, s2, s1, hkeep]
    · rw [h, hs, s2, s1, hkeep]
  · rename_i hlen
    have hnil : w.store.filter (matchesFilter w.guildId Cmp.lte (env.clock w.log.length)) = [] := by
      simpa using hlen
    rw [← hkeep]
    simp only [run_pure, s1]
    symm
    rw [List.filter_eq_self]
    intro r hr
    have := List.filter_eq_nil_iff.mp hnil r hr
    simpa using this

/-- C21. The store the expiry sweep leaves does not depend on the outcomes of
member fetch, role removal and direct message (nor on the rest of the guild
state): two sweeps of the same store, guild and time whose two collection
calls succeed leave the same store, the store without the expired records of
the guild; no removed record is in it, so no later sweep, at whatever time,
selects it again. -/
theorem cleanup_store_independent_of_side_effects (env1 env2 : Env) (w1 w2 : World)
    (hstore : w1.store = w2.store) (hguild : w1.guildId = w2.guildId)
    (htime : env1.clock w1.log.length = env2.clock w2.log.length)
    (hfind1 : env1.fails w1.log.length
      (Action.find w1.guildId Cmp.lte (env1.clock w1.log.length)) = false)
    (hdelete1 : env1.fails (w1.log.length + 1)
      (Action.deleteMany w1.guildId Cmp.lte (env1.clock w1.log.length)) = false)
    (hfind2 : env2.fails w2.log.length
      (Action.find w2.guildId Cmp.lte (env2.clock w2.log.length)) = false)
    (hdelete2 : env2.fails (w2.log.length + 1)
      (Action.deleteMany w2.guildId Cmp.lte (env2.clock w2.log.length)) = false) :
    (cleanupExpiredRosterEntries env1 w1).2.store = (cleanupExpiredRosterEntries env2 w2).2.store ∧
      (cleanupExpiredRosterEntries env1 w1).2.store =
        w1.store.filter (fun r => ¬ isExpired w1.guildId (env1.clock w1.log.length) r) ∧
      ∀ r, isExpired w1.guildId (env1.clock w1.log.length) r → ∀ t : Int,
        r ∉ (cleanupExpiredRosterEntries env1 w1).2.store.filter
          (matchesFilter w1.guildId Cmp.lte t) := by
  have h1 := cleanupExpiredRosterEntries_store env1 w1 hfind1 hdelete1
  have h2 := cleanupExpiredRosterEntries_store env2 w2 hfind2 hdelete2
  refine ⟨?_, h1, ?_⟩
  · rw [h1, h2, hstore, hguild, htime]
  · intro r hr t hmem
    rw [h1] at hmem
    have := (List.mem_filter.mp (List.mem_filter.mp hmem).1).2
    simp only [decide_not, Bool.not_eq_true', decide_eq_false_iff_not] at this
    exact this hr

/-- C21, at a sample guild with two expired records: a sweep in which every
member fetch, role removal and direct message is rejected and a sweep in which
every call succeeds leave the same store. -/
theorem cleanup_store_independent_of_side_effects_witness :
    revocationFailsEnv.fails 2 (Action.membersFetch 1) = true ∧
      (cleanupExpiredRosterEntries revocationFailsEnv expiredHoldersWorld).2.store =
        (cleanupExpiredRosterEntries (calmEnv 1000) expiredHoldersWorld).2.store ∧
      (cleanupExpiredRosterEntries revocationFailsEnv expiredHoldersWorld).2.store =
        expiredHoldersWorld.store.filter (fun r => ¬ isExpired expiredHoldersWorld.guildId
          (revocationFailsEnv.clock expiredHoldersWorld.log.length) r) :=
  ⟨rfl,
    (cleanup_store_independent_of_side_effects revocationFailsEnv (calmEnv 1000)
      expiredHoldersWorld expiredHoldersWorld rfl rfl rfl rfl rfl rfl rfl).1,
    (cleanup_store_independent_of_side_effects revocationFailsEnv (calmEnv 1000)
      expiredHoldersWorld expiredHoldersWorld rfl rfl rfl rfl rfl rfl rfl).2.1⟩

/-! ## The placeholder of the roster view -/

theorem header_ne_placeholder (rest : String) :
    "**🎯 Active Players (" ++ rest ≠
      "**🎯 Active Players:**\n*No players currently clocked in*" := by
  intro h
  have h1 := congrArg (fun s : String => s.data[19]?) h
  simp only [String.data_append] at h1
  rw [List.getElem?_append_left (by decide)] at h1
  revert h1
  decide

theorem roleStats_none_resolves (config : Config) (members : List Member)
    (rosterEntries : List RosterEntry)
    (h : ∀ e ∈ rosterEntries, membersCacheGet members e.userId = none) :
    roleStats config members rosterEntries = [] := by
  have hc : renderedClasses config members rosterEntries = [] := by
    unfold renderedClasses
    rw [List.filterMap_eq_nil_iff]
    intro e he
    rw [h e he]
  rw [roleStats_eq_foldl, hc]
  rfl

/-- C22. The roster part of the view is the placeholder
`No players currently clocked in` exactly when the record sequence is empty;
for a non-empty sequence of which no member resolves it is the header
`Active Players (0):` with no line; in both cases no role breakdown is
rendered: the text is the roster part followed by the help text. -/
theorem rosterContent_placeholder_iff_empty (config : Config) (members : List Member)
    (currentTime : Int) (rosterEntries : List RosterEntry) :
    (rosterContent config members currentTime rosterEntries =
        "**🎯 Active Players:**\n*No players currently clocked in*" ↔ rosterEntries = []) ∧
      (rosterEntries = [] →
        fullContent config members currentTime rosterEntries =
          "**🎯 Active Players:**\n*No players currently clocked in*" ++ helpContent) ∧
      (rosterEntries ≠ [] →
        (∀ e ∈ rosterEntries, membersCacheGet members e.userId = none) →
        rosterContent config members currentTime rosterEntries =
            "**🎯 Active Players (0):**\n" ∧
          statsContent (roleStats config members rosterEntries) = "" ∧
          fullContent config members currentTime rosterEntries =
            "**🎯 Active Players (0):**\n" ++ helpContent) := by
  refine ⟨⟨fun h => ?_, fun h => ?_⟩, fun h => ?_, fun hne hnone => ?_⟩
  · by_contra hne
    have hlen : rosterEntries.length > 0 := List.length_pos.mpr hne
    simp only [rosterContent, hlen, if_true, String.append_assoc] at h
    exact header_ne_placeholder _ h
  · subst h; rfl
  · subst h; rfl
  · have hlen : rosterEntries.length > 0 := List.length_pos.mpr hne
    have hlines : (rosterLines config members currentTime rosterEntries).filterMap id = [] := by
      rw [rosterLines_valid, List.filterMap_eq_nil_iff]
      intro e he
      rw [hnone e he]; rfl
    have hstats := roleStats_none_resolves config members rosterEntries hnone
    have hroster : rosterContent config members currentTime rosterEntries =
        "**🎯 Active Players (0):**\n" := by
      simp only [rosterContent, hlen, if_true, hlines]
      decide
    refine ⟨hroster, ?_, ?_⟩
    · rw [hstats]; rfl
    · unfold fullContent
      rw [hroster, hstats]
      rfl

/-- C22, at a sample guild: two active records of which no member resolves
render the header `Active Players (0):` and no breakdown. -/
theorem rosterContent_placeholder_iff_empty_witness :
    tankHealerEntries ≠ [] ∧
      (∀ e ∈ tankHealerEntries, membersCacheGet [] e.userId = none) ∧
      rosterContent sampleConfig [] 1000 tankHealerEntries = "**🎯 Active Players (0):**\n" ∧
      statsContent (roleStats sampleConfig [] tankHealerEntries) = "" :=
  ⟨by decide, by decide,
    ((rosterContent_placeholder_iff_empty sampleConfig [] 1000 tankHealerEntries).2.2
      (by decide) (by decide)).1,
    ((rosterContent_placeholder_iff_empty sampleConfig [] 1000 tankHealerEntries).2.2
      (by decide) (by decide)).2.1⟩

/-! ## The periodic cleanup over the guilds -/

theorem sweptGuilds_append (l1 l2 : List Action) :
    sweptGuilds (l1 ++ l2) = sweptGuilds l1 ++ sweptGuilds l2 := by
  simp [sweptGuilds, List.filterMap_append]

theorem sweptGuilds_eq_nil (l : List Action) (h : ∀ a ∈ l, isNotDueQuery a) :
    sweptGuilds l = [] := by
  induction l with
  | nil => rfl
  | cons a rest ih =>
    have ha := h a (List.mem_cons_self _ _)
    have hrest := ih (fun b hb => h b (List.mem_cons_of_mem _ hb))
    unfold sweptGuilds at hrest ⊢
    rw [List.filterMap_cons]
    cases a with
    | find g op t =>
      cases op with
      | gt => simpa using hrest
      | lte => exact absurd ha (by simp [isNotDueQuery])
    | _ => simpa using hrest

theorem deleteMany_issues (env : Env) (g : Nat) (op : Cmp) (t : Int) :
    Steps (Issues isNotDueQuery) (deleteMany env g op t) := by
  unfold deleteMany
  apply steps_call
  · intro w; exact ⟨[Action.deleteMany g op t], rfl, by simp [isNotDueQuery]⟩
  · intro w; exact ⟨[Action.deleteMany g op t], rfl, by simp [isNotDueQuery]⟩

theorem revokeExpired_issues (env : Env) (entries : List RosterEntry) :
    Steps (Issues isNotDueQuery) (revokeExpired env entries) := by
  induction entries with
  | nil => exact steps_pure (issues_refl _) _
  | cons entry rest ih =>
    show Steps (Issues isNotDueQuery) (revokeEntry env entry >>= fun _ => revokeExpired env rest)
    apply steps_bind issues_trans
    · intro w
      obtain ⟨l, hl, pl, -⟩ := revokeEntry_spec env entry w
      refine ⟨Action.membersFetch entry.userId :: l, hl, ?_⟩
      intro a ha
      rcases List.mem_cons.mp ha with rfl | h
      · trivial
      · have := pl a h
        cases a <;> trivial
    · intro _; exact ih

/-- After its first query the sweep issues no further query for due records. -/
theorem cleanup_rest_issues (env : Env) (g : Nat) (t : Int) (expiredEntries : List RosterEntry) :
    Steps (Issues isNotDueQuery)
      (if expiredEntries.length > 0 then do
        deleteMany env g Cmp.lte t
        revokeExpired env expiredEntries
        let partyFinderChannel ← channelsCacheFind env.config.PARTY_FINDER
        match partyFinderChannel with
        | some channel => updateRosterMessage env channel
        | none => pure ()
      else pure ()) := by
  split
  · apply steps_bind issues_trans (deleteMany_issues env g Cmp.lte t)
    intro _
    apply steps_bind issues_trans (revokeExpired_issues env expiredEntries)
    intro _
    refine steps_mono (fun w w1 h => issues_mono ?_ w w1 h.1) (sweepRefresh_quiet env)
    intro a ha
    cases a with
    | find g op t =>
      cases op with
      | gt => trivial
      | lte => exact absurd ha (by simp [isPanelCall])
    | _ => trivial
  · exact steps_pure (issues_refl _) _

/-- The sweep of a guild, whatever fails: its first call is the query for the
due records of the guild, and no later call is such a query. -/
theorem cleanup_log (env : Env) (w : World) :
    ∃ l, (cleanupExpiredRosterEntries env w).2.log =
        w.log ++ Action.find w.guildId Cmp.lte (env.clock w.log.length) :: l ∧
      ∀ a ∈ l, isNotDueQuery a := by
  unfold cleanupExpiredRosterEntries
  simp only [run_bind, now, getWorld]
  cases hf : env.fails w.log.length (Action.find w.guildId Cmp.lte (env.clock w.log.length)) with
  | true =>
    refine ⟨[], ?_, by simp⟩
    simp [find, call, hf]
  | false =>
    obtain ⟨w1, hw1, l1, -⟩ := find_ok env _ _ _ w hf
    rw [hw1]
    simp only []
    obtain ⟨l, hl, pl⟩ := cleanup_rest_issues env w.guildId (env.clock w.log.length)
      (w.store.filter (matchesFilter w.guildId Cmp.lte (env.clock w.log.length))) w1
    refine ⟨l, hl.trans ?_, pl⟩
    rw [l1]
    simp

/-- The cleanup tick, whatever fails: it extends the log, and the sweeps it
starts are those of the guilds, one each, in order. -/
theorem cleanupTick_log (env : Env) (guilds : List World) :
    ∀ (store : List RosterEntry) (log : List Action),
      ∃ l, (cleanupTick env guilds store log).2.2 = log ++ l ∧
        sweptGuilds l = guilds.map World.guildId := by
  induction guilds with
  | nil => intro store log; exact ⟨[], by simp [cleanupTick], rfl⟩
  | cons guild rest ih =>
    intro store log
    obtain ⟨l, hl, pl⟩ := cleanup_log env { guild with store := store, log := log }
    obtain ⟨l2, hl2, pl2⟩ := ih
      (tryCatch (cleanupExpiredRosterEntries env) (fun _ => pure ())
        { guild with store := store, log := log }).2.store
      (tryCatch (cleanupExpiredRosterEntries env) (fun _ => pure ())
        { guild with store := store, log := log }).2.log
    rw [tryCatch_world] at hl2
    refine ⟨Action.find guild.guildId Cmp.lte (env.clock log.length) :: l ++ l2, ?_, ?_⟩
    · show (cleanupTick env rest _ _).2.2 = _
      rw [tryCatch_world, hl2, hl]
      simp
    · rw [sweptGuilds_append, pl2]
      have h0 := sweptGuilds_eq_nil l pl
      have h1 : sweptGuilds (Action.find guild.guildId Cmp.lte (env.clock log.length) :: l) =
          [guild.guildId] := by
        unfold sweptGuilds at h0 ⊢
        rw [List.filterMap_cons]
        simp [h0]
      rw [h1]
      rfl

/-- C15. In the periodic cleanup tick of `onReady`, a fault in the sweep of one
guild ends that sweep only: for every list of guilds, every store and every
pattern of failures, the tick starts the sweep of every guild, once and in
order (each sweep starts with the query for the due records of its guild).
With two guilds and a store fault for the first (its calls on the collection
are rejected), the sweep of the second still runs and removes its expired
record. -/
theorem cleanupTick_sweeps_every_guild :
    (∀ (env : Env) (guilds : List World) (store : List RosterEntry) (log : List Action),
      (cleanupTick env guilds store log).2.2.take log.length = log ∧
        sweptGuilds ((cleanupTick env guilds store log).2.2.drop log.length) =
          guilds.map World.guildId) ∧
    (cleanupExpiredRosterEntries storeFaultEnv
        { bareGuild 7 with store := [⟨7, 1, 500⟩, ⟨8, 2, 500⟩] }).1 =
      Except.error (Err.rejected (Action.find 7 Cmp.lte 1000)) ∧
    (cleanupTick storeFaultEnv [bareGuild 7, bareGuild 8] [⟨7, 1, 500⟩, ⟨8, 2, 500⟩] []).2 =
      ([⟨7, 1, 500⟩],
       [Action.find 7 Cmp.lte 1000, Action.find 8 Cmp.lte 1000,
        Action.deleteMany 8 Cmp.lte 1000, Action.membersFetch 2]) := by
  refine ⟨fun env guilds store log => ?_, rfl, by decide⟩
  obtain ⟨l, hl, pl⟩ := cleanupTick_log env guilds store log
  rw [hl]
  simp [pl]

/-! ## The admin subcommands of `/setup-channels` -/

theorem deferReply_calm (env : Env) (hcalm : Calm env) (w : World) :
    deferReply env w =
      (Except.ok (), { w with log := w.log ++ [Action.deferReply], deferred := true }) := by
  simp [deferReply, call, hcalm _ _]

theorem editReply_calm (env : Env) (hcalm : Calm env) (content : String) (w : World) :
    editReply env content w =
      (Except.ok (), { w with log := w.log ++ [Action.editReply content], replied := true }) := by
  simp [editReply, call, hcalm _ _]

/-- C19 (failing input). When every call succeeds, on every guild state: the
subcommands `update-times` and `refresh-content` of `/setup-channels` reply
their progress message, throw before any refresh is started, and their final
reply is the generic error; so does `reset-buttons` on a guild that has the
clock-station channel.  None of the three issues a call on a channel. -/
theorem setupChannels_refresh_subcommands_reply_generic_error (env : Env) (hcalm : Calm env)
    (channelVerification : Option (Env → Role → M Unit)) (w : World) :
    issued (execute env channelVerification "update-times") w =
        [Action.deferReply, Action.editReply "⏰ Forcing time display updates...",
         Action.editReply genericError] ∧
      issued (execute env channelVerification "refresh-content") w =
        [Action.deferReply, Action.editReply "🎮 Refreshing content selection buttons...",
         Action.editReply genericError] ∧
      ((w.channels.find? (fun ch => ch.name == env.config.CLOCK_CHANNEL &&
            ch.type == ChannelType.GuildText)).isSome →
        issued (execute env channelVerification "reset-buttons") w =
          [Action.deferReply, Action.editReply "🔄 Resetting clock buttons to default state...",
           Action.editReply genericError]) := by
  refine ⟨?_, ?_, ?_⟩
  · simp [issued, execute, tryCatch, run_bind, deferReply_calm env hcalm,
      editReply_calm env hcalm, throwErr, getWorld]
  · simp [issued, execute, tryCatch, run_bind, deferReply_calm env hcalm,
      editReply_calm env hcalm, throwErr, getWorld]
  · intro h
    obtain ⟨clockChannel, hc⟩ := Option.isSome_iff_exists.mp h
    simp [issued, execute, tryCatch, run_bind, deferReply_calm env hcalm,
      editReply_calm env hcalm, throwErr, getWorld, channelsCacheFind, hc, imported,
      onReadyExports]

/-- C19, at a guild that has both channels, every call succeeding: the final
reply of `update-times`, of `refresh-content` and of `reset-buttons` is the
generic error; the sibling subcommand `refresh`, which imports
`updateRosterMessage` and looks the channel up, ends with its success
message. -/
theorem setupChannels_refresh_subcommands_reply_generic_error_witness :
    Calm (calmEnv 1000) ∧
      (bareChannelsWorld.channels.find? (fun ch => ch.name == (calmEnv 1000).config.CLOCK_CHANNEL &&
        ch.type == ChannelType.GuildText)).isSome = true ∧
      (replies (issued (execute (calmEnv 1000) (some verifyAndCreateMissingChannels)
        "update-times") bareChannelsWorld)).getLast? = some genericError ∧
      (replies (issued (execute (calmEnv 1000) (some verifyAndCreateMissingChannels)
        "refresh-content") bareChannelsWorld)).getLast? = some genericError ∧
      (replies (issued (execute (calmEnv 1000) (some verifyAndCreateMissingChannels)
        "reset-buttons") bareChannelsWorld)).getLast? = some genericError ∧
      (replies (issued (execute (calmEnv 1000) (some verifyAndCreateMissingChannels)
        "refresh") bareChannelsWorld)).getLast? =
        some ("✅ **Roster display refreshed!**\n\nThe party-finder channel now shows the " ++
          "latest information including player roles and helpful tips.") := by
  refine ⟨fun _ _ => rfl, by decide, ?_, ?_, ?_, by decide⟩
  · rw [(setupChannels_refresh_subcommands_reply_generic_error (calmEnv 1000) (fun _ _ => rfl)
      (some verifyAndCreateMissingChannels) bareChannelsWorld).1]
    rfl
  · rw [(setupChannels_refresh_subcommands_reply_generic_error (calmEnv 1000) (fun _ _ => rfl)
      (some verifyAndCreateMissingChannels) bareChannelsWorld).2.1]
    rfl
  · rw [(setupChannels_refresh_subcommands_reply_generic_error (calmEnv 1000) (fun _ _ => rfl)
      (some verifyAndCreateMissingChannels) bareChannelsWorld).2.2 (by decide)]
    rfl

/-! ## No duplicate panels, exactly -/

/-! ## The roster of the guild is left alone by the initial pass -/

theorem sameRoster_trans (a b c : World) (h1 : SameRoster a b) (h2 : SameRoster b c) :
    SameRoster a c :=
  ⟨h2.1.trans h1.1, h2.2.1.trans h1.2.1, h2.2.2.trans h1.2.2⟩

theorem createClockButtons_sameRoster (env : Env) (channel : Channel) :
    Steps SameRoster (createClockButtons env channel) := by
  unfold createClockButtons upsertClockMessage fetchPinned send edit pin
  repeat' first
    | apply steps_bind sameRoster_trans
    | apply steps_tryCatch sameRoster_trans
    | exact steps_call _ _ _ (fun _ => ⟨rfl, rfl, rfl⟩) (fun _ => ⟨rfl, rfl, rfl⟩)
    | exact fun _ => ⟨rfl, rfl, rfl⟩
    | split
    | intro _

theorem createContentSelectionButtons_sameRoster (env : Env) (channel : Channel) :
    Steps SameRoster (createContentSelectionButtons env channel) := by
  unfold createContentSelectionButtons upsertContentMessage messagesFetch send edit
  repeat' first
    | apply steps_bind sameRoster_trans
    | apply steps_tryCatch sameRoster_trans
    | exact steps_call _ _ _ (fun _ => ⟨rfl, rfl, rfl⟩) (fun _ => ⟨rfl, rfl, rfl⟩)
    | exact fun _ => ⟨rfl, rfl, rfl⟩
    | split
    | intro _

theorem updateRosterMessage_sameRoster (env : Env) (channel : Channel) :
    Steps SameRoster (updateRosterMessage env channel) := by
  unfold updateRosterMessage publishRoster upsertRosterMessage find fetchPinned send edit pin
  repeat' first
    | apply steps_bind sameRoster_trans
    | apply steps_tryCatch sameRoster_trans
    | exact steps_call _ _ _ (fun _ => ⟨rfl, rfl, rfl⟩) (fun _ => ⟨rfl, rfl, rfl⟩)
    | exact fun _ => ⟨rfl, rfl, rfl⟩
    | split
    | intro _

theorem provisionAndSchedule_sameRoster (env : Env) (role : Role) (c p : Channel) :
    Steps SameRoster (provisionAndSchedule env role c p) := by
  unfold provisionAndSchedule
  repeat' first
    | exact createClockButtons_sameRoster _ _
    | exact createContentSelectionButtons_sameRoster _ _
    | exact updateRosterMessage_sameRoster _ _
    | apply steps_bind sameRoster_trans
    | exact fun _ => ⟨rfl, rfl, rfl⟩
    | intro _

theorem ensureContentRoles_sameRoster (env : Env) :
    ∀ types : List (String × String), Steps SameRoster (ensureContentRoles env types) := by
  intro types
  induction types with
  | nil => exact fun _ => ⟨rfl, rfl, rfl⟩
  | cons e rest ih =>
    obtain ⟨key, roleName⟩ := e
    unfold ensureContentRoles createRoleIfMissing rolesCreate
    repeat' first
      | exact ih
      | apply steps_bind sameRoster_trans
      | apply steps_tryCatch sameRoster_trans
      | exact steps_call _ _ _ (fun _ => ⟨rfl, rfl, rfl⟩) (fun _ => ⟨rfl, rfl, rfl⟩)
      | exact fun _ => ⟨rfl, rfl, rfl⟩
      | split
      | intro _

theorem initializeRosterSystem_sameRoster (env : Env) :
    Steps SameRoster (initializeRosterSystem env) := by
  unfold initializeRosterSystem createRoleIfMissing createIfMissing rolesCreate channelsCreate
  repeat' first
    | exact ensureContentRoles_sameRoster _ _
    | exact provisionAndSchedule_sameRoster _ _ _ _
    | apply steps_bind sameRoster_trans
    | apply steps_tryCatch sameRoster_trans
    | exact steps_call _ _ _ (fun _ => ⟨rfl, rfl, rfl⟩) (fun _ => ⟨rfl, rfl, rfl⟩)
    | exact fun _ => ⟨rfl, rfl, rfl⟩
    | split
    | intro _

theorem rosterText_sameRoster (env : Env) (w w1 : World) (k : Nat) (h : SameRoster w w1) :
    rosterText env w1 k = rosterText env w k := by
  unfold rosterText
  rw [h.1, h.2.1, h.2.2]

/-- A first run of `updateRosterMessage`, with the text it renders. -/
theorem updateRosterMessage_new_text {env : Env} (hcalm : Calm env) (p : Channel) (w : World)
    (hnone : (w.pins.filterMap (fun id => (chanMsgs w p.id).find? (fun m => m.id == id))).find?
      (fun msg => msg.authorId == w.me) = none) (hfree : w.nextId ∉ w.pins) :
    ∃ w1, updateRosterMessage env p w = (Except.ok (), w1) ∧
      w1.log = w.log ++ [Action.find w.guildId Cmp.gt (env.clock w.log.length),
        Action.fetchPinned p.id, Action.send p.id (rosterText env w w.log.length),
        Action.pin w.nextId, Action.edit w.nextId (rosterText env w w.log.length) none] ∧
      w1.messages = (⟨w.nextId, p.id, w.me, rosterText env w w.log.length, []⟩ ::
        w.messages).map (applyEdit w.nextId (rosterText env w w.log.length) none) ∧
      w1.pins = w.nextId :: w.pins ∧ w1.nextId = w.nextId + 1 ∧ w1.me = w.me := by
  obtain ⟨w1, text, r, l, m, hp, hn, he⟩ := updateRosterMessage_new hcalm p w hnone hfree
  have hmem : Action.send p.id text ∈ issued (updateRosterMessage env p) w := by
    unfold issued; rw [r, l]; simp
  have ht : text = rosterText env w w.log.length :=
    updateRosterMessage_texts env p w (hcalm _ _) _ hmem text rfl
  subst ht
  exact ⟨w1, r, l, m, hp, hn, he⟩

/-- A run of `updateRosterMessage` whose lookup finds the message `m`, with the
text it renders. -/
theorem updateRosterMessage_again_text {env : Env} (hcalm : Calm env) (p : Channel) (w : World)
    (m : Message)
    (hfound : (w.pins.filterMap (fun id => (chanMsgs w p.id).find? (fun m => m.id == id))).find?
      (fun msg => msg.authorId == w.me) = some m) :
    ∃ w1, updateRosterMessage env p w = (Except.ok (), w1) ∧
      w1.log = w.log ++ [Action.find w.guildId Cmp.gt (env.clock w.log.length),
        Action.fetchPinned p.id, Action.edit m.id (rosterText env w w.log.length) none,
        Action.edit m.id (rosterText env w w.log.length) none] ∧
      w1.messages = (w.messages.map (applyEdit m.id (rosterText env w w.log.length) none)).map
        (applyEdit m.id (rosterText env w w.log.length) none) ∧
      w1.pins = w.pins ∧ w1.nextId = w.nextId ∧ w1.me = w.me := by
  obtain ⟨w1, text, r, l, hm, hp, hn, he⟩ := updateRosterMessage_again hcalm p w m hfound
  have hmem : Action.edit m.id text none ∈ issued (updateRosterMessage env p) w := by
    unfold issued; rw [r, l]; simp
  have ht : text = rosterText env w w.log.length :=
    updateRosterMessage_texts env p w (hcalm _ _) _ hmem text rfl
  subst ht
  exact ⟨w1, r, l, hm, hp, hn, he⟩

/-- A first provisioning, exactly: from two ready channels to the three panels,
the roster message with the text rendered for the guild and no button. -/
theorem provisionAndSchedule_new_exact {env : Env} (hcalm : Calm env) (role : Role)
    (c p : Channel) (w : World) (hready : Ready w c p) :
    ∃ w1 k, provisionAndSchedule env role c p w = (Except.ok (), w1) ∧
      Panels w1 c p w.nextId (rosterText env w k) ∧ w1.me = w.me := by
  obtain ⟨hcp, hc, hp, hpins⟩ := hready
  have hfree : ∀ k, w.nextId ≤ k → k ∉ w.pins := fun k hk hmem => by
    have := hpins k hmem; omega
  -- the clock panel
  obtain ⟨w1, r1, -, m1, p1, n1, e1⟩ := createClockButtons_new hcalm c w hc (hfree _ (le_refl _))
  have s1 := createClockButtons_sameRoster env c w
  rw [r1] at s1
  have hc1 : chanMsgs w1 c.id = [⟨w.nextId, c.id, w.me, clockContent, [clockRow]⟩] := by
    unfold chanMsgs at hc ⊢
    rw [m1, filter_map_applyEdit, List.filter_cons]
    simp [hc, applyEdit]
  have hp1 : chanMsgs w1 p.id = [] := by
    unfold chanMsgs at hp ⊢
    rw [m1, filter_map_applyEdit, List.filter_cons]
    simp [hp, hcp]
  -- the content panel
  obtain ⟨w2, r2, -, m2, p2, n2, e2⟩ := createContentSelectionButtons_new hcalm p w1
    (by rw [hp1]; rfl)
  have s2 := createContentSelectionButtons_sameRoster env p w1
  rw [r2] at s2
  have hc2 : chanMsgs w2 c.id = [⟨w.nextId, c.id, w.me, clockContent, [clockRow]⟩] := by
    unfold chanMsgs at hc1 ⊢
    rw [m2, filter_map_applyEdit, List.filter_cons]
    simp [hc1, applyEdit, hcp.symm, n1]
  have hp2 : chanMsgs w2 p.id =
      [⟨w.nextId + 1, p.id, w.me, contentSelectionContent, contentRows⟩] := by
    unfold chanMsgs at hp1 ⊢
    rw [m2, filter_map_applyEdit, List.filter_cons]
    simp [hp1, applyEdit, n1, e1]
  -- the roster
  have hlook : (w2.pins.filterMap
      (fun id => (chanMsgs w2 p.id).find? (fun m => m.id == id))).find?
      (fun msg => msg.authorId == w2.me) = none := by
    rw [hp2, p2, p1, List.filterMap_cons]
    have hold := filterMap_older w.pins
      [⟨w.nextId + 1, p.id, w.me, contentSelectionContent, contentRows⟩] w.nextId hpins
      (by simp)
    have hnew : List.find? (fun m : Message => m.id == w.nextId)
        [⟨w.nextId + 1, p.id, w.me, contentSelectionContent, contentRows⟩] = none := by
      simp
    rw [hnew, hold]
    rfl
  obtain ⟨w3, r3, -, m3, p3, n3, e3⟩ := updateRosterMessage_new_text hcalm p w2 hlook
    (by rw [p2, p1, n2, n1]
        simp only [List.mem_cons, not_or]
        exact ⟨by omega, hfree _ (by omega)⟩)
  have htext : rosterText env w2 w2.log.length = rosterText env w w2.log.length :=
    rosterText_sameRoster env w w2 _ (sameRoster_trans _ _ _ s1 s2)
  rw [htext] at m3
  obtain ⟨text, htx⟩ : ∃ text, text = rosterText env w w2.log.length := ⟨_, rfl⟩
  rw [← htx] at m3
  have hc3 : chanMsgs w3 c.id = [⟨w.nextId, c.id, w.me, clockContent, [clockRow]⟩] := by
    unfold chanMsgs at hc2 ⊢
    rw [m3, filter_map_applyEdit, List.filter_cons]
    simp [hc2, applyEdit, hcp.symm, n1, n2]
    intro h
    omega
  have hp3 : chanMsgs w3 p.id =
      [⟨w.nextId + 2, p.id, w.me, text, []⟩,
       ⟨w.nextId + 1, p.id, w.me, contentSelectionContent, contentRows⟩] := by
    unfold chanMsgs at hp2 ⊢
    rw [m3, filter_map_applyEdit, List.filter_cons]
    simp [hp2, applyEdit, n1, n2, e1, e2]
  have hrun : provisionAndSchedule env role c p w =
      (Except.ok (), (provisionAndSchedule env role c p w).2) ∧
      (provisionAndSchedule env role c p w).2.messages = w3.messages ∧
      (provisionAndSchedule env role c p w).2.pins = w3.pins ∧
      (provisionAndSchedule env role c p w).2.nextId = w3.nextId ∧
      (provisionAndSchedule env role c p w).2.me = w3.me := by
    unfold provisionAndSchedule
    simp [run_bind, r1, r2, r3, getWorld, setInterval]
  obtain ⟨hr, hm, hpn, hn, he⟩ := hrun
  have hcm : ∀ x, chanMsgs (provisionAndSchedule env role c p w).2 x = chanMsgs w3 x := by
    intro x; unfold chanMsgs; rw [hm]
  refine ⟨_, w2.log.length, hr, ⟨hcp, ⟨w.pins, ?_, hpins⟩, ?_, ?_, ?_⟩, ?_⟩
  · rw [hpn, p3, p2, p1, n2, n1]
  · rw [hn, n3, n2, n1]
  · rw [hcm, hc3, he, e3, e2, e1]
  · rw [hcm, hp3, he, e3, e2, e1, htx]
  · rw [he, e3, e2, e1]

/-- A pass over the three panels whose roster text does not contain the marker
of the content-panel lookup, exactly: each panel is found and edited in place,
nothing is sent, and each keeps its own content. -/
theorem provisionAndSchedule_again_exact {env : Env} (hcalm : Calm env) (role : Role)
    (c p : Channel) (w : World) (n : Nat) (text : String) (hpanels : Panels w c p n text)
    (hinc : includes text "Content Selection" = false) :
    ∃ w1 k, provisionAndSchedule env role c p w = (Except.ok (), w1) ∧
      Panels w1 c p n (rosterText env w k) ∧ w1.nextId = w.nextId ∧ w1.me = w.me ∧
      issued (provisionAndSchedule env role c p) w =
        [Action.fetchPinned c.id, Action.edit n clockContent none,
         Action.edit n clockContent (some [clockRow]),
         Action.messagesFetch p.id 10, Action.edit (n + 1) contentSelectionContent none,
         Action.edit (n + 1) contentSelectionContent (some contentRows),
         Action.find w.guildId Cmp.gt (env.clock k),
         Action.fetchPinned p.id, Action.edit (n + 2) (rosterText env w k) none,
         Action.edit (n + 2) (rosterText env w k) none] := by
  obtain ⟨hcp, ⟨old, hpins, hold⟩, hnext, hc, hp⟩ := hpanels
  -- the clock panel is found
  have hlook1 : (w.pins.filterMap
      (fun id => (chanMsgs w c.id).find? (fun m => m.id == id))).find?
      (fun msg => msg.authorId == w.me) =
      some ⟨n, c.id, w.me, clockContent, [clockRow]⟩ := by
    rw [hc, hpins, List.filterMap_cons, List.filterMap_cons]
    have h0 := filterMap_older old [⟨n, c.id, w.me, clockContent, [clockRow]⟩] n hold (by simp)
    have h1 : List.find? (fun m : Message => m.id == n + 2)
        [⟨n, c.id, w.me, clockContent, [clockRow]⟩] = none := by simp
    have h2 : List.find? (fun m : Message => m.id == n)
        [⟨n, c.id, w.me, clockContent, [clockRow]⟩] =
        some ⟨n, c.id, w.me, clockContent, [clockRow]⟩ := by simp
    rw [h1, h2, h0]
    simp
  obtain ⟨w1, r1, l1, m1, p1, n1, e1⟩ := createClockButtons_again hcalm c w _ hlook1
  have s1 := createClockButtons_sameRoster env c w
  rw [r1] at s1
  have hc1 : chanMsgs w1 c.id = [⟨n, c.id, w.me, clockContent, [clockRow]⟩] := by
    unfold chanMsgs at hc ⊢
    rw [m1, filter_map_applyEdit, filter_map_applyEdit, hc]
    simp [applyEdit]
  have hp1 : chanMsgs w1 p.id =
      [⟨n + 2, p.id, w.me, text, []⟩,
       ⟨n + 1, p.id, w.me, contentSelectionContent, contentRows⟩] := by
    unfold chanMsgs at hp ⊢
    rw [m1, filter_map_applyEdit, filter_map_applyEdit, hp]
    simp [applyEdit]
  -- the content panel is found: the roster message does not carry the marker
  have hfind2 : ((chanMsgs w1 p.id).take 10).find? (fun msg =>
      msg.authorId == w1.me && includes msg.content "Content Selection") =
      some ⟨n + 1, p.id, w.me, contentSelectionContent, contentRows⟩ := by
    rw [hp1, e1]
    simp [List.find?_cons, hinc, includes_contentSelectionContent]
  obtain ⟨w2, r2, l2, m2, p2, n2, e2⟩ := createContentSelectionButtons_again hcalm p w1 _ hfind2
  have s2 := createContentSelectionButtons_sameRoster env p w1
  rw [r2] at s2
  simp only at l2 m2
  have hc2 : chanMsgs w2 c.id = [⟨n, c.id, w.me, clockContent, [clockRow]⟩] := by
    unfold chanMsgs at hc1 ⊢
    rw [m2, filter_map_applyEdit, filter_map_applyEdit, hc1]
    simp [applyEdit]
  have hp2 : chanMsgs w2 p.id =
      [⟨n + 2, p.id, w.me, text, []⟩,
       ⟨n + 1, p.id, w.me, contentSelectionContent, contentRows⟩] := by
    unfold chanMsgs at hp1 ⊢
    rw [m2, filter_map_applyEdit, filter_map_applyEdit, hp1]
    simp [applyEdit]
  -- the roster is found
  have hlook3 : (w2.pins.filterMap
      (fun id => (chanMsgs w2 p.id).find? (fun m => m.id == id))).find?
      (fun msg => msg.authorId == w2.me) = some ⟨n + 2, p.id, w.me, text, []⟩ := by
    rw [hp2, p2, p1, hpins, e2, e1, List.filterMap_cons, List.filterMap_cons]
    have h0 := filterMap_older old
      [⟨n + 2, p.id, w.me, text, []⟩,
       ⟨n + 1, p.id, w.me, contentSelectionContent, contentRows⟩] n hold (by simp)
    have h1 : List.find? (fun m : Message => m.id == n + 2)
        [⟨n + 2, p.id, w.me, text, []⟩,
         ⟨n + 1, p.id, w.me, contentSelectionContent, contentRows⟩] =
        some ⟨n + 2, p.id, w.me, text, []⟩ := by simp
    have h2 : List.find? (fun m : Message => m.id == n)
        [⟨n + 2, p.id, w.me, text, []⟩,
         ⟨n + 1, p.id, w.me, contentSelectionContent, contentRows⟩] = none := by simp
    rw [h1, h2, h0]
    simp
  obtain ⟨w3, r3, l3, m3, p3, n3, e3⟩ := updateRosterMessage_again_text hcalm p w2 _ hlook3
  have s12 : SameRoster w w2 := sameRoster_trans _ _ _ s1 s2
  have htext : rosterText env w2 w2.log.length = rosterText env w w2.log.length :=
    rosterText_sameRoster env w w2 _ s12
  rw [htext, s12.2.2] at l3
  rw [htext] at m3
  simp only at l3 m3
  obtain ⟨text3, htx⟩ : ∃ text3, text3 = rosterText env w w2.log.length := ⟨_, rfl⟩
  rw [← htx] at m3 l3
  have hc3 : chanMsgs w3 c.id = [⟨n, c.id, w.me, clockContent, [clockRow]⟩] := by
    unfold chanMsgs at hc2 ⊢
    rw [m3, filter_map_applyEdit, filter_map_applyEdit, hc2]
    simp [applyEdit]
  have hp3 : chanMsgs w3 p.id =
      [⟨n + 2, p.id, w.me, text3, []⟩,
       ⟨n + 1, p.id, w.me, contentSelectionContent, contentRows⟩] := by
    unfold chanMsgs at hp2 ⊢
    rw [m3, filter_map_applyEdit, filter_map_applyEdit, hp2]
    simp [applyEdit]
  have hrun : provisionAndSchedule env role c p w =
      (Except.ok (), (provisionAndSchedule env role c p w).2) ∧
      (provisionAndSchedule env role c p w).2.messages = w3.messages ∧
      (provisionAndSchedule env role c p w).2.pins = w3.pins ∧
      (provisionAndSchedule env role c p w).2.nextId = w3.nextId ∧
      (provisionAndSchedule env role c p w).2.me = w3.me ∧
      (provisionAndSchedule env role c p w).2.log = w3.log := by
    unfold provisionAndSchedule
    simp [run_bind, r1, r2, r3, getWorld, setInterval]
  obtain ⟨hr, hm, hpn, hn, he, hl⟩ := hrun
  have hcm : ∀ x, chanMsgs (provisionAndSchedule env role c p w).2 x = chanMsgs w3 x := by
    intro x; unfold chanMsgs; rw [hm]
  refine ⟨_, w2.log.length, hr, ⟨hcp, ⟨old, ?_, hold⟩, ?_, ?_, ?_⟩, ?_, ?_, ?_⟩
  · rw [hpn, p3, p2, p1, hpins]
  · rw [hn, n3, n2, n1]; exact hnext
  · rw [hcm, hc3, he, e3, e2, e1]
  · rw [hcm, hp3, he, e3, e2, e1, htx]
  · rw [hn, n3, n2, n1]
  · rw [he, e3, e2, e1]
  · have hk : w2.log.length = w.log.length + 6 := by rw [l2, l1]; simp
    unfold issued
    rw [hl, l3, l2, l1, htx]
    simp [hk]

/-! ## No duplicate panels -/

/-- C7 (amended). After two consecutive passes of `initializeRosterSystem` in
which every call succeeds, over a guild whose clock-station and party-finder
channels (of different names) held no message before the first pass and whose
roster text does not contain `Content Selection`, the marker of the
content-panel lookup: each surface has exactly one message, authored by the
bot and with its own content (`Panels`): the clock-station channel holds the
pinned clock panel and nothing else, the party-finder channel holds the pinned
roster message, without buttons, and the content panel, not pinned, and
nothing else.  The second pass sends no message: its calls are the three
lookups and, for each of the three messages the first pass created, two edits
in place.  A verification pass over a guild that has both channels provisions
nothing: it issues no call. -/
theorem initializeRosterSystem_twice_one_panel_per_surface (env env2 : Env) (w : World)
    (hcalm : Calm env) (hcalm2 : Calm env2) (hconfig : env2.config = env.config)
    (hnames : env.config.CLOCK_CHANNEL ≠ env.config.PARTY_FINDER)
    (hfresh : Fresh env.config w)
    (hmarker : ∀ k, includes (rosterText env w k) "Content Selection" = false) :
    (∃ c p n k1 k2,
        (initializeRosterSystem env2 (initializeRosterSystem env w).2).2.channels.find?
          (isTextChannelNamed env.config.CLOCK_CHANNEL) = some c ∧
        (initializeRosterSystem env2 (initializeRosterSystem env w).2).2.channels.find?
          (isTextChannelNamed env.config.PARTY_FINDER) = some p ∧
        Panels (initializeRosterSystem env w).2 c p n (rosterText env w k1) ∧
        Panels (initializeRosterSystem env2 (initializeRosterSystem env w).2).2 c p n
          (rosterText env2 w k2) ∧
        issued (initializeRosterSystem env2) (initializeRosterSystem env w).2 =
          [Action.fetchPinned c.id, Action.edit n clockContent none,
           Action.edit n clockContent (some [clockRow]),
           Action.messagesFetch p.id 10, Action.edit (n + 1) contentSelectionContent none,
           Action.edit (n + 1) contentSelectionContent (some contentRows),
           Action.find w.guildId Cmp.gt (env2.clock k2),
           Action.fetchPinned p.id, Action.edit (n + 2) (rosterText env2 w k2) none,
           Action.edit (n + 2) (rosterText env2 w k2) none]) ∧
      (∀ (role : Role) (v : World), hasTextChannel v env.config.CLOCK_CHANNEL →
        hasTextChannel v env.config.PARTY_FINDER →
        issued (verifyAndCreateMissingChannels env role) v = []) := by
  refine ⟨?_, fun role v hc hp => ?_⟩
  · obtain ⟨role, c, p, w4, hrun, hready, hrole, htypes, hc, hp⟩ :=
      initializeRosterSystem_first hcalm w hnames hfresh
    obtain ⟨w5, k1, r5, hpanels, -⟩ := provisionAndSchedule_new_exact hcalm role c p w4 hready
    obtain ⟨hch, hro⟩ := provisionAndSchedule_guild env role c p w4
    have s05 := initializeRosterSystem_sameRoster env w
    have s45 := provisionAndSchedule_sameRoster env role c p w4
    rw [hrun, r5] at s05
    rw [r5] at s45
    rw [hrun, r5]
    rw [r5] at hch hro
    simp only at hch hro s05 s45 ⊢
    have s04 : SameRoster w w4 :=
      ⟨s45.1.symm.trans s05.1, s45.2.1.symm.trans s05.2.1, s45.2.2.symm.trans s05.2.2⟩
    rw [rosterText_sameRoster env w w4 k1 s04] at hpanels
    have hfound : initializeRosterSystem env2 w5 = provisionAndSchedule env2 role c p w5 := by
      apply initializeRosterSystem_found
      · rw [hconfig, hro]; exact hrole
      · rw [hconfig, hro]; exact htypes
      · rw [hconfig, hch]; exact hc
      · rw [hconfig, hch]; exact hp
    obtain ⟨w6, k2, r6, hpanels2, -, -, hlog⟩ :=
      provisionAndSchedule_again_exact hcalm2 role c p w5 w4.nextId _ hpanels (hmarker k1)
    obtain ⟨hch2, -⟩ := provisionAndSchedule_guild env2 role c p w5
    rw [r6] at hch2
    simp only at hch2
    rw [rosterText_sameRoster env2 w w5 k2 s05] at hpanels2 hlog
    rw [s05.2.2] at hlog
    have hiss : issued (initializeRosterSystem env2) w5 =
        issued (provisionAndSchedule env2 role c p) w5 := by
      unfold issued; rw [hfound]
    refine ⟨c, p, w4.nextId, k1, k2, ?_, ?_, hpanels, ?_, ?_⟩
    · rw [hfound, r6]; simp only; rw [hch2, hch]; exact hc
    · rw [hfound, r6]; simp only; rw [hch2, hch]; exact hp
    · rw [hfound, r6]; exact hpanels2
    · rw [hiss]; exact hlog
  · unfold issued
    rw [verifyAndCreateMissingChannels_found env role v hc hp]
    simp

set_option maxRecDepth 100000 in
theorem sampleWorld_rosterText_no_marker :
    includes (fullContent sampleConfig [] 1000
      ([⟨7, 1, 500⟩, ⟨7, 2, 5000⟩, ⟨8, 3, 500⟩].filter (fun r => isActive 7 1000 r)))
      "Content Selection" = false := by
  decide

/-- C7, at a guild without channels and messages: every call succeeds, the
names differ, the world is fresh and the roster text does not contain the
marker; the second pass edits the three messages of the first and sends
nothing. -/
theorem initializeRosterSystem_twice_one_panel_per_surface_witness :
    Calm (calmEnv 1000) ∧ Calm (calmEnv 2000) ∧
      (calmEnv 2000).config = (calmEnv 1000).config ∧
      (calmEnv 1000).config.CLOCK_CHANNEL ≠ (calmEnv 1000).config.PARTY_FINDER ∧
      Fresh (calmEnv 1000).config sampleWorld ∧
      (∀ k, includes (rosterText (calmEnv 1000) sampleWorld k) "Content Selection" = false) ∧
      ∃ c p n k1 k2,
        (initializeRosterSystem (calmEnv 2000)
          (initializeRosterSystem (calmEnv 1000) sampleWorld).2).2.channels.find?
          (isTextChannelNamed (calmEnv 1000).config.CLOCK_CHANNEL) = some c ∧
        (initializeRosterSystem (calmEnv 2000)
          (initializeRosterSystem (calmEnv 1000) sampleWorld).2).2.channels.find?
          (isTextChannelNamed (calmEnv 1000).config.PARTY_FINDER) = some p ∧
        Panels (initializeRosterSystem (calmEnv 1000) sampleWorld).2 c p n
          (rosterText (calmEnv 1000) sampleWorld k1) ∧
        Panels (initializeRosterSystem (calmEnv 2000)
          (initializeRosterSystem (calmEnv 1000) sampleWorld).2).2 c p n
          (rosterText (calmEnv 2000) sampleWorld k2) ∧
        issued (initializeRosterSystem (calmEnv 2000))
            (initializeRosterSystem (calmEnv 1000) sampleWorld).2 =
          [Action.fetchPinned c.id, Action.edit n clockContent none,
           Action.edit n clockContent (some [clockRow]),
           Action.messagesFetch p.id 10, Action.edit (n + 1) contentSelectionContent none,
           Action.edit (n + 1) contentSelectionContent (some contentRows),
           Action.find sampleWorld.guildId Cmp.gt ((calmEnv 2000).clock k2),
           Action.fetchPinned p.id,
           Action.edit (n + 2) (rosterText (calmEnv 2000) sampleWorld k2) none,
           Action.edit (n + 2) (rosterText (calmEnv 2000) sampleWorld k2) none] :=
  have hfresh : Fresh (calmEnv 1000).config sampleWorld :=
    ⟨by simp [sampleWorld], by simp [sampleWorld], by simp [sampleWorld],
      by simp [sampleWorld], by simp [sampleWorld]⟩
  ⟨fun _ _ => rfl, fun _ _ => rfl, rfl, by decide, hfresh,
    fun _ => sampleWorld_rosterText_no_marker,
    (initializeRosterSystem_twice_one_panel_per_surface (calmEnv 1000) (calmEnv 2000)
      sampleWorld (fun _ _ => rfl) (fun _ _ => rfl) rfl (by decide) hfresh
      (fun _ => sampleWorld_rosterText_no_marker)).1⟩

set_option maxRecDepth 100000 in
/-- C7 (counterexamples). Two consecutive verification passes in which every
call succeeds, over a guild that has both channels and no message: neither pass
issues a call, and no message exists afterwards for any surface.  And two
consecutive passes of `initializeRosterSystem` in which every call succeeds,
over a guild without messages whose one active member has the display name
`Content Selection`: the roster text of the first pass carries the marker of
the content-panel lookup, so the second pass takes the roster message (104)
for the content panel; it never edits the content panel (103), and the roster
message ends with the rows of content buttons. -/
theorem verifyAndCreateMissingChannels_twice_no_panel :
    (hasTextChannel bareChannelsWorld "clock-station" ∧
      hasTextChannel bareChannelsWorld "party-finder" ∧
      issued (verifyAndCreateMissingChannels (calmEnv 1000) ⟨60, "Clocked In", 0x00ff00, false⟩)
        bareChannelsWorld = [] ∧
      issued (verifyAndCreateMissingChannels (calmEnv 2000) ⟨60, "Clocked In", 0x00ff00, false⟩)
        (verifyAndCreateMissingChannels (calmEnv 1000) ⟨60, "Clocked In", 0x00ff00, false⟩
          bareChannelsWorld).2 = [] ∧
      (verifyAndCreateMissingChannels (calmEnv 2000) ⟨60, "Clocked In", 0x00ff00, false⟩
        (verifyAndCreateMissingChannels (calmEnv 1000) ⟨60, "Clocked In", 0x00ff00, false⟩
          bareChannelsWorld).2).2.messages = []) ∧
    (Fresh sampleConfig markerNameWorld ∧
      includes (rosterText (calmEnv 1000) markerNameWorld 0) "Content Selection" = true ∧
      (chanMsgs (initializeRosterSystem (calmEnv 1000) markerNameWorld).2 50).map
          (fun m => (m.id, m.components.length)) = [(104, 0), (103, 2)] ∧
      editedIds (issued (initializeRosterSystem (calmEnv 2000))
          (initializeRosterSystem (calmEnv 1000) markerNameWorld).2) =
        [102, 102, 104, 104, 104, 104] ∧
      (chanMsgs (initializeRosterSystem (calmEnv 2000)
          (initializeRosterSystem (calmEnv 1000) markerNameWorld).2).2 50).map
          (fun m => (m.id, m.components.length)) = [(104, 2), (103, 2)]) := by
  refine ⟨⟨⟨sampleClockChannel, by decide, rfl, rfl⟩, ⟨sampleChannel, by decide, rfl, rfl⟩,
    by decide, by decide, by decide⟩,
    ⟨by simp [markerNameWorld], by simp [markerNameWorld], by simp [markerNameWorld, sampleClockChannel, sampleChannel],
      by simp [markerNameWorld, sampleClockChannel, sampleChannel], by simp [markerNameWorld]⟩,
    by decide, by decide, by decide, by decide⟩

/-! ## The lookups select by pin and author -/

theorem find?_id_of_nodup (msgs : List Message) (m : Message)
    (hnodup : (msgs.map (fun x => x.id)).Nodup) (hm : m ∈ msgs) :
    msgs.find? (fun x => x.id == m.id) = some m := by
  induction msgs with
  | nil => cases hm
  | cons a rest ih =>
    rw [List.map_cons, List.nodup_cons] at hnodup
    rcases List.mem_cons.mp hm with rfl | hin
    · simp [List.find?_cons]
    · have hne : a.id ≠ m.id := fun h =>
        hnodup.1 (h ▸ List.mem_map_of_mem (fun x => x.id) hin)
      simp [List.find?_cons, hne, ih hnodup.2 hin]

/-- The message the lookup `pins.find(msg => msg.author.id === me.id)` finds is
the first message of the bot in pin order: no pin before it is a message of the
bot in the channel. -/
theorem pinned_lookup_first (pins : List Nat) (msgs : List Message) (me : Nat) (m1 : Message)
    (hnodup : (msgs.map (fun x => x.id)).Nodup)
    (h : (pins.filterMap (fun id => msgs.find? (fun x => x.id == id))).find?
      (fun msg => msg.authorId == me) = some m1) :
    ∃ pre post, pins = pre ++ m1.id :: post ∧
      ∀ j ∈ pre, ∀ x ∈ msgs, x.id = j → x.authorId ≠ me := by
  induction pins with
  | nil => simp at h
  | cons j rest ih =>
    rw [List.filterMap_cons] at h
    cases hf : msgs.find? (fun x => x.id == j) with
    | none =>
      rw [hf] at h
      obtain ⟨pre, post, hp, hpre⟩ := ih h
      refine ⟨j :: pre, post, by rw [hp]; rfl, ?_⟩
      intro k hk x hx hid
      rcases List.mem_cons.mp hk with rfl | hk
      · rw [List.find?_eq_none] at hf
        exact absurd (by simpa using hid) (hf x hx)
      · exact hpre k hk x hx hid
    | some x0 =>
      rw [hf] at h
      simp only [List.find?_cons] at h
      cases hp0 : (x0.authorId == me) with
      | true =>
        have hj : x0.id = j := by simpa using List.find?_some hf
        have hm : x0 = m1 := by simpa [hp0] using h
        subst hm
        exact ⟨[], rest, by rw [hj]; rfl, by simp⟩
      | false =>
        rw [hp0] at h
        obtain ⟨pre, post, hp, hpre⟩ := ih h
        refine ⟨j :: pre, post, by rw [hp]; rfl, ?_⟩
        intro k hk x hx hid
        rcases List.mem_cons.mp hk with rfl | hk
        · have hx0 := find?_id_of_nodup msgs x hnodup hx
          rw [hid, hf] at hx0
          cases hx0
          simpa using hp0
        · exact hpre k hk x hx hid

/-- In a channel that holds a pinned message of the bot, the lookup
`pins.find(msg => msg.author.id === me.id)` finds a pinned message of the bot
in the channel, the first in pin order. -/
theorem pinned_lookup_some (w : World) (channelId : Nat) (m : Message)
    (hnodup : (w.messages.map (fun x => x.id)).Nodup)
    (hm : m ∈ w.messages) (hchan : m.channelId = channelId) (hpin : m.id ∈ w.pins)
    (hme : m.authorId = w.me) :
    ∃ m1, (w.pins.filterMap (fun id => (chanMsgs w channelId).find?
        (fun x => x.id == id))).find? (fun msg => msg.authorId == w.me) = some m1 ∧
      m1 ∈ w.messages ∧ m1.channelId = channelId ∧ m1.id ∈ w.pins ∧ m1.authorId = w.me ∧
      ∃ pre post, w.pins = pre ++ m1.id :: post ∧
        ∀ j ∈ pre, ∀ x ∈ w.messages, x.channelId = channelId → x.id = j →
          x.authorId ≠ w.me := by
  have hsub : ((chanMsgs w channelId).map (fun x => x.id)).Nodup := by
    unfold chanMsgs
    exact List.Nodup.sublist (List.Sublist.map _ (List.filter_sublist _)) hnodup
  have hmc : m ∈ chanMsgs w channelId := by
    unfold chanMsgs; simp [List.mem_filter, hm, hchan]
  have hfound : m ∈ w.pins.filterMap (fun id => (chanMsgs w channelId).find?
      (fun x => x.id == id)) :=
    List.mem_filterMap.mpr ⟨m.id, hpin, find?_id_of_nodup _ m hsub hmc⟩
  cases hres : (w.pins.filterMap (fun id => (chanMsgs w channelId).find?
      (fun x => x.id == id))).find? (fun msg => msg.authorId == w.me) with
  | none =>
    rw [List.find?_eq_none] at hres
    exact absurd (by simpa using hme) (hres m hfound)
  | some m1 =>
    have hp := List.find?_some hres
    obtain ⟨j, hj, hfj⟩ := List.mem_filterMap.mp (List.mem_of_find?_eq_some hres)
    have hin := List.mem_of_find?_eq_some hfj
    have hid := List.find?_some hfj
    unfold chanMsgs at hin
    rw [List.mem_filter] at hin
    obtain ⟨pre, post, hpins, hpre⟩ := pinned_lookup_first _ _ _ _ hsub hres
    refine ⟨m1, rfl, hin.1, by simpa using hin.2, ?_, by simpa using hp, pre, post, hpins, ?_⟩
    · have : m1.id = j := by simpa using hid
      rw [this]; exact hj
    · intro k hk x hx hxc hxid
      exact hpre k hk x (by unfold chanMsgs; simp [List.mem_filter, hx, hxc]) hxid

/-- C8 (amended). What the lookup of each panel selects, that is, the message
the function edits in place instead of sending a new one.  Only if: every edit
of a panel function is an edit of a message of the channel that the bot
authored and that is pinned (clock panel, roster panel), or of a message among
the ten newest of the channel that the bot authored and whose content contains
`Content Selection` (content panel), or of the message the function has just
sent.  If: when every call succeeds and message ids are unique, in a channel
that holds a pinned message of the bot, whatever its content, `createClockButtons`
and `updateRosterMessage` send nothing and edit a pinned message of the bot in
place, the first in pin order (no pin before it is a message of the bot in the
channel): the content of the messages plays no part in the choice; and in a channel that holds, among its ten newest messages, a message of
the bot whose content contains `Content Selection`,
`createContentSelectionButtons` sends nothing and edits such a message in
place. -/
theorem panel_lookup_markers (env : Env) (channel : Channel) (w : World) (i : Nat) (s : String)
    (cs : Option (List (List Button))) :
    (Action.edit i s cs ∈ issued (createClockButtons env channel) w →
        (∃ m ∈ w.messages, m.id = i ∧ m.authorId = w.me ∧ m.channelId = channel.id ∧
          i ∈ w.pins) ∨
        (i = w.nextId ∧
          Action.send channel.id clockContent ∈ issued (createClockButtons env channel) w)) ∧
      (Action.edit i s cs ∈ issued (updateRosterMessage env channel) w →
        (∃ m ∈ w.messages, m.id = i ∧ m.authorId = w.me ∧ m.channelId = channel.id ∧
          i ∈ w.pins) ∨
        (i = w.nextId ∧ ∃ content,
          Action.send channel.id content ∈ issued (updateRosterMessage env channel) w)) ∧
      (Action.edit i s cs ∈ issued (createContentSelectionButtons env channel) w →
        (∃ m ∈ (w.messages.filter (fun m => m.channelId == channel.id)).take 10,
          m.id = i ∧ m.authorId = w.me ∧ includes m.content "Content Selection" = true) ∨
        (i = w.nextId ∧ Action.send channel.id contentSelectionContent ∈
          issued (createContentSelectionButtons env channel) w)) ∧
      (Calm env → (w.messages.map (fun x => x.id)).Nodup →
        ∀ m ∈ w.messages, m.channelId = channel.id → m.id ∈ w.pins → m.authorId = w.me →
          ∃ m1 ∈ w.messages, m1.channelId = channel.id ∧ m1.id ∈ w.pins ∧
            m1.authorId = w.me ∧
            (∃ pre post, w.pins = pre ++ m1.id :: post ∧
              ∀ j ∈ pre, ∀ x ∈ w.messages, x.channelId = channel.id → x.id = j →
                x.authorId ≠ w.me) ∧
            issued (createClockButtons env channel) w =
              [Action.fetchPinned channel.id, Action.edit m1.id clockContent none,
               Action.edit m1.id clockContent (some [clockRow])] ∧
            issued (updateRosterMessage env channel) w =
              [Action.find w.guildId Cmp.gt (env.clock w.log.length),
               Action.fetchPinned channel.id,
               Action.edit m1.id (rosterText env w w.log.length) none,
               Action.edit m1.id (rosterText env w w.log.length) none]) ∧
      (Calm env →
        ∀ m ∈ (w.messages.filter (fun m => m.channelId == channel.id)).take 10,
          m.authorId = w.me → includes m.content "Content Selection" = true →
          ∃ m1 ∈ (w.messages.filter (fun m => m.channelId == channel.id)).take 10,
            m1.authorId = w.me ∧ includes m1.content "Content Selection" = true ∧
            issued (createContentSelectionButtons env channel) w =
              [Action.messagesFetch channel.id 10,
               Action.edit m1.id contentSelectionContent none,
               Action.edit m1.id contentSelectionContent (some contentRows)]) := by
  refine ⟨createClockButtons_edits env channel w i s cs,
    updateRosterMessage_edits env channel w i s cs,
    createContentSelectionButtons_edits env channel w i s cs, ?_, ?_⟩
  · intro hcalm hnodup m hm hchan hpin hme
    obtain ⟨m1, hfound, h1, h2, h3, h4, hfirst⟩ :=
      pinned_lookup_some w channel.id m hnodup hm hchan hpin hme
    obtain ⟨wc, rc, lc, -⟩ := createClockButtons_again hcalm channel w m1 hfound
    obtain ⟨wr, rr, lr, -⟩ := updateRosterMessage_again_text hcalm channel w m1 hfound
    refine ⟨m1, h1, h2, h3, h4, hfirst, ?_, ?_⟩
    · unfold issued; rw [rc, lc]; simp
    · unfold issued; rw [rr, lr]; simp
  · intro hcalm m hm hme hinc
    cases hres : ((chanMsgs w channel.id).take 10).find? (fun msg =>
        msg.authorId == w.me && includes msg.content "Content Selection") with
    | none =>
      rw [List.find?_eq_none] at hres
      exact absurd (by simp [hme, hinc]) (hres m hm)
    | some m1 =>
      have hp := List.find?_some hres
      have hin := List.mem_of_find?_eq_some hres
      obtain ⟨wc, rc, lc, -⟩ := createContentSelectionButtons_again hcalm channel w m1 hres
      simp only [Bool.and_eq_true, beq_iff_eq] at hp
      refine ⟨m1, hin, hp.1, hp.2, ?_⟩
      unfold issued; rw [rc, lc]; simp

set_option maxRecDepth 100000 in
/-- C8, at a guild whose clock-station and party-finder channels each hold one
pinned note of the bot without panel header: the note of the party-finder
channel (6) is selected by the roster lookup and edited in place, and
the note of the clock-station channel (5) by the clock lookup. -/
theorem panel_lookup_markers_witness :
    Calm (calmEnv 1000) ∧ (pinnedNotesWorld.messages.map (fun x => x.id)).Nodup ∧
      pinnedNotesWorld.messages = [⟨6, 50, 99, "Looking for a party? Ask here.", []⟩,
        ⟨5, 40, 99, "Server rules: be kind.", []⟩] ∧
      pinnedNotesWorld.pins = [6, 5] ∧ pinnedNotesWorld.me = 99 ∧
      (∃ m1 ∈ pinnedNotesWorld.messages, m1.channelId = sampleChannel.id ∧
        m1.id ∈ pinnedNotesWorld.pins ∧ m1.authorId = pinnedNotesWorld.me ∧
        (∃ pre post, pinnedNotesWorld.pins = pre ++ m1.id :: post ∧
          ∀ j ∈ pre, ∀ x ∈ pinnedNotesWorld.messages, x.channelId = sampleChannel.id →
            x.id = j → x.authorId ≠ pinnedNotesWorld.me) ∧
        issued (createClockButtons (calmEnv 1000) sampleChannel) pinnedNotesWorld =
          [Action.fetchPinned sampleChannel.id, Action.edit m1.id clockContent none,
           Action.edit m1.id clockContent (some [clockRow])] ∧
        issued (updateRosterMessage (calmEnv 1000) sampleChannel) pinnedNotesWorld =
          [Action.find pinnedNotesWorld.guildId Cmp.gt
             ((calmEnv 1000).clock pinnedNotesWorld.log.length),
           Action.fetchPinned sampleChannel.id,
           Action.edit m1.id
             (rosterText (calmEnv 1000) pinnedNotesWorld pinnedNotesWorld.log.length) none,
           Action.edit m1.id
             (rosterText (calmEnv 1000) pinnedNotesWorld pinnedNotesWorld.log.length) none]) ∧
      editedIds (issued (updateRosterMessage (calmEnv 1000) sampleChannel) pinnedNotesWorld) =
        [6, 6] ∧
      editedIds (issued (createClockButtons (calmEnv 1000) sampleClockChannel)
        pinnedNotesWorld) = [5, 5] :=
  ⟨fun _ _ => rfl, by decide, rfl, rfl, rfl,
    (panel_lookup_markers (calmEnv 1000) sampleChannel pinnedNotesWorld 0 "" none).2.2.2.1
      (fun _ _ => rfl) (by decide) ⟨6, 50, 99, "Looking for a party? Ask here.", []⟩
      (by decide) rfl (by decide) rfl,
    by decide, by decide⟩

/-! ## The order of the records -/

set_option maxRecDepth 100000 in
/-- C13 (counterexample). Two runs of `updateRosterMessage` that agree on the
set of active records, on the member cache, on the configuration and on the
time, and differ only in the order in which the query returns the two records:
the texts they send differ, in the player list and in the role breakdown. -/
theorem updateRosterMessage_order_dependent :
    annBobWorld.store.filter (fun r => isActive 7 1000 r) = [⟨7, 1, 5000⟩, ⟨7, 2, 5000⟩] ∧
      bobAnnWorld.store.filter (fun r => isActive 7 1000 r) = [⟨7, 2, 5000⟩, ⟨7, 1, 5000⟩] ∧
      (∀ r, r ∈ annBobWorld.store.filter (fun r => isActive 7 1000 r) ↔
        r ∈ bobAnnWorld.store.filter (fun r => isActive 7 1000 r)) ∧
      bobAnnWorld.members = annBobWorld.members ∧
      bobAnnWorld.guildId = annBobWorld.guildId ∧
      Action.send 50 (rosterText (calmEnv 1000) annBobWorld 0) ∈
        issued (updateRosterMessage (calmEnv 1000) sampleChannel) annBobWorld ∧
      Action.send 50 (rosterText (calmEnv 1000) bobAnnWorld 0) ∈
        issued (updateRosterMessage (calmEnv 1000) sampleChannel) bobAnnWorld ∧
      rosterContent sampleConfig annBobWorld.members 1000
          (annBobWorld.store.filter (fun r => isActive 7 1000 r)) =
        "**🎯 Active Players (2):**\n• Ann - Tank (<1m)\n• Bob - Healer (<1m)" ∧
      rosterContent sampleConfig bobAnnWorld.members 1000
          (bobAnnWorld.store.filter (fun r => isActive 7 1000 r)) =
        "**🎯 Active Players (2):**\n• Bob - Healer (<1m)\n• Ann - Tank (<1m)" ∧
      rosterText (calmEnv 1000) annBobWorld 0 ≠ rosterText (calmEnv 1000) bobAnnWorld 0 := by
  have h1 : annBobWorld.store.filter (fun r => isActive 7 1000 r) =
      [⟨7, 1, 5000⟩, ⟨7, 2, 5000⟩] := by decide
  have h2 : bobAnnWorld.store.filter (fun r => isActive 7 1000 r) =
      [⟨7, 2, 5000⟩, ⟨7, 1, 5000⟩] := by decide
  have hc1 : rosterContent sampleConfig annBobWorld.members 1000
      (annBobWorld.store.filter (fun r => isActive 7 1000 r)) =
      "**🎯 Active Players (2):**\n• Ann - Tank (<1m)\n• Bob - Healer (<1m)" := by decide
  have hc2 : rosterContent sampleConfig bobAnnWorld.members 1000
      (bobAnnWorld.store.filter (fun r => isActive 7 1000 r)) =
      "**🎯 Active Players (2):**\n• Bob - Healer (<1m)\n• Ann - Tank (<1m)" := by decide
  have hcalm : Calm (calmEnv 1000) := fun _ _ => rfl
  refine ⟨h1, h2, ?_, rfl, rfl, ?_, ?_, hc1, hc2, ?_⟩
  · intro r; rw [h1, h2]; simp [or_comm]
  · obtain ⟨w1, r, l, -⟩ := updateRosterMessage_new_text hcalm sampleChannel annBobWorld (by decide) (by decide)
    unfold issued; rw [r, l]; simp [annBobWorld, sampleChannel]
  · obtain ⟨w1, r, l, -⟩ := updateRosterMessage_new_text hcalm sampleChannel bobAnnWorld (by decide) (by decide)
    unfold issued; rw [r, l]; simp [bobAnnWorld, annBobWorld, sampleChannel]
  · decide

end Veilborn
